import Mathlib

/-! DungeonDelve: the BSP dungeon generator

A shallow embedding of `src/dungeon.c` (with the constants and types of
`src/game.h` and `src/dungeon.h`).

Modelling conventions.

* C `int` values are `Int`. All quantities of the generator are bounded by
  the grid size, so the embedding is exact wherever no `int` overflows. The
  subtractions of the combat code, whose operands are not bounded, wrap
  around at 32 bits (`cSub`).
* `rand()` is an explicit stream of naturals (`RandStream`); each call
  takes the head of the stream. `rand()` never returns a negative value.
* `a % b` and `a / b` on `int` truncate towards zero (`Int.tmod`,
  `Int.tdiv`); `% 0` is a fault.
* Undefined behaviour (modulo by zero, an array index outside its bounds,
  dereferencing `NULL`, reading a block that has been passed to `free`,
  passing a block to `free` twice) is an explicit `Fault`; every operation
  that can meet one returns `Except Fault _`.
* A `BSPNode *` is either `BSPNode.null` or a node with its fields. The
  `Room *room` field of a node is `none` for `NULL` or `some` block
  (`RoomBlock`): the value that `CreateRoomInNode` stored and whether the
  block has been passed to `free`. `malloc` always succeeds; the node blocks
  themselves are freed only at the end of `FreeBSPTree` and are never read
  afterwards.
* `GameMap.tiles` is a function on all integer pairs; only the cells with
  `0 ≤ x < MAP_WIDTH` and `0 ≤ y < MAP_HEIGHT` belong to the C array, and
  only those are ever read or written without a fault.
-/

namespace DungeonDelve

/-! ## Constants and types (`game.h`, `dungeon.h`) -/

def MAP_WIDTH : Int := 80
def MAP_HEIGHT : Int := 45
def MAX_ROOMS : Int := 15
def MIN_ROOM_SIZE : Int := 5

inductive TileType where
  | TILE_FLOOR
  | TILE_WALL
  | TILE_DOOR
  | TILE_EMPTY
  deriving DecidableEq, Repr

structure Room where
  x : Int
  y : Int
  width : Int
  height : Int
  deriving DecidableEq, Repr

structure GameMap where
  tiles : Int → Int → TileType
  rooms : Int → Room
  roomCount : Int

/-- A `Room` block obtained from `malloc`: the value stored in it and whether
the block has been passed to `free`. A pointer to a freed block is still not
`NULL`. -/
structure RoomBlock where
  room : Room
  freed : Bool
  deriving DecidableEq, Repr

inductive BSPNode where
  | null : BSPNode
  | node (x y width height : Int) (left right : BSPNode) (room : Option RoomBlock) : BSPNode
  deriving DecidableEq, Repr

inductive Fault where
  | divByZero
  | outOfBounds
  | nullDeref
  | useAfterFree
  | doubleFree
  deriving DecidableEq, Repr

/-! ## Machine-level helpers -/

abbrev RandStream := Nat → Nat

/-- One call of `rand()`: the value drawn and the rest of the stream. -/
def rand (s : RandStream) : Int × RandStream :=
  ((s 0 : Int), fun i => s (i + 1))

/-- The C expression `a % b` on `int`. -/
def cMod (a b : Int) : Except Fault Int :=
  if b = 0 then .error .divByZero else .ok (Int.tmod a b)

/-- The power of two by which a natural number is scaled down to fit the 24
significant bits of a single-precision `float`; `fuel` halvings are tried,
and 8 are enough for the absolute value of an `int`. -/
def floatUnit : Nat → Nat → Nat
  | 0, _ => 1
  | fuel + 1, n => if n < 16777216 then 1 else 2 * floatUnit fuel (n / 2)

/-- The conversion `(float)a` of an `int` in IEEE single precision: `a`
rounded to 24 significant bits, to the nearest representable value, ties to
the even significand. Values below `2^24` in absolute value are kept. -/
def toFloat (a : Int) : Int :=
  let n := a.natAbs
  let u := floatUnit 8 n
  let q := n / u
  let r := n % u
  let m := if 2 * r < u then q else if u < 2 * r then q + 1 else if q % 2 = 0 then q else q + 1
  if a < 0 then -((m * u : Nat) : Int) else ((m * u : Nat) : Int)

/-- The C test `(float)a / b >= 1.25`, the division carried out in IEEE
single precision. Both operands are converted to `float`; the quotient is
rounded to the nearest `float`, ties to even. The `float` just below `1.25`
is `1.25 - 2^-23` and `1.25` has an even significand, so the rounded
quotient is at least `1.25` exactly when the exact quotient of the two
floats is at least the midpoint `1.25 - 2^-24 = 20971519 / 16777216`. A zero
divisor gives an infinity or a NaN, never a fault. -/
def ratioAtLeast125 (a b : Int) : Bool :=
  let fa := toFloat a
  let fb := toFloat b
  if 0 < fb then decide (20971519 * fb ≤ 16777216 * fa)
  else if fb = 0 then decide (0 < fa)
  else decide (16777216 * fa ≤ 20971519 * fb)

/-- The counting loop `for (int i = lo; ...; i++) body`, run `count` times. -/
def forLoop {σ : Type} (lo : Int) (count : Nat) (body : Int → σ → Except Fault σ)
    (st : σ) : Except Fault σ :=
  match count with
  | 0 => .ok st
  | n + 1 =>
    match body lo st with
    | .error e => .error e
    | .ok st1 => forLoop (lo + 1) n body st1

/-- The loop `for (int i = lo; i < hi; i++) body`. -/
def forLt {σ : Type} (lo hi : Int) (body : Int → σ → Except Fault σ) (st : σ) :
    Except Fault σ :=
  forLoop lo (hi - lo).toNat body st

/-- The loop `for (int i = lo; i <= hi; i++) body`. -/
def forLe {σ : Type} (lo hi : Int) (body : Int → σ → Except Fault σ) (st : σ) :
    Except Fault σ :=
  forLoop lo (hi + 1 - lo).toNat body st

def inGrid (x y : Int) : Prop :=
  0 ≤ x ∧ x < MAP_WIDTH ∧ 0 ≤ y ∧ y < MAP_HEIGHT

instance (x y : Int) : Decidable (inGrid x y) := by
  unfold inGrid; infer_instance

/-- The read `map->tiles[x][y]`. -/
def getTile (map : GameMap) (x y : Int) : Except Fault TileType :=
  if inGrid x y then .ok (map.tiles x y) else .error .outOfBounds

/-- The write `map->tiles[x][y] = t`. -/
def setTile (map : GameMap) (x y : Int) (t : TileType) : Except Fault GameMap :=
  if inGrid x y then
    .ok { map with tiles := fun a b => if a = x ∧ b = y then t else map.tiles a b }
  else .error .outOfBounds

/-- The write `map->rooms[i] = room`. -/
def setRoom (map : GameMap) (i : Int) (room : Room) : Except Fault GameMap :=
  if 0 ≤ i ∧ i < MAX_ROOMS then
    .ok { map with rooms := fun k => if k = i then room else map.rooms k }
  else .error .outOfBounds

/-! ## BSP tree builder -/

def CreateNode (x y width height : Int) : BSPNode :=
  .node x y width height .null .null none

/-- The function `SplitNode`: the returned flag, the node after the call and the rest of
the random stream. -/
def SplitNode (node : BSPNode) (minSize : Int) (s : RandStream) :
    Except Fault (Bool × BSPNode × RandStream) :=
  match node with
  | .null => .error .nullDeref
  | .node x y width height left right room =>
    if width ≤ minSize * 2 ∨ height ≤ minSize * 2 then
      .ok (false, .node x y width height left right room, s)
    else
      let choice : Bool × RandStream :=
        if width > height ∧ ratioAtLeast125 width height = true then (false, s)
        else if height > width ∧ ratioAtLeast125 height width = true then (true, s)
        else (decide (Int.tmod (rand s).1 2 = 0), (rand s).2)
      let horizontalSplit := choice.1
      let s1 := choice.2
      if horizontalSplit = true then
        match cMod (rand s1).1 (height - minSize * 2) with
        | .error e => .error e
        | .ok r =>
          let splitPosition := y + minSize + r
          .ok (true,
            .node x y width height
              (CreateNode x y width (splitPosition - y))
              (CreateNode x splitPosition width (height - (splitPosition - y)))
              room,
            (rand s1).2)
      else
        match cMod (rand s1).1 (width - minSize * 2) with
        | .error e => .error e
        | .ok r =>
          let splitPosition := x + minSize + r
          .ok (true,
            .node x y width height
              (CreateNode x y (splitPosition - x) height)
              (CreateNode splitPosition y (width - (splitPosition - x)) height)
              room,
            (rand s1).2)

/-- The function `GenerateBSPTree` with the remaining depth budget as a natural number:
budget `0` is the case `maxDepth <= 0`. -/
def GenerateBSPTreeFuel (depth : Nat) (node : BSPNode) (minSize : Int) (s : RandStream) :
    Except Fault (BSPNode × RandStream) :=
  match depth with
  | 0 => .ok (node, s)
  | d + 1 =>
    match SplitNode node minSize s with
    | .error e => .error e
    | .ok (false, node1, s1) => .ok (node1, s1)
    | .ok (true, .null, _) => .error .nullDeref
    | .ok (true, .node x y width height left right room, s1) =>
      match GenerateBSPTreeFuel d left minSize s1 with
      | .error e => .error e
      | .ok (left1, s2) =>
        match GenerateBSPTreeFuel d right minSize s2 with
        | .error e => .error e
        | .ok (right1, s3) => .ok (.node x y width height left1 right1 room, s3)

def GenerateBSPTree (node : BSPNode) (minSize : Int) (maxDepth : Int) (s : RandStream) :
    Except Fault (BSPNode × RandStream) :=
  GenerateBSPTreeFuel maxDepth.toNat node minSize s

/-! ## Room carver -/

def InitializeMap (map : GameMap) : Except Fault GameMap :=
  match forLt 0 MAP_WIDTH (fun x m =>
      forLt 0 MAP_HEIGHT (fun y m1 => setTile m1 x y .TILE_EMPTY) m) map with
  | .error e => .error e
  | .ok map1 => .ok { map1 with roomCount := 0 }

/-- The body of the first wall loop of `CreateRoom` (rows above and below). -/
def wallRowsBody (y height : Int) (i : Int) (m : GameMap) : Except Fault GameMap :=
  if i ≥ 0 ∧ i < MAP_WIDTH then
    match (if y - 1 ≥ 0 then setTile m i (y - 1) .TILE_WALL else .ok m) with
    | .error e => .error e
    | .ok m1 => if y + height < MAP_HEIGHT then setTile m1 i (y + height) .TILE_WALL else .ok m1
  else .ok m

/-- The body of the second wall loop of `CreateRoom` (columns left and right). -/
def wallColsBody (x width : Int) (j : Int) (m : GameMap) : Except Fault GameMap :=
  if j ≥ 0 ∧ j < MAP_HEIGHT then
    match (if x - 1 ≥ 0 then setTile m (x - 1) j .TILE_WALL else .ok m) with
    | .error e => .error e
    | .ok m1 => if x + width < MAP_WIDTH then setTile m1 (x + width) j .TILE_WALL else .ok m1
  else .ok m

def CreateRoom (map : GameMap) (x y width height : Int) : Except Fault GameMap :=
  match forLt x (x + width) (fun i m =>
      forLt y (y + height) (fun j m1 => setTile m1 i j .TILE_FLOOR) m) map with
  | .error e => .error e
  | .ok map1 =>
    match forLe (x - 1) (x + width) (wallRowsBody y height) map1 with
    | .error e => .error e
    | .ok map2 => forLe (y - 1) (y + height) (wallColsBody x width) map2

/-- The function `CreateRoomInNode`: the room in the returned block (`none` for `NULL`),
the node after the call, whose `room` field points to that fresh block, and the rest of
the random stream. -/
def CreateRoomInNode (node : BSPNode) (minRoomSize : Int) (s : RandStream) :
    Except Fault (Option Room × BSPNode × RandStream) :=
  match node with
  | .null => .error .nullDeref
  | .node x y width height left right room =>
    if left ≠ .null ∨ right ≠ .null then
      .ok (none, .node x y width height left right room, s)
    else
      match cMod (rand s).1 (width - minRoomSize - 2) with
      | .error e => .error e
      | .ok rw =>
        let roomWidth := minRoomSize + rw
        let s1 := (rand s).2
        match cMod (rand s1).1 (height - minRoomSize - 2) with
        | .error e => .error e
        | .ok rh =>
          let roomHeight := minRoomSize + rh
          let s2 := (rand s1).2
          let roomX0 := x + Int.tdiv (width - roomWidth) 2
          let roomY0 := y + Int.tdiv (height - roomHeight) 2
          let roomX1 := roomX0 + (Int.tmod (rand s2).1 3 - 1)
          let s3 := (rand s2).2
          let roomY1 := roomY0 + (Int.tmod (rand s3).1 3 - 1)
          let s4 := (rand s3).2
          let roomX2 := if roomX1 < x then x else roomX1
          let roomY2 := if roomY1 < y then y else roomY1
          let roomX3 := if roomX2 + roomWidth > x + width then x + width - roomWidth else roomX2
          let roomY3 :=
            if roomY2 + roomHeight > y + height then y + height - roomHeight else roomY2
          let newRoom : Room :=
            { x := roomX3, y := roomY3, width := roomWidth, height := roomHeight }
          .ok (some newRoom, .node x y width height left right (some ⟨newRoom, false⟩), s4)

/-- The call `free(room)` of `CreateRoomsInBSP`, on the block that the `room`
field of the node points to: the block is marked freed and the field keeps
pointing to it. -/
def freeRoom (node : BSPNode) : Except Fault BSPNode :=
  match node with
  | .null => .error .nullDeref
  | .node x y width height left right none => .ok (.node x y width height left right none)
  | .node x y width height left right (some block) =>
    if block.freed = true then .error .doubleFree
    else .ok (.node x y width height left right (some { block with freed := true }))

/-- The function `CreateRoomsInBSP`: the tree with the rooms stored in its leaves (the
block of every room copied to the map is freed), the map and the rest of the random
stream. -/
def CreateRoomsInBSP (node : BSPNode) (map : GameMap) (minRoomSize : Int) (s : RandStream) :
    Except Fault (BSPNode × GameMap × RandStream) :=
  match node with
  | .null => .ok (.null, map, s)
  | .node x y width height left right room =>
    if left = .null ∧ right = .null then
      match CreateRoomInNode (.node x y width height left right room) minRoomSize s with
      | .error e => .error e
      | .ok (none, node1, s1) => .ok (node1, map, s1)
      | .ok (some newRoom, node1, s1) =>
        if map.roomCount < MAX_ROOMS then
          match setRoom map map.roomCount newRoom with
          | .error e => .error e
          | .ok map1 =>
            match CreateRoom { map1 with roomCount := map1.roomCount + 1 }
                newRoom.x newRoom.y newRoom.width newRoom.height with
            | .error e => .error e
            | .ok map2 =>
              match freeRoom node1 with
              | .error e => .error e
              | .ok node2 => .ok (node2, map2, s1)
        else .ok (node1, map, s1)
    else
      match CreateRoomsInBSP left map minRoomSize s with
      | .error e => .error e
      | .ok (left1, map1, s1) =>
        match CreateRoomsInBSP right map1 minRoomSize s1 with
        | .error e => .error e
        | .ok (right1, map2, s2) => .ok (.node x y width height left1 right1 room, map2, s2)

/-! ## Corridor connector -/

/-- The corridor side wall: the statement
`if (guard && map->tiles[x][y] == TILE_EMPTY) map->tiles[x][y] = TILE_WALL;`
where `guard` is the one-sided bound test; the tile is read only when the
guard holds. -/
def wallIfEmpty (guard : Bool) (m : GameMap) (x y : Int) : Except Fault GameMap :=
  if guard = true then
    match getTile m x y with
    | .error e => .error e
    | .ok t => if t = .TILE_EMPTY then setTile m x y .TILE_WALL else .ok m
  else .ok m

/-- The body of the two horizontal corridor loops of `ConnectRooms`, on row `row`. -/
def corridorRowBody (row : Int) (x : Int) (m : GameMap) : Except Fault GameMap :=
  match setTile m x row .TILE_FLOOR with
  | .error e => .error e
  | .ok m1 =>
    match wallIfEmpty (decide (row - 1 ≥ 0)) m1 x (row - 1) with
    | .error e => .error e
    | .ok m2 => wallIfEmpty (decide (row + 1 < MAP_HEIGHT)) m2 x (row + 1)

/-- The body of the vertical corridor loop of `ConnectRooms`, on column `col`. -/
def corridorColBody (col : Int) (y : Int) (m : GameMap) : Except Fault GameMap :=
  match setTile m col y .TILE_FLOOR with
  | .error e => .error e
  | .ok m1 =>
    match wallIfEmpty (decide (col - 1 ≥ 0)) m1 (col - 1) y with
    | .error e => .error e
    | .ok m2 => wallIfEmpty (decide (col + 1 < MAP_WIDTH)) m2 (col + 1) y

/-- The macros `MIN` and `MAX` of `game.h`. -/
def MIN (a b : Int) : Int := if a < b then a else b

def MAX (a b : Int) : Int := if a > b then a else b

def ConnectRooms (map : GameMap) (room1 room2 : Room) (s : RandStream) :
    Except Fault (GameMap × RandStream) :=
  let x1 := room1.x + Int.tdiv room1.width 2
  let y1 := room1.y + Int.tdiv room1.height 2
  let x2 := room2.x + Int.tdiv room2.width 2
  let y2 := room2.y + Int.tdiv room2.height 2
  let evenRoll : Bool := decide (Int.tmod (rand s).1 2 = 0)
  let s1 := (rand s).2
  let cornerX := if evenRoll = true then x2 else x1
  let cornerY := if evenRoll = true then y1 else y2
  match forLe (MIN x1 cornerX) (MAX x1 cornerX) (corridorRowBody y1) map with
  | .error e => .error e
  | .ok map1 =>
    match forLe (MIN y1 cornerY) (MAX y1 cornerY) (corridorColBody cornerX) map1 with
    | .error e => .error e
    | .ok map2 =>
      match forLe (MIN cornerX x2) (MAX cornerX x2) (corridorRowBody cornerY) map2 with
      | .error e => .error e
      | .ok map3 =>
        let s2 := (rand s1).2
        match (if Int.tmod (rand s1).1 100 < 30 then setTile map3 x1 y1 .TILE_DOOR
               else .ok map3) with
        | .error e => .error e
        | .ok map4 =>
          let s3 := (rand s2).2
          match (if Int.tmod (rand s2).1 100 < 30 then setTile map4 x2 y2 .TILE_DOOR
                 else .ok map4) with
          | .error e => .error e
          | .ok map5 => .ok (map5, s3)

/-- The loop `while (leaf->left != NULL || leaf->right != NULL) ...` of
`ConnectRoomsInBSP`: the leaf it stops at and the rest of the random stream. -/
def descendToLeaf (leaf : BSPNode) (s : RandStream) : Except Fault (BSPNode × RandStream) :=
  match leaf with
  | .null => .error .nullDeref
  | .node x y width height left right room =>
    if left ≠ .null ∨ right ≠ .null then
      if left ≠ .null then
        if Int.tmod (rand s).1 2 = 0 ∨ right = .null then descendToLeaf left (rand s).2
        else descendToLeaf right (rand s).2
      else descendToLeaf right s
    else .ok (.node x y width height left right room, s)

/-- The field `node->room`, a pointer: reading it does not read the block. -/
def nodeRoom (node : BSPNode) : Except Fault (Option RoomBlock) :=
  match node with
  | .null => .error .nullDeref
  | .node _ _ _ _ _ _ room => .ok room

/-- The function `ConnectRoomsInBSP`. The call `ConnectRooms(map, *leftRoom, *rightRoom)`
reads the two blocks; reading a freed block is a fault. -/
def ConnectRoomsInBSP (node : BSPNode) (map : GameMap) (s : RandStream) :
    Except Fault (GameMap × RandStream) :=
  match node with
  | .null => .ok (map, s)
  | .node _ _ _ _ left right _ =>
    if left ≠ .null ∧ right ≠ .null then
      match descendToLeaf left s with
      | .error e => .error e
      | .ok (leftLeaf, s1) =>
        match nodeRoom leftLeaf with
        | .error e => .error e
        | .ok leftRoom =>
          match descendToLeaf right s1 with
          | .error e => .error e
          | .ok (rightLeaf, s2) =>
            match nodeRoom rightLeaf with
            | .error e => .error e
            | .ok rightRoom =>
              match (match leftRoom, rightRoom with
                     | some b1, some b2 =>
                       if b1.freed = true ∨ b2.freed = true then
                         (.error .useAfterFree : Except Fault (GameMap × RandStream))
                       else ConnectRooms map b1.room b2.room s2
                     | _, _ => .ok (map, s2)) with
              | .error e => .error e
              | .ok (map1, s3) =>
                match ConnectRoomsInBSP left map1 s3 with
                | .error e => .error e
                | .ok (map2, s4) => ConnectRoomsInBSP right map2 s4
    else .ok (map, s)

/-! ## Map generator -/

/-- The function `FreeBSPTree`: the two subtrees first, then the block of the
room when the field is not `NULL`, then the node. Freeing a block that has
been freed already is a fault. -/
def FreeBSPTree : BSPNode → Except Fault Unit
  | .null => .ok ()
  | .node _ _ _ _ left right room =>
    match FreeBSPTree left with
    | .error e => .error e
    | .ok _ =>
      match FreeBSPTree right with
      | .error e => .error e
      | .ok _ =>
        match room with
        | none => .ok ()
        | some block => if block.freed = true then .error .doubleFree else .ok ()

def GenerateBSPDungeon (map : GameMap) (s : RandStream) : Except Fault (GameMap × RandStream) :=
  match InitializeMap map with
  | .error e => .error e
  | .ok map0 =>
    let rootNode := CreateNode 0 0 MAP_WIDTH MAP_HEIGHT
    let maxDepth : Int := 5
    match GenerateBSPTree rootNode MIN_ROOM_SIZE maxDepth s with
    | .error e => .error e
    | .ok (tree, s1) =>
      match CreateRoomsInBSP tree map0 MIN_ROOM_SIZE s1 with
      | .error e => .error e
      | .ok (tree1, map1, s2) =>
        match ConnectRoomsInBSP tree1 map1 s2 with
        | .error e => .error e
        | .ok (map2, s3) =>
          match FreeBSPTree tree1 with
          | .error e => .error e
          | .ok _ => .ok (map2, s3)

/-! ## Vocabulary of the properties -/

/-- A tile that can be walked on: Floor or Door. -/
def isWalkableTile (t : TileType) : Bool :=
  match t with
  | .TILE_FLOOR => true
  | .TILE_DOOR => true
  | _ => false

/-- The cell `(x, y)` is in the grid and holds a Floor or Door tile. -/
def Walkable (map : GameMap) (x y : Int) : Prop :=
  inGrid x y ∧ isWalkableTile (map.tiles x y) = true

/-- The cells `(a, b)` and `(c, d)` are neighbours in one of the 4 directions. -/
def Adjacent4 (a b c d : Int) : Prop :=
  (a = c ∧ (d = b + 1 ∨ d = b - 1)) ∨ (b = d ∧ (c = a + 1 ∨ c = a - 1))

/-- The set filled by a 4-directional flood fill over Floor and Door tiles
that starts at `(x0, y0)`. -/
inductive Reachable (map : GameMap) (x0 y0 : Int) : Int → Int → Prop where
  | start : Walkable map x0 y0 → Reachable map x0 y0 x0 y0
  | step {a b c d : Int} : Reachable map x0 y0 a b → Adjacent4 a b c d →
      Walkable map c d → Reachable map x0 y0 c d

def roomCenterX (r : Room) : Int := r.x + Int.tdiv r.width 2

def roomCenterY (r : Room) : Int := r.y + Int.tdiv r.height 2

/-- The node `leaf` is a leaf (no children) of the tree `t`, at depth `k`. -/
inductive LeafAt : BSPNode → Nat → BSPNode → Prop where
  | here (x y width height : Int) (room : Option RoomBlock) :
      LeafAt (.node x y width height .null .null room) 0
        (.node x y width height .null .null room)
  | inLeft {x y width height : Int} {left right : BSPNode} {room : Option RoomBlock}
      {k : Nat} {leaf : BSPNode} :
      LeafAt left k leaf → LeafAt (.node x y width height left right room) (k + 1) leaf
  | inRight {x y width height : Int} {left right : BSPNode} {room : Option RoomBlock}
      {k : Nat} {leaf : BSPNode} :
      LeafAt right k leaf → LeafAt (.node x y width height left right room) (k + 1) leaf

def nodeLeft : BSPNode → BSPNode
  | .null => .null
  | .node _ _ _ _ left _ _ => left

def nodeRight : BSPNode → BSPNode
  | .null => .null
  | .node _ _ _ _ _ right _ => right

def nodeWidth : BSPNode → Int
  | .null => 0
  | .node _ _ width _ _ _ _ => width

def nodeHeight : BSPNode → Int
  | .null => 0
  | .node _ _ _ height _ _ _ => height

/-- The map `m1` is the map `m` with the tiles of the cells in `P` set to
`t`; every other tile, the room slots and the room count are as in `m`. -/
def Painted (m m1 : GameMap) (P : Int → Int → Prop) (t : TileType) : Prop :=
  m1.rooms = m.rooms ∧ m1.roomCount = m.roomCount ∧
  (∀ a b, P a b → m1.tiles a b = t) ∧ (∀ a b, ¬ P a b → m1.tiles a b = m.tiles a b)

/-- The cell `(x, y)` is outside the grid or holds neither Floor nor Door. -/
def notWalkableB (map : GameMap) (x y : Int) : Bool :=
  !(decide (inGrid x y) && isWalkableTile (map.tiles x y))

/-- No cell that touches the rectangle `[a, b] x [c, d]` from outside, on any
of its four sides, can be walked on. -/
def enclosedB (map : GameMap) (a b c d : Int) : Bool :=
  (List.range (b + 1 - a).toNat).all (fun k =>
    notWalkableB map (a + k) (c - 1) && notWalkableB map (a + k) (d + 1)) &&
  (List.range (d + 1 - c).toNat).all (fun k =>
    notWalkableB map (a - 1) (c + k) && notWalkableB map (b + 1) (c + k))

/-- The computation `e` returns a value, and the test `P` holds of it. -/
def checkOk {α : Type} (e : Except Fault α) (P : α → Bool) : Bool :=
  match e with
  | .error _ => false
  | .ok a => P a

def walkableB (map : GameMap) (x y : Int) : Bool :=
  decide (inGrid x y) && isWalkableTile (map.tiles x y)

def adjacent4B (p q : Int × Int) : Bool :=
  (decide (p.1 = q.1) && (decide (q.2 = p.2 + 1) || decide (q.2 = p.2 - 1))) ||
  (decide (p.2 = q.2) && (decide (q.1 = p.1 + 1) || decide (q.1 = p.1 - 1)))

/-- Every cell of the list can be walked on and every cell is a 4-neighbour
of the one before it. -/
def pathOkB (map : GameMap) : List (Int × Int) → Bool
  | [] => true
  | p :: rest =>
    walkableB map p.1 p.2 &&
    (match rest with
     | [] => true
     | q :: _ => adjacent4B p q) &&
    pathOkB map rest

/-- The last cell of a path that starts at `p`. -/
def pathEnd (p : Int × Int) : List (Int × Int) → Int × Int
  | [] => p
  | q :: rest => pathEnd q rest

def emptyMap : GameMap :=
  { tiles := fun _ _ => .TILE_EMPTY, rooms := fun _ => ⟨0, 0, 0, 0⟩, roomCount := 0 }

def streamOf (l : List Nat) : RandStream := fun i => l.getD i 0

/-- The empty map with the rooms `(1, 1, 5, 5)` and `(10, 10, 5, 5)` stamped. -/
def twoRoomsMap : Except Fault GameMap :=
  match CreateRoom emptyMap 1 1 5 5 with
  | .error e => .error e
  | .ok m => CreateRoom m 10 10 5 5

/-- The cells from `(3, 3)` down to `(3, 12)` and then right to `(12, 12)`. -/
def elbowPath : List (Int × Int) :=
  (List.range 10).map (fun k => ((3 : Int), (3 : Int) + k)) ++
  (List.range 9).map (fun k => ((4 : Int) + k, (12 : Int)))

/-- A stream on which `GenerateBSPDungeon` builds six leaves, all at least 8
wide and high, and six rooms of size 5x5; every draw after the listed ones
is 0. -/
def sixRoomsStream : RandStream :=
  streamOf [3, 3, 3, 3, 3, 0, 15,
    0, 0, 1, 1, 0, 0, 1, 1, 0, 0, 1, 1, 0, 0, 1, 1, 0, 0, 1, 1, 0, 0, 1, 1]


/-! ## Entities (`game.h`, `entities.c`) -/

def MAX_ENEMIES : Int := 20
def MAX_ITEMS : Int := 30

inductive ItemType where
  | ITEM_HEALTH_POTION
  | ITEM_WEAPON
  | ITEM_ARMOR
  | ITEM_GOLD
  | ITEM_COUNT
  deriving DecidableEq, Repr

inductive EnemyType where
  | ENEMY_RAT
  | ENEMY_GOBLIN
  | ENEMY_ORC
  | ENEMY_TROLL
  | ENEMY_COUNT
  deriving DecidableEq, Repr

structure Player where
  x : Int
  y : Int
  health : Int
  maxHealth : Int
  attack : Int
  defense : Int
  deriving DecidableEq, Repr

structure Enemy where
  x : Int
  y : Int
  name : String
  health : Int
  maxHealth : Int
  attack : Int
  defense : Int
  spriteIndex : Int
  sightRange : Int
  type : EnemyType
  active : Bool
  aggro : Bool
  deriving DecidableEq, Repr

structure Item where
  x : Int
  y : Int
  name : String
  value : Int
  spriteIndex : Int
  type : ItemType
  active : Bool
  deriving DecidableEq, Repr

structure GameState where
  player : Player
  enemies : Int → Enemy
  items : Int → Item
  enemyCount : Int
  itemCount : Int
  turn : Int
  playerTurn : Bool
  level : Int
  gameOver : Bool
  message : String

/-- The read `map->rooms[i]`. -/
def getRoom (map : GameMap) (i : Int) : Except Fault Room :=
  if 0 ≤ i ∧ i < MAX_ROOMS then .ok (map.rooms i) else .error .outOfBounds

/-- The switch of `CreateEnemy`: the fields set for each enemy type; any
other value of the enumeration leaves them as they are. -/
def enemyTemplate (type : EnemyType) (e : Enemy) : Enemy :=
  match type with
  | .ENEMY_RAT =>
    { e with name := "Rat", health := 10, maxHealth := 10, attack := 3, defense := 1,
             spriteIndex := 16, sightRange := 4 }
  | .ENEMY_GOBLIN =>
    { e with name := "Goblin", health := 15, maxHealth := 15, attack := 5, defense := 2,
             spriteIndex := 17, sightRange := 5 }
  | .ENEMY_ORC =>
    { e with name := "Orc", health := 25, maxHealth := 25, attack := 8, defense := 3,
             spriteIndex := 18, sightRange := 6 }
  | .ENEMY_TROLL =>
    { e with name := "Troll", health := 40, maxHealth := 40, attack := 12, defense := 5,
             spriteIndex := 19, sightRange := 4 }
  | .ENEMY_COUNT => e

def CreateEnemy (state : GameState) (x y : Int) (type : EnemyType) : Except Fault GameState :=
  if state.enemyCount ≥ MAX_ENEMIES then .ok state
  else if 0 ≤ state.enemyCount then
    let slot := state.enemyCount
    let e0 : Enemy :=
      { state.enemies slot with x := x, y := y, type := type, active := true, aggro := false }
    let e1 := enemyTemplate type e0
    .ok { state with
      enemies := fun k => if k = slot then e1 else state.enemies k,
      enemyCount := state.enemyCount + 1 }
  else .error .outOfBounds

/-- The switch of `CreateItem`: the fields set for each item type and the rest
of the random stream (only Gold draws a value). -/
def itemTemplate (type : ItemType) (it : Item) (s : RandStream) : Item × RandStream :=
  match type with
  | .ITEM_HEALTH_POTION => ({ it with name := "Health Potion", value := 20, spriteIndex := 32 }, s)
  | .ITEM_WEAPON => ({ it with name := "Sword", value := 5, spriteIndex := 33 }, s)
  | .ITEM_ARMOR => ({ it with name := "Armor", value := 3, spriteIndex := 34 }, s)
  | .ITEM_GOLD =>
    ({ it with name := "Gold", value := 10 + Int.tmod (rand s).1 20, spriteIndex := 35 },
      (rand s).2)
  | .ITEM_COUNT => (it, s)

def CreateItem (state : GameState) (x y : Int) (type : ItemType) (s : RandStream) :
    Except Fault (GameState × RandStream) :=
  if state.itemCount ≥ MAX_ITEMS then .ok (state, s)
  else if 0 ≤ state.itemCount then
    let slot := state.itemCount
    let i0 : Item := { state.items slot with x := x, y := y, type := type, active := true }
    let r := itemTemplate type i0 s
    .ok ({ state with
      items := fun k => if k = slot then r.1 else state.items k,
      itemCount := state.itemCount + 1 }, r.2)
  else .error .outOfBounds

/-- The enemy type chosen by `PlaceEntities` for the roll `r`. -/
def enemyTypeOfRoll (r : Int) : EnemyType :=
  if r < 40 then .ENEMY_RAT
  else if r < 70 then .ENEMY_GOBLIN
  else if r < 90 then .ENEMY_ORC
  else .ENEMY_TROLL

/-- The item type chosen by `PlaceEntities` for the roll `r`. -/
def itemTypeOfRoll (r : Int) : ItemType :=
  if r < 30 then .ITEM_HEALTH_POTION
  else if r < 50 then .ITEM_WEAPON
  else if r < 70 then .ITEM_ARMOR
  else .ITEM_GOLD

/-- The enemy half of one iteration of the room loop of `PlaceEntities`. -/
def placeEnemyInRoom (room : Room) (st : GameState × RandStream) :
    Except Fault (GameState × RandStream) :=
  let s1 := (rand st.2).2
  if Int.tmod (rand st.2).1 100 < 60 then
    match cMod (rand s1).1 (room.width - 2) with
    | .error e => .error e
    | .ok ox =>
      let enemyX := room.x + 1 + ox
      let s2 := (rand s1).2
      match cMod (rand s2).1 (room.height - 2) with
      | .error e => .error e
      | .ok oy =>
        let enemyY := room.y + 1 + oy
        let s3 := (rand s2).2
        let r := Int.tmod (rand s3).1 100
        let s4 := (rand s3).2
        match CreateEnemy st.1 enemyX enemyY (enemyTypeOfRoll r) with
        | .error e => .error e
        | .ok state1 => .ok (state1, s4)
  else .ok (st.1, s1)

/-- The item half of one iteration of the room loop of `PlaceEntities`. -/
def placeItemInRoom (room : Room) (st : GameState × RandStream) :
    Except Fault (GameState × RandStream) :=
  let s1 := (rand st.2).2
  if Int.tmod (rand st.2).1 100 < 40 then
    match cMod (rand s1).1 (room.width - 2) with
    | .error e => .error e
    | .ok ox =>
      let itemX := room.x + 1 + ox
      let s2 := (rand s1).2
      match cMod (rand s2).1 (room.height - 2) with
      | .error e => .error e
      | .ok oy =>
        let itemY := room.y + 1 + oy
        let s3 := (rand s2).2
        let r := Int.tmod (rand s3).1 100
        let s4 := (rand s3).2
        CreateItem st.1 itemX itemY (itemTypeOfRoll r) s4
  else .ok (st.1, s1)

/-- One iteration of the room loop of `PlaceEntities`. -/
def placeInRoom (map : GameMap) (i : Int) (st : GameState × RandStream) :
    Except Fault (GameState × RandStream) :=
  match getRoom map i with
  | .error e => .error e
  | .ok room =>
    match placeEnemyInRoom room st with
    | .error e => .error e
    | .ok st1 => placeItemInRoom room st1

def PlaceEntities (state : GameState) (map : GameMap) (s : RandStream) :
    Except Fault (GameState × RandStream) :=
  forLt 1 map.roomCount (placeInRoom map) ({ state with enemyCount := 0, itemCount := 0 }, s)

/-- The function `MoveEntity`: the returned flag, the position after the call
and the map after the call. -/
def MoveEntity (x y dx dy : Int) (map : GameMap) : Except Fault (Bool × Int × Int × GameMap) :=
  let newX := x + dx
  let newY := y + dy
  if newX < 0 ∨ newX ≥ MAP_WIDTH ∨ newY < 0 ∨ newY ≥ MAP_HEIGHT then .ok (false, x, y, map)
  else
    match getTile map newX newY with
    | .error e => .error e
    | .ok tile =>
      if tile = .TILE_FLOOR ∨ tile = .TILE_DOOR then .ok (true, newX, newY, map)
      else .ok (false, x, y, map)

/-- The C function `abs` on `int`. -/
def cAbs (a : Int) : Int := if a < 0 then -a else a

/-- The loop `while (1)` of `IsVisible`, run for at most `fuel` iterations:
`some b` when the function returns `b` within them, `none` when the loop is
still running after them. -/
def IsVisibleLoop (map : GameMap) (x2 y2 dx dy sx sy : Int) :
    Nat → Int → Int → Int → Except Fault (Option Bool)
  | 0, _, _, _ => .ok none
  | fuel + 1, x1, y1, err =>
    if x1 = x2 ∧ y1 = y2 then .ok (some true)
    else
      let e2 := 2 * err
      if e2 ≥ dy ∧ x1 = x2 then .ok (some true)
      else
        let err1 := if e2 ≥ dy then err + dy else err
        let x1a := if e2 ≥ dy then x1 + sx else x1
        if e2 ≤ dx ∧ y1 = y2 then .ok (some true)
        else
          let err2 := if e2 ≤ dx then err1 + dx else err1
          let y1a := if e2 ≤ dx then y1 + sy else y1
          match getTile map x1a y1a with
          | .error e => .error e
          | .ok tile =>
            if tile = .TILE_WALL then .ok (some false)
            else IsVisibleLoop map x2 y2 dx dy sx sy fuel x1a y1a err2

/-- The function `IsVisible`, with as many loop iterations as the two
distances allow plus one. -/
def IsVisible (x1 y1 x2 y2 : Int) (map : GameMap) : Except Fault (Option Bool) :=
  let dx := cAbs (x2 - x1)
  let dy := -cAbs (y2 - y1)
  let sx : Int := if x1 < x2 then 1 else -1
  let sy : Int := if y1 < y2 then 1 else -1
  let err := dx + dy
  IsVisibleLoop map x2 y2 dx dy sx sy ((dx - dy).toNat + 1) x1 y1 err

/-- A map whose cell `(x, y)` is a Wall and whose other cells are Floor. -/
def wallAt (x y : Int) : GameMap :=
  { emptyMap with tiles := fun a b => if a = x ∧ b = y then .TILE_WALL else .TILE_FLOOR }

/-- The cell `(x, y)` is an interior cell of the room `r`: at least one tile
away from each of its four edges. -/
def InteriorOfRoom (r : Room) (x y : Int) : Prop :=
  r.x + 1 ≤ x ∧ x ≤ r.x + r.width - 2 ∧ r.y + 1 ≤ y ∧ y ≤ r.y + r.height - 2

instance (r : Room) (x y : Int) : Decidable (InteriorOfRoom r x y) := by
  unfold InteriorOfRoom; infer_instance

/-- A game state with no entity and every slot zeroed. -/
def blankState : GameState :=
  { player := ⟨0, 0, 0, 0, 0, 0⟩,
    enemies := fun _ => ⟨0, 0, "", 0, 0, 0, 0, 0, 0, .ENEMY_RAT, false, false⟩,
    items := fun _ => ⟨0, 0, "", 0, 0, .ITEM_GOLD, false⟩,
    enemyCount := 0, itemCount := 0, turn := 0, playerTurn := true, level := 1,
    gameOver := false, message := "" }

/-- A map with the three rooms `(1, 1, 5, 5)`, `(10, 1, 6, 5)` and
`(20, 1, 5, 7)` in its room list (tiles left empty). -/
def threeRoomsMap : GameMap :=
  { emptyMap with
    rooms := fun i => if i = 0 then ⟨1, 1, 5, 5⟩ else if i = 1 then ⟨10, 1, 6, 5⟩
      else ⟨20, 1, 5, 7⟩,
    roomCount := 3 }

/-- What a tile may become while corridors are carved: a walkable tile stays
walkable, a Wall comes only from a Wall or an Empty tile, and an Empty tile
was Empty before. -/
def TileStep (t t1 : TileType) : Prop :=
  (isWalkableTile t = true → isWalkableTile t1 = true) ∧
  (t1 = .TILE_WALL → t = .TILE_WALL ∨ t = .TILE_EMPTY) ∧
  (t1 = .TILE_EMPTY → t = .TILE_EMPTY)

/-- Every tile of `m1` comes from the tile of `m` at the same place by
`TileStep`, and the room list is the same. -/
def MapStep (m m1 : GameMap) : Prop :=
  (∀ a b, TileStep (m.tiles a b) (m1.tiles a b)) ∧
  m1.rooms = m.rooms ∧ m1.roomCount = m.roomCount

/-- The number of leaves (nodes without children) of a tree. -/
def leafCount : BSPNode → Nat
  | .null => 0
  | .node _ _ _ _ left right _ =>
    if left = .null ∧ right = .null then 1 else leafCount left + leafCount right

/-- The rooms that `CreateRoomInNode` makes for the leaves of a tree, visited
left to right, depth first, each call drawing from the stream left by the one
before; no map is involved. -/
def roomsOfLeaves (node : BSPNode) (minRoomSize : Int) (s : RandStream) :
    Except Fault (List Room × RandStream) :=
  match node with
  | .null => .ok ([], s)
  | .node x y width height left right room =>
    if left = .null ∧ right = .null then
      match CreateRoomInNode (.node x y width height left right room) minRoomSize s with
      | .error e => .error e
      | .ok (none, _, s1) => .ok ([], s1)
      | .ok (some newRoom, _, s1) => .ok ([newRoom], s1)
    else
      match roomsOfLeaves left minRoomSize s with
      | .error e => .error e
      | .ok (rooms1, s1) =>
        match roomsOfLeaves right minRoomSize s1 with
        | .error e => .error e
        | .ok (rooms2, s2) => .ok (rooms1 ++ rooms2, s2)

/-- One room put on the map: stored in the slot `roomCount`, counted, and
stamped on the grid by `CreateRoom`. -/
def appendRoom (map : GameMap) (r : Room) : Except Fault GameMap :=
  match setRoom map map.roomCount r with
  | .error e => .error e
  | .ok map1 =>
    CreateRoom { map1 with roomCount := map1.roomCount + 1 } r.x r.y r.width r.height

/-- The rooms of a list put on the map one after the other. -/
def stampRooms (map : GameMap) : List Room → Except Fault GameMap
  | [] => .ok map
  | r :: rest =>
    match appendRoom map r with
    | .error e => .error e
    | .ok map1 => stampRooms map1 rest

/-- A stream on which `GenerateBSPTree` cuts the 80x45 root into sixteen
leaves, each 10 wide and 22 or 23 high; every draw after the listed ones
is 0. -/
def sixteenLeavesStream : RandStream :=
  streamOf [35, 0, 17, 15, 1, 5, 1, 5, 15, 1, 5, 1, 5, 0, 17, 15, 1, 5, 1, 5, 15, 1, 5, 1, 5]

/-- The test inside the loop of `CheckRoomOverlap`: the two rooms overlap
when each is padded by 2 tiles. -/
def paddedOverlap (newRoom existingRoom : Room) : Prop :=
  newRoom.x - 2 ≤ existingRoom.x + existingRoom.width + 2 ∧
  newRoom.x + newRoom.width + 2 ≥ existingRoom.x - 2 ∧
  newRoom.y - 2 ≤ existingRoom.y + existingRoom.height + 2 ∧
  newRoom.y + newRoom.height + 2 ≥ existingRoom.y - 2

instance (a b : Room) : Decidable (paddedOverlap a b) := by
  unfold paddedOverlap; infer_instance

/-- The loop of `CheckRoomOverlap` from the index `i`, with `count` rooms left
to look at. -/
def CheckRoomOverlapFrom (map : GameMap) (newRoom : Room) : Nat → Int → Except Fault Bool
  | 0, _ => .ok false
  | count + 1, i =>
    match getRoom map i with
    | .error e => .error e
    | .ok existingRoom =>
      if paddedOverlap newRoom existingRoom then .ok true
      else CheckRoomOverlapFrom map newRoom count (i + 1)

def CheckRoomOverlap (map : GameMap) (newRoom : Room) : Except Fault Bool :=
  CheckRoomOverlapFrom map newRoom map.roomCount.toNat 0

/-- The two rooms are apart: at least one column or one row lies between
them. -/
def RoomsApart (a b : Room) : Prop :=
  a.x + a.width < b.x ∨ b.x + b.width < a.x ∨ a.y + a.height < b.y ∨ b.y + b.height < a.y

/-- The room lies in the rectangle `(x, y, width, height)` and leaves its last
column and its last row free. -/
def RoomInside (x y width height : Int) (r : Room) : Prop :=
  x ≤ r.x ∧ r.x + r.width ≤ x + width - 1 ∧ y ≤ r.y ∧ r.y + r.height ≤ y + height - 1

/-- The children of every inner node of the tree cut the rectangle of the node
in two, along the width or along the height, at an offset inside it. -/
inductive Tiled : BSPNode → Prop where
  | leaf (x y width height : Int) (room : Option RoomBlock) :
      Tiled (.node x y width height .null .null room)
  | splitWidth {x y width height p : Int} {ll lr rl rr : BSPNode}
      {lroom rroom room : Option RoomBlock} :
      0 ≤ p → p ≤ width →
      Tiled (.node x y p height ll lr lroom) →
      Tiled (.node (x + p) y (width - p) height rl rr rroom) →
      Tiled (.node x y width height (.node x y p height ll lr lroom)
        (.node (x + p) y (width - p) height rl rr rroom) room)
  | splitHeight {x y width height p : Int} {ll lr rl rr : BSPNode}
      {lroom rroom room : Option RoomBlock} :
      0 ≤ p → p ≤ height →
      Tiled (.node x y width p ll lr lroom) →
      Tiled (.node x (y + p) width (height - p) rl rr rroom) →
      Tiled (.node x y width height (.node x y width p ll lr lroom)
        (.node x (y + p) width (height - p) rl rr rroom) room)

def nodeX : BSPNode → Int
  | .null => 0
  | .node x _ _ _ _ _ _ => x

def nodeY : BSPNode → Int
  | .null => 0
  | .node _ y _ _ _ _ _ => y

/-- Every leaf of the tree is at least `n` wide and `n` high. -/
def leavesAtLeastB (n : Int) : BSPNode → Bool
  | .null => true
  | .node _ _ width height left right _ =>
    match left, right with
    | .null, .null => decide (n ≤ width) && decide (n ≤ height)
    | l, r => leavesAtLeastB n l && leavesAtLeastB n r

/-- The node `n` is a node of the tree `t`: its root, or a node of one of
the two subtrees. -/
inductive NodeIn : BSPNode → BSPNode → Prop where
  | root (x y width height : Int) (left right : BSPNode) (room : Option RoomBlock) :
      NodeIn (.node x y width height left right room) (.node x y width height left right room)
  | inLeft {x y width height : Int} {left right : BSPNode} {room : Option RoomBlock}
      {n : BSPNode} :
      NodeIn left n → NodeIn (.node x y width height left right room) n
  | inRight {x y width height : Int} {left right : BSPNode} {room : Option RoomBlock}
      {n : BSPNode} :
      NodeIn right n → NodeIn (.node x y width height left right room) n

/-- The height of a tree: the number of edges on the longest path from the
root to a leaf. -/
def treeHeight : BSPNode → Nat
  | .null => 0
  | .node _ _ _ _ left right _ =>
    if left = .null ∧ right = .null then 0 else 1 + max (treeHeight left) (treeHeight right)

/-- The cells whose tile the loop of `IsVisible` reads (`map->tiles[x1][y1]`),
in order, during at most `fuel` iterations: the loop of `IsVisibleLoop` with
each read recorded. A read outside the grid is recorded and ends the list. -/
def IsVisibleReads (map : GameMap) (x2 y2 dx dy sx sy : Int) :
    Nat → Int → Int → Int → List (Int × Int)
  | 0, _, _, _ => []
  | fuel + 1, x1, y1, err =>
    if x1 = x2 ∧ y1 = y2 then []
    else
      let e2 := 2 * err
      if e2 ≥ dy ∧ x1 = x2 then []
      else
        let err1 := if e2 ≥ dy then err + dy else err
        let x1a := if e2 ≥ dy then x1 + sx else x1
        if e2 ≤ dx ∧ y1 = y2 then []
        else
          let err2 := if e2 ≤ dx then err1 + dx else err1
          let y1a := if e2 ≤ dx then y1 + sy else y1
          (x1a, y1a) ::
            (match getTile map x1a y1a with
             | .error _ => []
             | .ok tile =>
               if tile = .TILE_WALL then []
               else IsVisibleReads map x2 y2 dx dy sx sy fuel x1a y1a err2)

/-- The cells whose tile `IsVisible` reads during its first `fuel`
iterations. -/
def IsVisibleCells (x1 y1 x2 y2 : Int) (map : GameMap) (fuel : Nat) : List (Int × Int) :=
  let dx := cAbs (x2 - x1)
  let dy := -cAbs (y2 - y1)
  let sx : Int := if x1 < x2 then 1 else -1
  let sy : Int := if y1 < y2 then 1 else -1
  let err := dx + dy
  IsVisibleReads map x2 y2 dx dy sx sy fuel x1 y1 err

/-! ## Combat and enemy turns (`entities.c`) -/

/-- The address `&state->enemies[i]` and the reads through it. -/
def getEnemy (state : GameState) (i : Int) : Except Fault Enemy :=
  if 0 ≤ i ∧ i < MAX_ENEMIES then .ok (state.enemies i) else .error .outOfBounds

def INT_MIN : Int := -2147483648
def INT_MAX : Int := 2147483647

/-- The value is one that a 32-bit `int` holds. -/
def inIntRange (a : Int) : Prop := INT_MIN ≤ a ∧ a ≤ INT_MAX

instance (a : Int) : Decidable (inIntRange a) := by
  unfold inIntRange; infer_instance

/-- An integer brought back into the range of a 32-bit `int` by wrapping
around (two's complement). -/
def wrapInt (a : Int) : Int := (a + 2147483648) % 4294967296 - 2147483648

/-- The C expression `a - b` on 32-bit `int`: the difference when it is in
range; an overflow, which C leaves undefined, wraps around as the compiled
code does. -/
def cSub (a b : Int) : Int := wrapInt (a - b)

/-- The two lines `int damage = attack - defense; if (damage < 1) damage = 1;`
of `HandleCombat` and of `UpdateEnemies`. -/
def combatDamage (attack defense : Int) : Int :=
  let damage := cSub attack defense
  if damage < 1 then 1 else damage

/-- The body of the `if` of `HandleCombat` for the enemy found in slot `i`:
the state when the function returns. -/
def hitEnemy (state : GameState) (i : Int) (enemy : Enemy) : GameState :=
  let damage := combatDamage state.player.attack enemy.defense
  let enemy1 : Enemy := { enemy with health := cSub enemy.health damage }
  if enemy1.health ≤ 0 then
    { state with
      enemies := fun k => if k = i then { enemy1 with active := false } else state.enemies k,
      message := "You defeated the " ++ enemy.name ++ "!" }
  else
    { state with
      enemies := fun k => if k = i then enemy1 else state.enemies k,
      message := "You hit " ++ enemy.name ++ " for " ++ toString damage ++ " damage!" }

/-- The loop of `HandleCombat` from the index `i`, with `count` slots left to
look at. -/
def HandleCombatFrom (state : GameState) (targetX targetY : Int) :
    Nat → Int → Except Fault GameState
  | 0, _ => .ok state
  | count + 1, i =>
    match getEnemy state i with
    | .error e => .error e
    | .ok enemy =>
      if enemy.active = true ∧ enemy.x = targetX ∧ enemy.y = targetY then
        .ok (hitEnemy state i enemy)
      else HandleCombatFrom state targetX targetY count (i + 1)

def HandleCombat (state : GameState) (targetX targetY : Int) : Except Fault GameState :=
  HandleCombatFrom state targetX targetY state.enemyCount.toNat 0

/-- An active enemy stands at `(x, y)` in slot `i`. -/
def EnemyAt (state : GameState) (i x y : Int) : Prop :=
  (state.enemies i).active = true ∧ (state.enemies i).x = x ∧ (state.enemies i).y = y

/-- A game state with the player at `(3, 4)` (defense 5, health 100, the
given attack) and one active Troll (health 40, attack 12, defense 5, sight
range 4) in slot 0 at `(3, 3)`. -/
def trollState (attack : Int) : GameState :=
  { blankState with
    player := ⟨3, 4, 100, 100, attack, 5⟩,
    enemies := fun i =>
      if i = 0 then ⟨3, 3, "Troll", 40, 40, 12, 5, 19, 4, .ENEMY_TROLL, true, false⟩
      else blankState.enemies i,
    enemyCount := 1 }

/-- A game state with the player at `(3, 4)` (attack 10, defense 5, health
100) and three enemies on the cell `(3, 3)`: an inactive Rat in slot 0, an
active Goblin (health 15, defense 2) in slot 1 and an active Troll (health
40, defense 5) in slot 2. -/
def packState : GameState :=
  { blankState with
    player := ⟨3, 4, 100, 100, 10, 5⟩,
    enemies := fun i =>
      if i = 0 then ⟨3, 3, "Rat", 0, 10, 3, 1, 16, 4, .ENEMY_RAT, false, false⟩
      else if i = 1 then ⟨3, 3, "Goblin", 15, 15, 5, 2, 17, 5, .ENEMY_GOBLIN, true, false⟩
      else if i = 2 then ⟨3, 3, "Troll", 40, 40, 12, 5, 19, 4, .ENEMY_TROLL, true, false⟩
      else blankState.enemies i,
    enemyCount := 3 }

/-- The table `dirs` of `UpdateEnemies` (up, right, down, left), read at the
row `r`. -/
def dirs (r : Int) : Except Fault (Int × Int) :=
  if r = 0 then .ok (0, -1)
  else if r = 1 then .ok (1, 0)
  else if r = 2 then .ok (0, 1)
  else if r = 3 then .ok (-1, 0)
  else .error .outOfBounds

/-- The state with the enemy `e` written to the slot `i`. -/
def setEnemy (state : GameState) (i : Int) (e : Enemy) : GameState :=
  { state with enemies := fun k => if k = i then e else state.enemies k }

/-- The two calls `if (!MoveEntity(&x, &y, dx1, dy1, map)) MoveEntity(&x, &y,
dx2, dy2, map);` of `UpdateEnemies`: the position after them. -/
def moveEitherWay (x y dx1 dy1 dx2 dy2 : Int) (map : GameMap) : Except Fault (Int × Int) :=
  match MoveEntity x y dx1 dy1 map with
  | .error e => .error e
  | .ok (true, x1, y1, _) => .ok (x1, y1)
  | .ok (false, x1, y1, _) =>
    match MoveEntity x1 y1 dx2 dy2 map with
    | .error e => .error e
    | .ok (_, x2, y2, _) => .ok (x2, y2)

/-- One iteration of the loop of `UpdateEnemies`, for the enemy in slot `i`.
The loop of `IsVisible` always ends within its budget (`IsVisibleReads_walk`),
so the case of a loop still running does not arise; it is given a fault so
that no result is made up for it. -/
def updateEnemy (map : GameMap) (i : Int) (st : GameState × RandStream) :
    Except Fault (GameState × RandStream) :=
  let state := st.1
  let s := st.2
  match getEnemy state i with
  | .error e => .error e
  | .ok enemy =>
    if enemy.active = true then
      let dx := cAbs (state.player.x - enemy.x)
      let dy := cAbs (state.player.y - enemy.y)
      let distance := dx + dy
      match (if distance ≤ enemy.sightRange then
               IsVisible enemy.x enemy.y state.player.x state.player.y map
             else .ok (some false)) with
      | .error e => .error e
      | .ok none => .error .outOfBounds
      | .ok (some true) =>
        let enemy1 : Enemy := { enemy with aggro := true }
        if distance > 1 then
          let moveX : Int :=
            if enemy.x < state.player.x then 1 else if enemy.x > state.player.x then -1 else 0
          let moveY : Int :=
            if enemy.y < state.player.y then 1 else if enemy.y > state.player.y then -1 else 0
          let s1 := (rand s).2
          match (if Int.tmod (rand s).1 2 = 0 then
                   moveEitherWay enemy.x enemy.y moveX 0 0 moveY map
                 else moveEitherWay enemy.x enemy.y 0 moveY moveX 0 map) with
          | .error e => .error e
          | .ok p => .ok (setEnemy state i { enemy1 with x := p.1, y := p.2 }, s1)
        else if distance = 1 then
          let damage := combatDamage enemy.attack state.player.defense
          .ok (setEnemy
            { state with
              player := { state.player with health := cSub state.player.health damage },
              message := enemy.name ++ " attacks you for " ++ toString damage ++ " damage!" }
            i enemy1, s)
        else .ok (setEnemy state i enemy1, s)
      | .ok (some false) =>
        let s1 := (rand s).2
        if Int.tmod (rand s).1 100 < 20 then
          let r := Int.tmod (rand s1).1 4
          let s2 := (rand s1).2
          match dirs r with
          | .error e => .error e
          | .ok d =>
            match MoveEntity enemy.x enemy.y d.1 d.2 map with
            | .error e => .error e
            | .ok (_, x1, y1, _) => .ok (setEnemy state i { enemy with x := x1, y := y1 }, s2)
        else .ok (state, s1)
    else .ok st

def UpdateEnemies (state : GameState) (map : GameMap) (s : RandStream) :
    Except Fault (GameState × RandStream) :=
  forLt 0 state.enemyCount (updateEnemy map) (state, s)

/-- Some node of the tree has a `room` field that points to a freed block. -/
def hasFreedRoom : BSPNode → Bool
  | .null => false
  | .node _ _ _ _ left right room =>
    hasFreedRoom left || hasFreedRoom right ||
      (match room with
       | some block => block.freed
       | none => false)

/-- The computation `e` ends with the fault `f`. -/
def checkError {α : Type} (e : Except Fault α) (f : Fault) : Bool :=
  match e with
  | .error e1 => decide (e1 = f)
  | .ok _ => false

/-! ## Theorems -/

theorem cMod_pos (a b : Int) (ha : 0 ≤ a) (hb : 0 < b) :
    ∃ r, cMod a b = .ok r ∧ 0 ≤ r ∧ r < b := by
  refine ⟨Int.tmod a b, ?_, Int.tmod_nonneg b ha, Int.tmod_lt_of_pos a hb⟩
  unfold cMod
  rw [if_neg (by omega)]

theorem rand_nonneg (s : RandStream) : 0 ≤ (rand s).1 := by
  simp [rand]

/-- What `SplitNode` does to a node: either the node is too small and is
returned as it is, or it gets two children cut at an offset `p` along the
width, or two children cut at an offset `p` along the height. -/
theorem SplitNode_spec (x y width height : Int) (left right : BSPNode) (room : Option RoomBlock)
    (minSize : Int) (s : RandStream) :
    ((width ≤ minSize * 2 ∨ height ≤ minSize * 2) ∧
      SplitNode (.node x y width height left right room) minSize s
        = .ok (false, .node x y width height left right room, s)) ∨
    (¬ (width ≤ minSize * 2 ∨ height ≤ minSize * 2) ∧
      ∃ p s1, minSize ≤ p ∧ p < width - minSize ∧
        SplitNode (.node x y width height left right room) minSize s
          = .ok (true, .node x y width height (CreateNode x y p height)
              (CreateNode (x + p) y (width - p) height) room, s1)) ∨
    (¬ (width ≤ minSize * 2 ∨ height ≤ minSize * 2) ∧
      ∃ p s1, minSize ≤ p ∧ p < height - minSize ∧
        SplitNode (.node x y width height left right room) minSize s
          = .ok (true, .node x y width height (CreateNode x y width p)
              (CreateNode x (y + p) width (height - p)) room, s1)) := by
  by_cases hsmall : width ≤ minSize * 2 ∨ height ≤ minSize * 2
  · left
    exact ⟨hsmall, by simp [SplitNode, hsmall]⟩
  · right
    have hw : 0 < width - minSize * 2 := by omega
    have hh : 0 < height - minSize * 2 := by omega
    simp only [SplitNode, if_neg hsmall]
    generalize (if width > height ∧ ratioAtLeast125 width height = true then (false, s)
        else if height > width ∧ ratioAtLeast125 height width = true then (true, s)
        else (decide (Int.tmod (rand s).1 2 = 0), (rand s).2)) = choice
    obtain ⟨hz, s1⟩ := choice
    cases hz with
    | true =>
      right
      obtain ⟨r, hr, h0, h1⟩ := cMod_pos (rand s1).1 _ (rand_nonneg s1) hh
      refine ⟨hsmall, minSize + r, (rand s1).2, by omega, by omega, ?_⟩
      simp only [if_true, hr]
      have e1 : y + minSize + r - y = minSize + r := by omega
      have e2 : y + minSize + r = y + (minSize + r) := by omega
      rw [e1, e2]
    | false =>
      left
      obtain ⟨r, hr, h0, h1⟩ := cMod_pos (rand s1).1 _ (rand_nonneg s1) hw
      refine ⟨hsmall, minSize + r, (rand s1).2, by omega, by omega, ?_⟩
      simp only [hr]
      have e1 : x + minSize + r - x = minSize + r := by omega
      have e2 : x + minSize + r = x + (minSize + r) := by omega
      simp [e1, e2]

/-- C5: `SplitNode` succeeds on every node. When it returns false the node is
returned as it was, so a fresh node (as `CreateNode` makes it) still has no
children. When it returns true the node has exactly two fresh children that
tile the parent: cut along the width at an offset `p` with
`minSize ≤ p < width - minSize` (first child at the parent's origin with width
`p`, second child at `x + p` with width `width - p`, both with the parent's
`y` and height), or cut along the height in the same way. In no case has a
fresh node exactly one child afterwards. -/
theorem SplitNode_children_tile_parent (x y width height : Int) (left right : BSPNode)
    (room : Option RoomBlock) (minSize : Int) (s : RandStream) :
    ∃ split node1 s1,
      SplitNode (.node x y width height left right room) minSize s = .ok (split, node1, s1) ∧
      (split = false → node1 = .node x y width height left right room) ∧
      (split = true → ∃ p,
        (minSize ≤ p ∧ p < width - minSize ∧
          node1 = .node x y width height (.node x y p height .null .null none)
            (.node (x + p) y (width - p) height .null .null none) room) ∨
        (minSize ≤ p ∧ p < height - minSize ∧
          node1 = .node x y width height (.node x y width p .null .null none)
            (.node x (y + p) width (height - p) .null .null none) room)) ∧
      (left = .null → right = .null → (nodeLeft node1 = .null ↔ nodeRight node1 = .null)) := by
  rcases SplitNode_spec x y width height left right room minSize s with
    ⟨_, h⟩ | ⟨_, p, s1, hp0, hp1, h⟩ | ⟨_, p, s1, hp0, hp1, h⟩
  · refine ⟨false, _, _, h, fun _ => rfl, fun hc => (by cases hc), ?_⟩
    intro hl hr
    simp [nodeLeft, nodeRight, hl, hr]
  · refine ⟨true, _, _, h, fun hc => (by cases hc),
      fun _ => ⟨p, Or.inl ⟨hp0, hp1, rfl⟩⟩, ?_⟩
    intro _ _
    simp [nodeLeft, nodeRight, CreateNode]
  · refine ⟨true, _, _, h, fun hc => (by cases hc),
      fun _ => ⟨p, Or.inr ⟨hp0, hp1, rfl⟩⟩, ?_⟩
    intro _ _
    simp [nodeLeft, nodeRight, CreateNode]

/-- C6: whenever `SplitNode` splits a node with `minSize ≥ 1`, the split
offset `p` from the region's origin lies in `[minSize, dimension - minSize]`
and both children have size at least `minSize` along the split axis. -/
theorem SplitNode_offset_in_range (x y width height : Int) (left right : BSPNode)
    (room : Option RoomBlock) (minSize : Int) (s s1 : RandStream) (node1 : BSPNode)
    (_hmin : 1 ≤ minSize)
    (hsplit : SplitNode (.node x y width height left right room) minSize s
      = .ok (true, node1, s1)) :
    ∃ p,
      (minSize ≤ p ∧ p ≤ width - minSize ∧ minSize ≤ width - p ∧
        node1 = .node x y width height (CreateNode x y p height)
          (CreateNode (x + p) y (width - p) height) room) ∨
      (minSize ≤ p ∧ p ≤ height - minSize ∧ minSize ≤ height - p ∧
        node1 = .node x y width height (CreateNode x y width p)
          (CreateNode x (y + p) width (height - p)) room) := by
  rcases SplitNode_spec x y width height left right room minSize s with
    ⟨_, h⟩ | ⟨_, p, s2, h1, h2, h⟩ | ⟨_, p, s2, h1, h2, h⟩
  · rw [h] at hsplit
    cases hsplit
  · rw [h] at hsplit
    injection hsplit with hsplit
    injection hsplit with _ hsplit
    injection hsplit with hnode _
    exact ⟨p, Or.inl ⟨h1, by omega, by omega, hnode.symm⟩⟩
  · rw [h] at hsplit
    injection hsplit with hsplit
    injection hsplit with _ hsplit
    injection hsplit with hnode _
    exact ⟨p, Or.inr ⟨h1, by omega, by omega, hnode.symm⟩⟩

theorem SplitNode_offset_in_range_witness :
    (1 : Int) ≤ 5 ∧
    SplitNode (.node 0 0 80 45 .null .null none) 5 (streamOf [3])
      = .ok (true, .node 0 0 80 45 (CreateNode 0 0 8 45) (CreateNode 8 0 72 45) none,
          (rand (streamOf [3])).2) ∧
    ∃ p : Int,
      (5 ≤ p ∧ p ≤ 80 - 5 ∧ 5 ≤ 80 - p ∧
        BSPNode.node 0 0 80 45 (CreateNode 0 0 8 45) (CreateNode 8 0 72 45) none
          = .node 0 0 80 45 (CreateNode 0 0 p 45) (CreateNode (0 + p) 0 (80 - p) 45) none) ∨
      (5 ≤ p ∧ p ≤ 45 - 5 ∧ 5 ≤ 45 - p ∧
        BSPNode.node 0 0 80 45 (CreateNode 0 0 8 45) (CreateNode 8 0 72 45) none
          = .node 0 0 80 45 (CreateNode 0 0 80 p) (CreateNode 0 (0 + p) 80 (45 - p)) none) :=
  ⟨by decide, rfl,
    SplitNode_offset_in_range 0 0 80 45 .null .null none 5 (streamOf [3])
      (rand (streamOf [3])).2 _ (by decide) rfl⟩

/-- The leaves of a node without children: the node itself, at depth 0. -/
theorem LeafAt_of_leaf {x y width height : Int} {room : Option RoomBlock} {k : Nat}
    {leaf : BSPNode} (h : LeafAt (.node x y width height .null .null room) k leaf) :
    k = 0 ∧ leaf = .node x y width height .null .null room := by
  cases h with
  | here => exact ⟨rfl, rfl⟩
  | inLeft h1 => cases h1
  | inRight h1 => cases h1

/-- The leaves of a node with children are the leaves of its children. -/
theorem LeafAt_of_inner {x y width height : Int} {left right : BSPNode} {room : Option RoomBlock}
    {k : Nat} {leaf : BSPNode} (h : LeafAt (.node x y width height left right room) k leaf) :
    (k = 0 ∧ left = .null ∧ right = .null) ∨
    (∃ j, k = j + 1 ∧ (LeafAt left j leaf ∨ LeafAt right j leaf)) := by
  cases h with
  | here => exact Or.inl ⟨rfl, rfl, rfl⟩
  | inLeft h1 => exact Or.inr ⟨_, rfl, Or.inl h1⟩
  | inRight h1 => exact Or.inr ⟨_, rfl, Or.inr h1⟩

/-- The tree builder returns a tree on every fresh node, with the fields of
the root as they were, and every leaf of that tree whose depth is below the
budget is at most `2 * minSize` wide or at most `2 * minSize` high. -/
theorem GenerateBSPTreeFuel_leaves (minSize : Int) (depth : Nat) :
    ∀ (x y width height : Int) (s : RandStream),
      ∃ l r s1, GenerateBSPTreeFuel depth (CreateNode x y width height) minSize s
          = .ok (.node x y width height l r none, s1) ∧
        ∀ leaf k, LeafAt (.node x y width height l r none) k leaf → k < depth →
          nodeWidth leaf ≤ minSize * 2 ∨ nodeHeight leaf ≤ minSize * 2 := by
  induction depth with
  | zero =>
    intro x y width height s
    exact ⟨_, _, _, rfl, fun leaf k _ hk => absurd hk (Nat.not_lt_zero k)⟩
  | succ d ih =>
    intro x y width height s
    rcases SplitNode_spec x y width height .null .null none minSize s with
      ⟨hsmall, h⟩ | ⟨_, p, s1, _, _, h⟩ | ⟨_, p, s1, _, _, h⟩
    · refine ⟨.null, .null, s, by simp only [GenerateBSPTreeFuel, CreateNode, h], ?_⟩
      intro leaf k hleaf _
      obtain ⟨_, rfl⟩ := LeafAt_of_leaf hleaf
      exact hsmall
    · obtain ⟨l1, r1, s2, h1, hl1⟩ := ih x y p height s1
      obtain ⟨l2, r2, s3, h2, hl2⟩ := ih (x + p) y (width - p) height s2
      refine ⟨.node x y p height l1 r1 none,
        .node (x + p) y (width - p) height l2 r2 none, s3, ?_, ?_⟩
      · simp only [GenerateBSPTreeFuel, CreateNode, h]
        simp only [CreateNode] at h1 h2
        simp only [h1, h2]
      · intro leaf k hleaf hk
        rcases LeafAt_of_inner hleaf with ⟨_, hnull, _⟩ | ⟨j, rfl, hj | hj⟩
        · cases hnull
        · exact hl1 leaf j hj (by omega)
        · exact hl2 leaf j hj (by omega)
    · obtain ⟨l1, r1, s2, h1, hl1⟩ := ih x y width p s1
      obtain ⟨l2, r2, s3, h2, hl2⟩ := ih x (y + p) width (height - p) s2
      refine ⟨.node x y width p l1 r1 none,
        .node x (y + p) width (height - p) l2 r2 none, s3, ?_, ?_⟩
      · simp only [GenerateBSPTreeFuel, CreateNode, h]
        simp only [CreateNode] at h1 h2
        simp only [h1, h2]
      · intro leaf k hleaf hk
        rcases LeafAt_of_inner hleaf with ⟨_, hnull, _⟩ | ⟨j, rfl, hj | hj⟩
        · cases hnull
        · exact hl1 leaf j hj (by omega)
        · exact hl2 leaf j hj (by omega)

/-- C4 (counterexample): on the 80x45 root with minimum size 5 and depth
budget 5, the stream 3, 3, ... gives a tree whose first leaf, at depth 1, is
8 wide and 45 high: its height is not below `2 * 5`. -/
theorem GenerateBSPTree_leaf_not_small_in_both :
    ∃ t s1 leaf,
      GenerateBSPTree (CreateNode 0 0 80 45) 5 5 (streamOf [3, 3, 3, 3, 3]) = .ok (t, s1) ∧
      LeafAt t 1 leaf ∧ (1 : Int) < 5 ∧
      ¬ (nodeWidth leaf < 2 * 5 ∧ nodeHeight leaf < 2 * 5) :=
  ⟨_, _, CreateNode 0 0 8 45, rfl, .inLeft (.here 0 0 8 45 none), by decide, by decide⟩

/-- C4 (amended): for every root rectangle, minimum size `m`, depth budget
`d` and random stream, `GenerateBSPTree` returns a tree, and every leaf of it
at depth less than `d` has width at most `2 * m` or height at most `2 * m`. -/
theorem GenerateBSPTree_leaf_small_in_one (x y width height minSize maxDepth : Int)
    (s : RandStream) :
    ∃ t s1, GenerateBSPTree (CreateNode x y width height) minSize maxDepth s = .ok (t, s1) ∧
      ∀ leaf (k : Nat), LeafAt t k leaf → (k : Int) < maxDepth →
        nodeWidth leaf ≤ 2 * minSize ∨ nodeHeight leaf ≤ 2 * minSize := by
  obtain ⟨l, r, s1, h, hl⟩ := GenerateBSPTreeFuel_leaves minSize maxDepth.toNat x y width height s
  refine ⟨_, s1, h, ?_⟩
  intro leaf k hleaf hk
  have := hl leaf k hleaf (by omega)
  omega

/-- What `CreateRoomInNode` computes on a leaf that is at least
`minRoomSize + 3` wide and high. -/
theorem CreateRoomInNode_spec (x y width height minRoomSize : Int) (room0 : Option RoomBlock)
    (s : RandStream) (hw : minRoomSize + 3 ≤ width) (hh : minRoomSize + 3 ≤ height) :
    ∃ newRoom s1,
      CreateRoomInNode (.node x y width height .null .null room0) minRoomSize s
        = .ok (some newRoom, .node x y width height .null .null (some ⟨newRoom, false⟩), s1) ∧
      minRoomSize ≤ newRoom.width ∧ newRoom.width ≤ width - 3 ∧
      minRoomSize ≤ newRoom.height ∧ newRoom.height ≤ height - 3 ∧
      x ≤ newRoom.x ∧ newRoom.x + newRoom.width ≤ x + width - 1 ∧
      y ≤ newRoom.y ∧ newRoom.y + newRoom.height ≤ y + height - 1 ∧
      (newRoom.x = x → width - newRoom.width = 3 ∧ Int.tmod (s 2 : Int) 3 = 0) ∧
      (newRoom.y = y → height - newRoom.height = 3 ∧ Int.tmod (s 3 : Int) 3 = 0) := by
  obtain ⟨rw, hrw, hrw0, hrw1⟩ :=
    cMod_pos (rand s).1 (width - minRoomSize - 2) (rand_nonneg s) (by omega)
  obtain ⟨rh, hrh, hrh0, hrh1⟩ :=
    cMod_pos (rand (rand s).2).1 (height - minRoomSize - 2) (rand_nonneg _) (by omega)
  have hjx : Int.tmod (rand (rand (rand s).2).2).1 3 = (s 2 : Int) % 3 := by
    simp only [rand]
    exact Int.tmod_eq_emod (by omega) (by omega)
  have hjy : Int.tmod (rand (rand (rand (rand s).2).2).2).1 3 = (s 3 : Int) % 3 := by
    simp only [rand]
    exact Int.tmod_eq_emod (by omega) (by omega)
  have hjx2 : Int.tmod (s 2 : Int) 3 = (s 2 : Int) % 3 :=
    Int.tmod_eq_emod (by omega) (by omega)
  have hjy2 : Int.tmod (s 3 : Int) 3 = (s 3 : Int) % 3 :=
    Int.tmod_eq_emod (by omega) (by omega)
  have hdx : Int.tdiv (width - (minRoomSize + rw)) 2 = (width - (minRoomSize + rw)) / 2 :=
    Int.tdiv_eq_ediv (by omega) (by omega)
  have hdy : Int.tdiv (height - (minRoomSize + rh)) 2 = (height - (minRoomSize + rh)) / 2 :=
    Int.tdiv_eq_ediv (by omega) (by omega)
  refine ⟨?newRoom, ?s1, ?eq, ?props⟩
  case eq =>
    simp only [CreateRoomInNode, ne_eq, not_true_eq_false, or_self, if_false, hrw, hrh]
    exact rfl
  case props =>
    simp only [hjx, hjy, hjx2, hjy2, hdx, hdy]
    refine ⟨by omega, by omega, by omega, by omega, ?_, ?_, ?_, ?_, ?_, ?_⟩ <;>
      split_ifs <;> omega

/-- C9: for every leaf region at least `minRoomSize + 3` wide and high and
every random draw, `CreateRoomInNode` returns a room that lies inside the
region's bounds. -/
theorem CreateRoomInNode_room_inside_region (x y width height minRoomSize : Int)
    (room0 : Option RoomBlock) (s : RandStream)
    (hw : minRoomSize + 3 ≤ width) (hh : minRoomSize + 3 ≤ height) :
    ∃ newRoom node1 s1,
      CreateRoomInNode (.node x y width height .null .null room0) minRoomSize s
        = .ok (some newRoom, node1, s1) ∧
      x ≤ newRoom.x ∧ newRoom.x + newRoom.width ≤ x + width ∧
      y ≤ newRoom.y ∧ newRoom.y + newRoom.height ≤ y + height := by
  obtain ⟨newRoom, s1, h, _, _, _, _, hx0, hx1, hy0, hy1, _, _⟩ :=
    CreateRoomInNode_spec x y width height minRoomSize room0 s hw hh
  exact ⟨newRoom, _, s1, h, hx0, by omega, hy0, by omega⟩

theorem CreateRoomInNode_room_inside_region_witness :
    (5 : Int) + 3 ≤ 8 ∧ (5 : Int) + 3 ≤ 45 ∧
    ∃ newRoom node1 s1,
      CreateRoomInNode (.node 8 0 8 45 .null .null none) 5 (streamOf [0, 0, 0, 1])
        = .ok (some newRoom, node1, s1) ∧
      8 ≤ newRoom.x ∧ newRoom.x + newRoom.width ≤ 8 + 8 ∧
      0 ≤ newRoom.y ∧ newRoom.y + newRoom.height ≤ 0 + 45 :=
  ⟨by decide, by decide,
    CreateRoomInNode_room_inside_region 8 0 8 45 5 none (streamOf [0, 0, 0, 1])
      (by decide) (by decide)⟩

/-- C7 (counterexample): the region `(8, 0, 8, 45)` is a leaf of the tree
built on the 80x45 root from the stream 3, 3, ...; its left side is not on
the grid boundary; with the draws 0, 0, 0, 1 the room of that leaf starts at
`x = 8`, on the region's left edge, so the margin on that side is zero. -/
theorem CreateRoomInNode_room_touches_region_edge :
    ∃ t s1 newRoom node1 s2,
      GenerateBSPTree (CreateNode 0 0 80 45) 5 5 (streamOf [3, 3, 3, 3, 3, 0, 15]) = .ok (t, s1) ∧
      LeafAt t 2 (CreateNode 8 0 8 45) ∧
      CreateRoomInNode (CreateNode 8 0 8 45) 5 (streamOf [0, 0, 0, 1])
        = .ok (some newRoom, node1, s2) ∧
      (0 : Int) < 8 ∧ ¬ (8 + 1 ≤ newRoom.x) :=
  ⟨_, _, ⟨8, 20, 5, 5⟩, _, _, rfl, .inRight (.inLeft (.here 8 0 8 45 none)), rfl,
    by decide, by decide⟩

/-- C7 (amended): for every leaf region at least `minRoomSize + 3` wide and
high and every random draw, the room of `CreateRoomInNode` has at least one
tile of margin on the right and bottom sides of the region and starts at or
after the region's left and top edges; it starts exactly on the left (top)
edge only when the region is 3 wider (higher) than the room and the jitter
draw on that axis is `-1` (`rand() % 3 = 0`). -/
theorem CreateRoomInNode_room_margins (x y width height minRoomSize : Int)
    (room0 : Option RoomBlock) (s : RandStream)
    (hw : minRoomSize + 3 ≤ width) (hh : minRoomSize + 3 ≤ height) :
    ∃ newRoom node1 s1,
      CreateRoomInNode (.node x y width height .null .null room0) minRoomSize s
        = .ok (some newRoom, node1, s1) ∧
      x ≤ newRoom.x ∧ newRoom.x + newRoom.width ≤ x + width - 1 ∧
      y ≤ newRoom.y ∧ newRoom.y + newRoom.height ≤ y + height - 1 ∧
      (¬ (width - newRoom.width = 3 ∧ Int.tmod (s 2 : Int) 3 = 0) → x + 1 ≤ newRoom.x) ∧
      (¬ (height - newRoom.height = 3 ∧ Int.tmod (s 3 : Int) 3 = 0) → y + 1 ≤ newRoom.y) := by
  obtain ⟨newRoom, s1, h, _, _, _, _, hx0, hx1, hy0, hy1, hx2, hy2⟩ :=
    CreateRoomInNode_spec x y width height minRoomSize room0 s hw hh
  refine ⟨newRoom, _, s1, h, hx0, hx1, hy0, hy1, ?_, ?_⟩
  · intro hn
    by_contra hlt
    exact hn (hx2 (by omega))
  · intro hn
    by_contra hlt
    exact hn (hy2 (by omega))

theorem CreateRoomInNode_room_margins_witness :
    (5 : Int) + 3 ≤ 12 ∧ (5 : Int) + 3 ≤ 45 ∧
    ∃ newRoom node1 s1,
      CreateRoomInNode (.node 8 0 12 45 .null .null none) 5 (streamOf [1, 0, 2, 1])
        = .ok (some newRoom, node1, s1) ∧
      8 ≤ newRoom.x ∧ newRoom.x + newRoom.width ≤ 8 + 12 - 1 ∧
      0 ≤ newRoom.y ∧ newRoom.y + newRoom.height ≤ 0 + 45 - 1 ∧
      (¬ (12 - newRoom.width = 3 ∧ Int.tmod (streamOf [1, 0, 2, 1] 2 : Int) 3 = 0) →
        8 + 1 ≤ newRoom.x) ∧
      (¬ (45 - newRoom.height = 3 ∧ Int.tmod (streamOf [1, 0, 2, 1] 3 : Int) 3 = 0) →
        0 + 1 ≤ newRoom.y) :=
  ⟨by decide, by decide,
    CreateRoomInNode_room_margins 8 0 12 45 5 none (streamOf [1, 0, 2, 1])
      (by decide) (by decide)⟩

/-- C8 (the code at the failing input): the region `(0, 0, 6, 45)` is a leaf
of the tree built on the 80x45 root from the stream 1, 3, 3, ...; on that
leaf, for every random draw, `CreateRoomInNode` takes `rand() % -1`, returns
a room of width 5, and 5 is above `region.width - 2 = 4`. -/
theorem CreateRoomInNode_narrow_leaf_room_too_wide :
    (∃ t s1, GenerateBSPTree (CreateNode 0 0 80 45) 5 5 (streamOf [1, 3, 3, 3, 3, 3]) = .ok (t, s1) ∧
      LeafAt t 1 (CreateNode 0 0 6 45)) ∧
    ∀ s : RandStream, ∃ newRoom node1 s1,
      CreateRoomInNode (CreateNode 0 0 6 45) 5 s = .ok (some newRoom, node1, s1) ∧
      newRoom.width = 5 ∧ ¬ (newRoom.width ≤ 6 - 2) := by
  refine ⟨⟨_, _, rfl, .inLeft (.here 0 0 6 45 none)⟩, ?_⟩
  intro s
  obtain ⟨rh, hrh, _, _⟩ := cMod_pos (rand (rand s).2).1 (45 - 5 - 2) (rand_nonneg _) (by decide)
  have hrw : cMod (rand s).1 (6 - 5 - 2) = .ok 0 := by
    unfold cMod
    rw [if_neg (by decide)]
    have : Int.tmod (rand s).1 (6 - 5 - 2) = 0 := by
      have h1 : (6 - 5 - 2 : Int) = -1 := by decide
      rw [h1, Int.tmod_neg, Int.tmod_one]
    rw [this]
  refine ⟨?newRoom, ?node1, ?s1, ?eq, ?props⟩
  case eq =>
    simp only [CreateNode, CreateRoomInNode, ne_eq, not_true_eq_false, or_self, if_false, hrw, hrh]
    exact rfl
  case props =>
    exact ⟨by simp, by simp⟩

/-- Loop rule: an invariant that holds on entry and is kept by every
iteration (which must not fault) holds when the loop ends, and the loop does
not fault. -/
theorem forLoop_inv {σ : Type} (Inv : Int → σ → Prop) (body : Int → σ → Except Fault σ)
    (count : Nat) :
    ∀ (lo : Int) (st : σ), Inv lo st →
      (∀ i st1, lo ≤ i → i < lo + count → Inv i st1 →
        ∃ st2, body i st1 = .ok st2 ∧ Inv (i + 1) st2) →
      ∃ st3, forLoop lo count body st = .ok st3 ∧ Inv (lo + count) st3 := by
  induction count with
  | zero =>
    intro lo st h0 _
    exact ⟨st, rfl, by simpa using h0⟩
  | succ n ih =>
    intro lo st h0 hstep
    obtain ⟨st2, hb, h2⟩ := hstep lo st (le_refl lo) (by push_cast; omega) h0
    obtain ⟨st3, hl, h3⟩ := ih (lo + 1) st2 h2 (by
      intro i st1 hi1 hi2 hinv
      exact hstep i st1 (by omega) (by push_cast; omega) hinv)
    refine ⟨st3, ?_, ?_⟩
    · simp only [forLoop, hb, hl]
    · have e : lo + ((n + 1 : Nat) : Int) = lo + 1 + (n : Int) := by push_cast; omega
      rw [e]
      exact h3

theorem setTile_ok (m : GameMap) (x y : Int) (t : TileType) (h : inGrid x y) :
    setTile m x y t
      = .ok { m with tiles := fun a b => if a = x ∧ b = y then t else m.tiles a b } := by
  simp [setTile, h]

theorem InitializeMap_ok (map : GameMap) :
    ∃ map0, InitializeMap map = .ok map0 ∧ map0.roomCount = 0 ∧
      (∀ a b, inGrid a b → map0.tiles a b = .TILE_EMPTY) := by
  have hinner : ∀ (x : Int) (m : GameMap), 0 ≤ x → x < MAP_WIDTH →
      ∃ m1, forLt 0 MAP_HEIGHT (fun y m1 => setTile m1 x y .TILE_EMPTY) m = .ok m1 ∧
        (∀ a b, (a = x ∧ 0 ≤ b ∧ b < MAP_HEIGHT) → m1.tiles a b = .TILE_EMPTY) ∧
        (∀ a b, ¬ (a = x ∧ 0 ≤ b ∧ b < MAP_HEIGHT) → m1.tiles a b = m.tiles a b) := by
    intro x m hx0 hx1
    obtain ⟨m1, h, hin, hout⟩ := forLoop_inv
      (fun j (m1 : GameMap) =>
        (∀ a b, (a = x ∧ 0 ≤ b ∧ b < j) → m1.tiles a b = .TILE_EMPTY) ∧
        (∀ a b, ¬ (a = x ∧ 0 ≤ b ∧ b < j) → m1.tiles a b = m.tiles a b))
      (fun y m1 => setTile m1 x y .TILE_EMPTY) (MAP_HEIGHT - 0).toNat 0 m
      ⟨fun a b hab => by omega, fun a b _ => rfl⟩
      (by
        intro j m1 hj0 hj1 ⟨hin, hout⟩
        have hg : inGrid x j := ⟨hx0, hx1, hj0, by simp [MAP_HEIGHT] at hj1 ⊢; omega⟩
        refine ⟨_, setTile_ok m1 x j _ hg, ?_, ?_⟩
        · intro a b hab
          by_cases hc : a = x ∧ b = j
          · simp [hc]
          · simp only [hc, if_false]
            exact hin a b (by omega)
        · intro a b hab
          have hc : ¬ (a = x ∧ b = j) := by omega
          simp only [hc, if_false]
          exact hout a b (by omega))
    refine ⟨m1, h, ?_, ?_⟩
    · intro a b hab
      exact hin a b (by simp [MAP_HEIGHT] at hab ⊢; omega)
    · intro a b hab
      exact hout a b (by simp [MAP_HEIGHT] at hab ⊢; omega)
  obtain ⟨m1, h, hin⟩ := forLoop_inv
    (fun i (m1 : GameMap) =>
      ∀ a b, (0 ≤ a ∧ a < i ∧ 0 ≤ b ∧ b < MAP_HEIGHT) → m1.tiles a b = .TILE_EMPTY)
    (fun x m => forLt 0 MAP_HEIGHT (fun y m1 => setTile m1 x y .TILE_EMPTY) m)
    (MAP_WIDTH - 0).toNat 0 map
    (fun a b hab => by omega)
    (by
      intro i m1 hi0 hi1 hinv
      obtain ⟨m2, h2, hin2, hout2⟩ := hinner i m1 hi0 (by simp [MAP_WIDTH] at hi1 ⊢; omega)
      refine ⟨m2, h2, ?_⟩
      intro a b hab
      by_cases hc : a = i
      · exact hin2 a b ⟨hc, hab.2.2.1, hab.2.2.2⟩
      · rw [hout2 a b (by tauto)]
        exact hinv a b (by omega))
  refine ⟨{ m1 with roomCount := 0 }, ?_, rfl, ?_⟩
  · simp only [InitializeMap]
    have h' : forLt 0 MAP_WIDTH (fun x m =>
        forLt 0 MAP_HEIGHT (fun y m1 => setTile m1 x y .TILE_EMPTY) m) map = .ok m1 := h
    rw [h']
  · intro a b hab
    exact hin a b (by simp [inGrid, MAP_WIDTH] at hab ⊢; omega)

/-- C2 (the code at the failing input): whatever the map holds before the
call, on the stream 2, 0, 0, ... `GenerateBSPDungeon` cuts the 80x45 root at
offset 7, reaches the leaf `(0, 0, 7, 45)` and evaluates
`rand() % (7 - 5 - 2)`, a modulo by zero. On the stream
0, 3, 3, 3, 3, 3, 1, 0, 1, 1, 0, ... the first leaf is `(0, 0, 5, 45)`, the
room drawn for it is 6 wide and is placed at `x = -1`, and `CreateRoom`
writes the tile `[-1][20]`, outside the grid. -/
theorem GenerateBSPDungeon_can_fault :
    (∀ map : GameMap, GenerateBSPDungeon map (streamOf [2]) = .error .divByZero) ∧
    GenerateBSPDungeon emptyMap (streamOf [0, 3, 3, 3, 3, 3, 1, 0, 1, 1])
      = .error .outOfBounds := by
  constructor
  · intro map
    obtain ⟨map0, h0, _, _⟩ := InitializeMap_ok map
    simp only [GenerateBSPDungeon, h0]
    rfl
  · have key : (match GenerateBSPDungeon emptyMap (streamOf [0, 3, 3, 3, 3, 3, 1, 0, 1, 1]) with
        | .error e => decide (e = .outOfBounds)
        | .ok _ => false) = true := by decide!
    cases h : GenerateBSPDungeon emptyMap (streamOf [0, 3, 3, 3, 3, 3, 1, 0, 1, 1]) with
    | error e =>
      rw [h] at key
      simp only [decide_eq_true_eq] at key
      rw [key]
    | ok p =>
      rw [h] at key
      cases key

theorem Painted_congr {m m1 : GameMap} {P Q : Int → Int → Prop} {t : TileType}
    (h : Painted m m1 P t) (hPQ : ∀ a b, P a b ↔ Q a b) : Painted m m1 Q t :=
  ⟨h.1, h.2.1, fun a b hq => h.2.2.1 a b ((hPQ a b).2 hq),
    fun a b hq => h.2.2.2 a b (fun hp => hq ((hPQ a b).1 hp))⟩

theorem Painted_refl (m : GameMap) (t : TileType) : Painted m m (fun _ _ => False) t :=
  ⟨rfl, rfl, fun _ _ h => h.elim, fun _ _ _ => rfl⟩

/-- Painting `P` and then `Q` with the same tile paints their union. -/
theorem Painted_trans {m m1 m2 : GameMap} {P Q : Int → Int → Prop} {t : TileType}
    (h1 : Painted m m1 P t) (h2 : Painted m1 m2 Q t) :
    Painted m m2 (fun a b => P a b ∨ Q a b) t := by
  refine ⟨h2.1.trans h1.1, h2.2.1.trans h1.2.1, ?_, ?_⟩
  · intro a b hab
    by_cases hq : Q a b
    · exact h2.2.2.1 a b hq
    · rw [h2.2.2.2 a b hq]
      exact h1.2.2.1 a b (hab.resolve_right hq)
  · intro a b hab
    rw [h2.2.2.2 a b (fun hq => hab (Or.inr hq))]
    exact h1.2.2.2 a b (fun hp => hab (Or.inl hp))

theorem setTile_painted (m : GameMap) (x y : Int) (t : TileType) (h : inGrid x y) :
    ∃ m1, setTile m x y t = .ok m1 ∧ Painted m m1 (fun a b => a = x ∧ b = y) t := by
  refine ⟨_, setTile_ok m x y t h, rfl, rfl, ?_, ?_⟩
  · intro a b hab
    simp [hab]
  · intro a b hab
    simp [hab]

/-- A loop whose iteration `i` paints the set `Q i` paints the union of the
sets of its iterations. -/
theorem forLoop_painted (t : TileType) (Q : Int → Int → Int → Prop)
    (body : Int → GameMap → Except Fault GameMap) (count : Nat) (lo : Int) (m : GameMap)
    (hbody : ∀ i m1, lo ≤ i → i < lo + count → ∃ m2, body i m1 = .ok m2 ∧ Painted m1 m2 (Q i) t) :
    ∃ m3, forLoop lo count body m = .ok m3 ∧
      Painted m m3 (fun a b => ∃ i, lo ≤ i ∧ i < lo + count ∧ Q i a b) t := by
  obtain ⟨m3, h, hinv⟩ := forLoop_inv
    (fun k m1 => Painted m m1 (fun a b => ∃ i, lo ≤ i ∧ i < k ∧ Q i a b) t)
    body count lo m
    (Painted_congr (Painted_refl m t) (fun a b =>
      ⟨fun hf => hf.elim, fun ⟨i, h1, h2, _⟩ => by omega⟩))
    (by
      intro i m1 hi0 hi1 hinv
      obtain ⟨m2, hb, hp⟩ := hbody i m1 hi0 hi1
      refine ⟨m2, hb, Painted_congr (Painted_trans hinv hp) ?_⟩
      intro a b
      constructor
      · rintro (⟨k, hk0, hk1, hq⟩ | hq)
        · exact ⟨k, hk0, by omega, hq⟩
        · exact ⟨i, hi0, by omega, hq⟩
      · rintro ⟨k, hk0, hk1, hq⟩
        by_cases hki : k = i
        · subst hki
          exact Or.inr hq
        · exact Or.inl ⟨k, hk0, by omega, hq⟩)
  exact ⟨m3, h, hinv⟩

theorem condSetTile_painted (c : Prop) [Decidable c] (m : GameMap) (x y : Int) (t : TileType)
    (h : c → inGrid x y) :
    ∃ m1, (if c then setTile m x y t else .ok m) = .ok m1 ∧
      Painted m m1 (fun a b => c ∧ a = x ∧ b = y) t := by
  by_cases hc : c
  · obtain ⟨m1, h1, hp⟩ := setTile_painted m x y t (h hc)
    exact ⟨m1, by rw [if_pos hc]; exact h1, Painted_congr hp (fun a b => by tauto)⟩
  · exact ⟨m, by rw [if_neg hc], Painted_congr (Painted_refl m t) (fun a b => by tauto)⟩

theorem wallRowsBody_painted (y height i : Int) (m : GameMap)
    (hy1 : y - 1 < MAP_HEIGHT) (hy2 : 0 ≤ y + height) :
    ∃ m2, wallRowsBody y height i m = .ok m2 ∧
      Painted m m2 (fun a b => a = i ∧ 0 ≤ i ∧ i < MAP_WIDTH ∧
        ((b = y - 1 ∧ 0 ≤ y - 1) ∨ (b = y + height ∧ y + height < MAP_HEIGHT))) .TILE_WALL := by
  by_cases hi : i ≥ 0 ∧ i < MAP_WIDTH
  · obtain ⟨m1, h1, hp1⟩ := condSetTile_painted (y - 1 ≥ 0) m i (y - 1) .TILE_WALL
      (fun hc => ⟨hi.1, hi.2, hc, hy1⟩)
    obtain ⟨m2, h2, hp2⟩ := condSetTile_painted (y + height < MAP_HEIGHT) m1 i (y + height)
      .TILE_WALL (fun hc => ⟨hi.1, hi.2, hy2, hc⟩)
    refine ⟨m2, ?_, Painted_congr (Painted_trans hp1 hp2) ?_⟩
    · simp only [wallRowsBody, if_pos hi, h1, h2]
    · intro a b
      constructor
      · rintro (⟨hc, ha, hb⟩ | ⟨hc, ha, hb⟩)
        · exact ⟨ha, hi.1, hi.2, Or.inl ⟨hb, hc⟩⟩
        · exact ⟨ha, hi.1, hi.2, Or.inr ⟨hb, hc⟩⟩
      · rintro ⟨ha, _, _, ⟨hb, hc⟩ | ⟨hb, hc⟩⟩
        · exact Or.inl ⟨hc, ha, hb⟩
        · exact Or.inr ⟨hc, ha, hb⟩
  · refine ⟨m, by simp only [wallRowsBody, if_neg hi], Painted_congr (Painted_refl m _) ?_⟩
    intro a b
    constructor
    · intro hf
      exact hf.elim
    · rintro ⟨_, h0, h1, _⟩
      exact hi ⟨h0, h1⟩

theorem wallColsBody_painted (x width j : Int) (m : GameMap)
    (hx1 : x - 1 < MAP_WIDTH) (hx2 : 0 ≤ x + width) :
    ∃ m2, wallColsBody x width j m = .ok m2 ∧
      Painted m m2 (fun a b => b = j ∧ 0 ≤ j ∧ j < MAP_HEIGHT ∧
        ((a = x - 1 ∧ 0 ≤ x - 1) ∨ (a = x + width ∧ x + width < MAP_WIDTH))) .TILE_WALL := by
  by_cases hj : j ≥ 0 ∧ j < MAP_HEIGHT
  · obtain ⟨m1, h1, hp1⟩ := condSetTile_painted (x - 1 ≥ 0) m (x - 1) j .TILE_WALL
      (fun hc => ⟨hc, hx1, hj.1, hj.2⟩)
    obtain ⟨m2, h2, hp2⟩ := condSetTile_painted (x + width < MAP_WIDTH) m1 (x + width) j
      .TILE_WALL (fun hc => ⟨hx2, hc, hj.1, hj.2⟩)
    refine ⟨m2, ?_, Painted_congr (Painted_trans hp1 hp2) ?_⟩
    · simp only [wallColsBody, if_pos hj, h1, h2]
    · intro a b
      constructor
      · rintro (⟨hc, ha, hb⟩ | ⟨hc, ha, hb⟩)
        · exact ⟨hb, hj.1, hj.2, Or.inl ⟨ha, hc⟩⟩
        · exact ⟨hb, hj.1, hj.2, Or.inr ⟨ha, hc⟩⟩
      · rintro ⟨hb, _, _, ⟨ha, hc⟩ | ⟨ha, hc⟩⟩
        · exact Or.inl ⟨hc, ha, hb⟩
        · exact Or.inr ⟨hc, ha, hb⟩
  · refine ⟨m, by simp only [wallColsBody, if_neg hj], Painted_congr (Painted_refl m _) ?_⟩
    intro a b
    constructor
    · intro hf
      exact hf.elim
    · rintro ⟨_, h0, h1, _⟩
      exact hj ⟨h0, h1⟩

/-- The first loop nest of `CreateRoom` paints the rectangle with Floor. -/
theorem CreateRoom_floor_loop (map : GameMap) (x y width height : Int)
    (hx : 0 ≤ x) (hy : 0 ≤ y) (hxw : x + width ≤ MAP_WIDTH) (hyh : y + height ≤ MAP_HEIGHT) :
    ∃ m1, forLt x (x + width) (fun i m =>
        forLt y (y + height) (fun j m1 => setTile m1 i j .TILE_FLOOR) m) map = .ok m1 ∧
      Painted map m1 (fun a b => x ≤ a ∧ a < x + width ∧ y ≤ b ∧ b < y + height)
        .TILE_FLOOR := by
  obtain ⟨m1, h, hp⟩ := forLoop_painted .TILE_FLOOR
    (fun i a b => a = i ∧ y ≤ b ∧ b < y + height)
    (fun i m => forLt y (y + height) (fun j m1 => setTile m1 i j .TILE_FLOOR) m)
    (x + width - x).toNat x map
    (by
      intro i m1 hi0 hi1
      obtain ⟨m2, h2, hp2⟩ := forLoop_painted .TILE_FLOOR
        (fun j a b => a = i ∧ b = j)
        (fun j m1 => setTile m1 i j .TILE_FLOOR) (y + height - y).toNat y m1
        (by
          intro j m2 hj0 hj1
          exact setTile_painted m2 i j .TILE_FLOOR ⟨by omega, by omega, by omega, by omega⟩)
      refine ⟨m2, h2, Painted_congr hp2 ?_⟩
      intro a b
      constructor
      · rintro ⟨j, hj0, hj1, ha, hb⟩
        exact ⟨ha, by omega, by omega⟩
      · rintro ⟨ha, hb0, hb1⟩
        exact ⟨b, hb0, by omega, ha, rfl⟩)
  refine ⟨m1, h, Painted_congr hp ?_⟩
  intro a b
  constructor
  · rintro ⟨i, hi0, hi1, ha, hb0, hb1⟩
    exact ⟨by omega, by omega, hb0, hb1⟩
  · rintro ⟨ha0, ha1, hb0, hb1⟩
    exact ⟨a, ha0, by omega, rfl, hb0, hb1⟩

/-- C10: for every map and every rectangle lying inside the grid,
`CreateRoom` returns a map in which every cell of the rectangle is Floor,
every in-grid cell of the one-tile ring around the rectangle (corners
included) is Wall, and every other tile (in particular every position
outside the grid), the room slots and the room count are unchanged. -/
theorem CreateRoom_effect (map : GameMap) (x y width height : Int)
    (hx : 0 ≤ x) (hy : 0 ≤ y) (hw : 0 ≤ width) (hh : 0 ≤ height)
    (hxw : x + width ≤ MAP_WIDTH) (hyh : y + height ≤ MAP_HEIGHT) :
    ∃ map1, CreateRoom map x y width height = .ok map1 ∧
      (∀ a b, x ≤ a → a < x + width → y ≤ b → b < y + height →
        map1.tiles a b = .TILE_FLOOR) ∧
      (∀ a b, inGrid a b → x - 1 ≤ a → a ≤ x + width → y - 1 ≤ b → b ≤ y + height →
        ¬ (x ≤ a ∧ a < x + width ∧ y ≤ b ∧ b < y + height) →
        map1.tiles a b = .TILE_WALL) ∧
      (∀ a b, ¬ (x - 1 ≤ a ∧ a ≤ x + width ∧ y - 1 ≤ b ∧ b ≤ y + height) →
        map1.tiles a b = map.tiles a b) ∧
      (∀ a b, ¬ inGrid a b → map1.tiles a b = map.tiles a b) ∧
      map1.rooms = map.rooms ∧ map1.roomCount = map.roomCount := by
  obtain ⟨m1, h1, hp1⟩ := CreateRoom_floor_loop map x y width height hx hy hxw hyh
  obtain ⟨m2, h2, hp2⟩ := forLoop_painted .TILE_WALL
    (fun i a b => a = i ∧ 0 ≤ i ∧ i < MAP_WIDTH ∧
        ((b = y - 1 ∧ 0 ≤ y - 1) ∨ (b = y + height ∧ y + height < MAP_HEIGHT)))
    (wallRowsBody y height) (x + width + 1 - (x - 1)).toNat (x - 1) m1
    (fun i m _ _ => wallRowsBody_painted y height i m (by omega) (by omega))
  obtain ⟨m3, h3, hp3⟩ := forLoop_painted .TILE_WALL
    (fun j a b => b = j ∧ 0 ≤ j ∧ j < MAP_HEIGHT ∧
        ((a = x - 1 ∧ 0 ≤ x - 1) ∨ (a = x + width ∧ x + width < MAP_WIDTH)))
    (wallColsBody x width) (y + height + 1 - (y - 1)).toNat (y - 1) m2
    (fun j m _ _ => wallColsBody_painted x width j m (by omega) (by omega))
  have hW := Painted_trans hp2 hp3
  refine ⟨m3, ?_, ?_, ?_, ?_, ?_, ?_, ?_⟩
  · have h1' : forLt x (x + width) (fun i m =>
        forLt y (y + height) (fun j m1 => setTile m1 i j .TILE_FLOOR) m) map = .ok m1 := h1
    have h2' : forLe (x - 1) (x + width) (wallRowsBody y height) m1 = .ok m2 := h2
    have h3' : forLe (y - 1) (y + height) (wallColsBody x width) m2 = .ok m3 := h3
    simp only [CreateRoom, h1', h2', h3']
  · intro a b ha0 ha1 hb0 hb1
    rw [hW.2.2.2 a b, hp1.2.2.1 a b ⟨ha0, ha1, hb0, hb1⟩]
    rintro (⟨i, _, _, hai, _, _, h | h⟩ | ⟨j, _, _, hbj, _, _, h | h⟩) <;> omega
  · intro a b hg ha0 ha1 hb0 hb1 hnot
    apply hW.2.2.1 a b
    unfold inGrid at hg
    by_cases hrow : b = y - 1 ∨ b = y + height
    · left
      refine ⟨a, ha0, by omega, rfl, hg.1, hg.2.1, ?_⟩
      rcases hrow with hrow | hrow
      · exact Or.inl ⟨hrow, by omega⟩
      · exact Or.inr ⟨hrow, by omega⟩
    · right
      refine ⟨b, hb0, by omega, rfl, hg.2.2.1, hg.2.2.2, ?_⟩
      have hcol : a = x - 1 ∨ a = x + width := by omega
      rcases hcol with hcol | hcol
      · exact Or.inl ⟨hcol, by omega⟩
      · exact Or.inr ⟨hcol, by omega⟩
  · intro a b hnot
    rw [hW.2.2.2 a b, hp1.2.2.2 a b (by omega)]
    rintro (⟨i, _, _, hai, _, _, h | h⟩ | ⟨j, _, _, hbj, _, _, h | h⟩) <;> omega
  · intro a b hnot
    rw [hW.2.2.2 a b, hp1.2.2.2 a b]
    · intro hin
      exact hnot ⟨by omega, by omega, by omega, by omega⟩
    · unfold inGrid at hnot
      rintro (⟨i, _, _, hai, _, _, h | h⟩ | ⟨j, _, _, hbj, _, _, h | h⟩) <;> omega
  · exact hW.1.trans hp1.1
  · exact hW.2.1.trans hp1.2.1

theorem CreateRoom_effect_witness :
    (0 : Int) ≤ 2 ∧ (0 : Int) ≤ 3 ∧ (0 : Int) ≤ 4 ∧ (0 : Int) ≤ 5 ∧
    2 + 4 ≤ MAP_WIDTH ∧ 3 + 5 ≤ MAP_HEIGHT ∧
    ∃ map1, CreateRoom emptyMap 2 3 4 5 = .ok map1 ∧
      (∀ a b, 2 ≤ a → a < 2 + 4 → 3 ≤ b → b < 3 + 5 → map1.tiles a b = .TILE_FLOOR) ∧
      (∀ a b, inGrid a b → 2 - 1 ≤ a → a ≤ 2 + 4 → 3 - 1 ≤ b → b ≤ 3 + 5 →
        ¬ (2 ≤ a ∧ a < 2 + 4 ∧ 3 ≤ b ∧ b < 3 + 5) → map1.tiles a b = .TILE_WALL) ∧
      (∀ a b, ¬ (2 - 1 ≤ a ∧ a ≤ 2 + 4 ∧ 3 - 1 ≤ b ∧ b ≤ 3 + 5) →
        map1.tiles a b = emptyMap.tiles a b) ∧
      (∀ a b, ¬ inGrid a b → map1.tiles a b = emptyMap.tiles a b) ∧
      map1.rooms = emptyMap.rooms ∧ map1.roomCount = emptyMap.roomCount :=
  ⟨by decide, by decide, by decide, by decide, by decide, by decide,
    CreateRoom_effect emptyMap 2 3 4 5 (by decide) (by decide) (by decide) (by decide)
      (by decide) (by decide)⟩

/-! ### Flood fill -/

theorem Reachable_walkable {map : GameMap} {x0 y0 x y : Int} (h : Reachable map x0 y0 x y) :
    Walkable map x y := by
  cases h with
  | start hw => exact hw
  | step _ _ hw => exact hw

theorem walkableB_sound {map : GameMap} {x y : Int} (h : walkableB map x y = true) :
    Walkable map x y := by
  simpa [walkableB, Walkable] using h

theorem notWalkableB_sound {map : GameMap} {x y : Int} (h : notWalkableB map x y = true) :
    ¬ Walkable map x y := by
  intro hw
  unfold Walkable at hw
  simp [notWalkableB, hw.1, hw.2] at h

/-- When `enclosedB` holds for a rectangle, no walkable cell outside the
rectangle is a neighbour of a cell inside it. -/
theorem enclosedB_sound {map : GameMap} {a b c d : Int} (h : enclosedB map a b c d = true)
    {x y u v : Int} (hin : a ≤ x ∧ x ≤ b ∧ c ≤ y ∧ y ≤ d)
    (hout : ¬ (a ≤ u ∧ u ≤ b ∧ c ≤ v ∧ v ≤ d)) (hadj : Adjacent4 u v x y) :
    ¬ Walkable map u v := by
  simp only [enclosedB, Bool.and_eq_true, List.all_eq_true, List.mem_range] at h
  obtain ⟨hrows, hcols⟩ := h
  have hr := hrows (x - a).toNat (by omega)
  have hc := hcols (y - c).toNat (by omega)
  have ex : a + ((x - a).toNat : Int) = x := by omega
  have ey : c + ((y - c).toNat : Int) = y := by omega
  rw [ex] at hr
  rw [ey] at hc
  unfold Adjacent4 at hadj
  rcases hadj with ⟨hux, hv | hv⟩ | ⟨hvy, hu | hu⟩
  · have hv' : v = c - 1 := by omega
    subst hux
    rw [hv']
    exact notWalkableB_sound hr.1
  · have hv' : v = d + 1 := by omega
    subst hux
    rw [hv']
    exact notWalkableB_sound hr.2
  · have hu' : u = a - 1 := by omega
    subst hvy
    rw [hu']
    exact notWalkableB_sound hc.1
  · have hu' : u = b + 1 := by omega
    subst hvy
    rw [hu']
    exact notWalkableB_sound hc.2

/-- A flood fill that starts outside an enclosed rectangle never enters it. -/
theorem Reachable_not_into_enclosed {map : GameMap} {a b c d : Int}
    (h : enclosedB map a b c d = true) {x0 y0 x y : Int}
    (hstart : ¬ (a ≤ x0 ∧ x0 ≤ b ∧ c ≤ y0 ∧ y0 ≤ d)) (hr : Reachable map x0 y0 x y) :
    ¬ (a ≤ x ∧ x ≤ b ∧ c ≤ y ∧ y ≤ d) := by
  induction hr with
  | start _ => exact hstart
  | step hprev hadj _ ih =>
    intro hin
    exact enclosedB_sound h hin ih hadj (Reachable_walkable hprev)

theorem checkOk_elim {α : Type} {e : Except Fault α} {P : α → Bool}
    (h : checkOk e P = true) : ∃ a, e = .ok a ∧ P a = true := by
  cases e with
  | error _ => cases h
  | ok a => exact ⟨a, rfl, h⟩

/-- C3 (the code at the failing input): on the map with the rooms
`(1, 1, 5, 5)` and `(10, 10, 5, 5)` stamped, with an even elbow roll (elbow
`(x2, y1) = (12, 3)`) and no door, `ConnectRooms` returns a map in which both
room centers are Floor and the center `(12, 12)` of the second room is not
reachable from the center `(3, 3)` of the first through Floor and Door
tiles. -/
theorem ConnectRooms_even_roll_leaves_rooms_apart :
    ∃ map0 map1 s1,
      twoRoomsMap = .ok map0 ∧
      ConnectRooms map0 ⟨1, 1, 5, 5⟩ ⟨10, 10, 5, 5⟩ (streamOf [0, 99, 99]) = .ok (map1, s1) ∧
      Walkable map1 (roomCenterX ⟨1, 1, 5, 5⟩) (roomCenterY ⟨1, 1, 5, 5⟩) ∧
      Walkable map1 (roomCenterX ⟨10, 10, 5, 5⟩) (roomCenterY ⟨10, 10, 5, 5⟩) ∧
      ¬ Reachable map1 (roomCenterX ⟨1, 1, 5, 5⟩) (roomCenterY ⟨1, 1, 5, 5⟩)
          (roomCenterX ⟨10, 10, 5, 5⟩) (roomCenterY ⟨10, 10, 5, 5⟩) := by
  have key : checkOk twoRoomsMap (fun map0 =>
      checkOk (ConnectRooms map0 ⟨1, 1, 5, 5⟩ ⟨10, 10, 5, 5⟩ (streamOf [0, 99, 99]))
        (fun p => walkableB p.1 3 3 && walkableB p.1 12 12 &&
          enclosedB p.1 10 14 10 14)) = true := by decide!
  obtain ⟨map0, h0, key1⟩ := checkOk_elim key
  obtain ⟨⟨map1, s1⟩, h1, key2⟩ := checkOk_elim key1
  simp only [Bool.and_eq_true] at key2
  obtain ⟨⟨hw1, hw2⟩, henc⟩ := key2
  refine ⟨map0, map1, s1, h0, h1, walkableB_sound hw1, walkableB_sound hw2, ?_⟩
  intro hr
  exact Reachable_not_into_enclosed henc (by decide) hr (by decide)

theorem pathOkB_sound (map : GameMap) (x0 y0 : Int) :
    ∀ (rest : List (Int × Int)) (p : Int × Int), Reachable map x0 y0 p.1 p.2 →
      pathOkB map (p :: rest) = true →
      Reachable map x0 y0 (pathEnd p rest).1 (pathEnd p rest).2 := by
  intro rest
  induction rest with
  | nil =>
    intro p hr _
    exact hr
  | cons q rest ih =>
    intro p hr hp
    simp only [pathOkB, Bool.and_eq_true] at hp
    obtain ⟨⟨_, hadj⟩, ⟨⟨hwq, hnext⟩, hrest⟩⟩ := hp
    have hq : Reachable map x0 y0 q.1 q.2 := by
      refine Reachable.step hr ?_ ?_
      · simp only [adjacent4B, Bool.or_eq_true, Bool.and_eq_true, decide_eq_true_eq] at hadj
        exact hadj
      · simp only [walkableB, Bool.and_eq_true, decide_eq_true_eq] at hwq
        exact hwq
    apply ih q hq
    simp only [pathOkB, Bool.and_eq_true]
    exact ⟨⟨hwq, hnext⟩, hrest⟩

/-- The sibling branch of `ConnectRooms`: on the map with the rooms
`(1, 1, 5, 5)` and `(10, 10, 5, 5)` stamped, an odd elbow roll (elbow
`(x1, y2) = (3, 12)`) carves the whole L and the center of the second room is
reachable from the center of the first. -/
theorem ConnectRooms_odd_roll_joins_rooms :
    ∃ map0 map1 s1,
      twoRoomsMap = .ok map0 ∧
      ConnectRooms map0 ⟨1, 1, 5, 5⟩ ⟨10, 10, 5, 5⟩ (streamOf [1, 99, 99]) = .ok (map1, s1) ∧
      Reachable map1 (roomCenterX ⟨1, 1, 5, 5⟩) (roomCenterY ⟨1, 1, 5, 5⟩)
          (roomCenterX ⟨10, 10, 5, 5⟩) (roomCenterY ⟨10, 10, 5, 5⟩) := by
  have key : checkOk twoRoomsMap (fun map0 =>
      checkOk (ConnectRooms map0 ⟨1, 1, 5, 5⟩ ⟨10, 10, 5, 5⟩ (streamOf [1, 99, 99]))
        (fun p => walkableB p.1 3 3 && pathOkB p.1 elbowPath)) = true := by decide!
  obtain ⟨map0, h0, key1⟩ := checkOk_elim key
  obtain ⟨⟨map1, s1⟩, h1, key2⟩ := checkOk_elim key1
  simp only [Bool.and_eq_true] at key2
  refine ⟨map0, map1, s1, h0, h1, ?_⟩
  exact pathOkB_sound map1 3 3 _ (3, 3) (Reachable.start (walkableB_sound key2.1)) key2.2

/-! ### Movement -/

/-- C15: for every map, position `(x, y)` and step `(dx, dy)`, `MoveEntity`
returns without a fault and leaves the map as it was; it returns true exactly
when the destination `(x + dx, y + dy)` is inside the 80x45 grid and its tile
is Floor or Door, and then the position is the destination; in every other
case it returns false and the position is unchanged. -/
theorem MoveEntity_moves_iff_walkable (x y dx dy : Int) (map : GameMap) :
    ∃ moved x1 y1,
      MoveEntity x y dx dy map = .ok (moved, x1, y1, map) ∧
      (moved = true ↔
        (0 ≤ x + dx ∧ x + dx < 80 ∧ 0 ≤ y + dy ∧ y + dy < 45) ∧
        (map.tiles (x + dx) (y + dy) = .TILE_FLOOR ∨
          map.tiles (x + dx) (y + dy) = .TILE_DOOR)) ∧
      (moved = true → x1 = x + dx ∧ y1 = y + dy) ∧
      (moved = false → x1 = x ∧ y1 = y) := by
  by_cases hout : x + dx < 0 ∨ x + dx ≥ MAP_WIDTH ∨ y + dy < 0 ∨ y + dy ≥ MAP_HEIGHT
  · refine ⟨false, x, y, by simp only [MoveEntity, if_pos hout], ?_, ?_, ?_⟩
    · simp only [MAP_WIDTH, MAP_HEIGHT] at hout
      constructor
      · intro h
        cases h
      · rintro ⟨hin, _⟩
        omega
    · intro h
      cases h
    · intro _
      exact ⟨rfl, rfl⟩
  · have hin : inGrid (x + dx) (y + dy) := by
      unfold inGrid
      omega
    have hbox : 0 ≤ x + dx ∧ x + dx < 80 ∧ 0 ≤ y + dy ∧ y + dy < 45 := by
      simp only [MAP_WIDTH, MAP_HEIGHT] at hout
      omega
    by_cases hw : map.tiles (x + dx) (y + dy) = .TILE_FLOOR ∨
        map.tiles (x + dx) (y + dy) = .TILE_DOOR
    · refine ⟨true, x + dx, y + dy, ?_, ?_, ?_, ?_⟩
      · simp only [MoveEntity, if_neg hout, getTile, if_pos hin, if_pos hw]
      · exact ⟨fun _ => ⟨hbox, hw⟩, fun _ => rfl⟩
      · intro _
        exact ⟨rfl, rfl⟩
      · intro h
        cases h
    · refine ⟨false, x, y, ?_, ?_, ?_, ?_⟩
      · simp only [MoveEntity, if_neg hout, getTile, if_pos hin, if_neg hw]
      · constructor
        · intro h
          cases h
        · rintro ⟨_, h⟩
          exact absurd h hw
      · intro h
        cases h
      · intro _
        exact ⟨rfl, rfl⟩

/-! ### Entity creation -/

/-- C20: `CreateEnemy` with `enemyCount ≥ 20` and `CreateItem` with
`itemCount ≥ 30` return the game state (and the random stream) exactly as they
were, without a fault. With `0 ≤ count` below the capacity, each call returns
a state whose count is one more, whose slot at the old count holds an active
entity with the given position and type, and in which every other slot and
every other field of the game state are unchanged. -/
theorem CreateEnemy_CreateItem_capacity :
    (∀ (st : GameState) (x y : Int) (t : EnemyType),
      20 ≤ st.enemyCount → CreateEnemy st x y t = .ok st) ∧
    (∀ (st : GameState) (x y : Int) (t : ItemType) (s : RandStream),
      30 ≤ st.itemCount → CreateItem st x y t s = .ok (st, s)) ∧
    (∀ (st : GameState) (x y : Int) (t : EnemyType),
      0 ≤ st.enemyCount → st.enemyCount < 20 →
      ∃ st1, CreateEnemy st x y t = .ok st1 ∧
        st1.enemyCount = st.enemyCount + 1 ∧
        (st1.enemies st.enemyCount).x = x ∧ (st1.enemies st.enemyCount).y = y ∧
        (st1.enemies st.enemyCount).type = t ∧ (st1.enemies st.enemyCount).active = true ∧
        (∀ k, k ≠ st.enemyCount → st1.enemies k = st.enemies k) ∧
        st1.player = st.player ∧ st1.items = st.items ∧ st1.itemCount = st.itemCount ∧
        st1.turn = st.turn ∧ st1.playerTurn = st.playerTurn ∧ st1.level = st.level ∧
        st1.gameOver = st.gameOver ∧ st1.message = st.message) ∧
    (∀ (st : GameState) (x y : Int) (t : ItemType) (s : RandStream),
      0 ≤ st.itemCount → st.itemCount < 30 →
      ∃ st1 s1, CreateItem st x y t s = .ok (st1, s1) ∧
        st1.itemCount = st.itemCount + 1 ∧
        (st1.items st.itemCount).x = x ∧ (st1.items st.itemCount).y = y ∧
        (st1.items st.itemCount).type = t ∧ (st1.items st.itemCount).active = true ∧
        (∀ k, k ≠ st.itemCount → st1.items k = st.items k) ∧
        st1.player = st.player ∧ st1.enemies = st.enemies ∧ st1.enemyCount = st.enemyCount ∧
        st1.turn = st.turn ∧ st1.playerTurn = st.playerTurn ∧ st1.level = st.level ∧
        st1.gameOver = st.gameOver ∧ st1.message = st.message) := by
  refine ⟨?_, ?_, ?_, ?_⟩
  · intro st x y t h
    have h1 : st.enemyCount ≥ MAX_ENEMIES := by simpa [MAX_ENEMIES] using h
    simp only [CreateEnemy, if_pos h1]
  · intro st x y t s h
    have h1 : st.itemCount ≥ MAX_ITEMS := by simpa [MAX_ITEMS] using h
    simp only [CreateItem, if_pos h1]
  · intro st x y t h0 h1
    have h2 : ¬ st.enemyCount ≥ MAX_ENEMIES := by simp only [MAX_ENEMIES]; omega
    refine ⟨?st1, ?eq, ?rest⟩
    case eq =>
      simp only [CreateEnemy, if_neg h2, if_pos h0]
      exact rfl
    refine ⟨rfl, ?_, ?_, ?_, ?_, ?_, rfl, rfl, rfl, rfl, rfl, rfl, rfl, rfl⟩
    · cases t <;> simp [enemyTemplate]
    · cases t <;> simp [enemyTemplate]
    · cases t <;> simp [enemyTemplate]
    · cases t <;> simp [enemyTemplate]
    · intro k hk
      simp [hk]
  · intro st x y t s h0 h1
    have h2 : ¬ st.itemCount ≥ MAX_ITEMS := by simp only [MAX_ITEMS]; omega
    refine ⟨?st2, ?s2, ?eq2, ?rest2⟩
    case eq2 =>
      simp only [CreateItem, if_neg h2, if_pos h0]
      exact rfl
    refine ⟨rfl, ?_, ?_, ?_, ?_, ?_, rfl, rfl, rfl, rfl, rfl, rfl, rfl, rfl⟩
    · cases t <;> simp [itemTemplate]
    · cases t <;> simp [itemTemplate]
    · cases t <;> simp [itemTemplate]
    · cases t <;> simp [itemTemplate]
    · intro k hk
      simp [hk]

/-! ### Line of sight -/

/-- On a row, `IsVisibleLoop` walks from `x` to `x2` one cell at a time and
checks every cell it steps to, the last one included. -/
theorem IsVisibleLoop_row (map : GameMap) (x2 y D sx sy : Int) (hD : 0 < D)
    (hsx : sx = 1 ∨ sx = -1) :
    ∀ (n fuel : Nat) (x : Int), n < fuel → x2 = x + sx * n →
      (∀ k : Int, 1 ≤ k → k ≤ n → inGrid (x + sx * k) y) →
      ∃ r, IsVisibleLoop map x2 y D 0 sx sy fuel x y D = .ok (some r) ∧
        (r = true ↔ ∀ k : Int, 1 ≤ k → k ≤ n → map.tiles (x + sx * k) y ≠ .TILE_WALL) := by
  intro n
  induction n with
  | zero =>
    intro fuel x hf hx _
    obtain ⟨f, rfl⟩ : ∃ f, fuel = f + 1 := ⟨fuel - 1, by omega⟩
    have hx2 : x = x2 := by simp at hx; omega
    refine ⟨true, by simp [IsVisibleLoop, hx2], ?_⟩
    simp only [true_iff]
    intro k h1 h2
    simp at h2
    omega
  | succ n ih =>
    intro fuel x hf hx hg
    obtain ⟨f, rfl⟩ : ∃ f, fuel = f + 1 := ⟨fuel - 1, by omega⟩
    have hne : x ≠ x2 := by
      rcases hsx with h | h <;> subst h <;> push_cast at hx <;> omega
    have hc3 : 0 ≤ 2 * D := by omega
    have hc4 : ¬ (2 * D ≤ D) := by omega
    have hg1 : inGrid (x + sx) y := by
      have := hg 1 (le_refl 1) (by push_cast; omega)
      simpa using this
    obtain ⟨r, hr, hiff⟩ := ih f (x + sx) (by omega)
      (by rcases hsx with h | h <;> subst h <;> push_cast at hx ⊢ <;> omega)
      (by
        intro k hk1 hk2
        have := hg (k + 1) (by omega) (by push_cast; omega)
        have e : x + sx * (k + 1) = x + sx + sx * k := by ring
        rw [e] at this
        exact this)
    by_cases hw : map.tiles (x + sx) y = .TILE_WALL
    · refine ⟨false, ?_, ?_⟩
      · simp [IsVisibleLoop, hne, hc3, hc4, getTile, hg1, hw]
      · simp only [Bool.false_eq_true, false_iff, not_forall]
        exact ⟨1, le_refl 1, by push_cast; omega, by simpa using hw⟩
    · refine ⟨r, ?_, ?_⟩
      · simp [IsVisibleLoop, hne, hc3, hc4, getTile, hg1, hw, hr]
      · rw [hiff]
        constructor
        · intro h k hk1 hk2
          by_cases hk : k = 1
          · subst hk
            simpa using hw
          · have := h (k - 1) (by omega) (by push_cast at hk2; omega)
            have e : x + sx + sx * (k - 1) = x + sx * k := by ring
            rw [e] at this
            exact this
        · intro h k hk1 hk2
          have := h (k + 1) (by omega) (by push_cast; omega)
          have e : x + sx * (k + 1) = x + sx + sx * k := by ring
          rw [e] at this
          exact this

/-- On a column, `IsVisibleLoop` walks from `y` to `y2` one cell at a time and
checks every cell it steps to, the last one included. -/
theorem IsVisibleLoop_column (map : GameMap) (x y2 D sx sy : Int) (hD : 0 < D)
    (hsy : sy = 1 ∨ sy = -1) :
    ∀ (n fuel : Nat) (y : Int), n < fuel → y2 = y + sy * n →
      (∀ k : Int, 1 ≤ k → k ≤ n → inGrid x (y + sy * k)) →
      ∃ r, IsVisibleLoop map x y2 0 (-D) sx sy fuel x y (-D) = .ok (some r) ∧
        (r = true ↔ ∀ k : Int, 1 ≤ k → k ≤ n → map.tiles x (y + sy * k) ≠ .TILE_WALL) := by
  intro n
  induction n with
  | zero =>
    intro fuel y hf hy _
    obtain ⟨f, rfl⟩ : ∃ f, fuel = f + 1 := ⟨fuel - 1, by omega⟩
    have hy2 : y = y2 := by simp at hy; omega
    refine ⟨true, by simp [IsVisibleLoop, hy2], ?_⟩
    simp only [true_iff]
    intro k h1 h2
    simp at h2
    omega
  | succ n ih =>
    intro fuel y hf hy hg
    obtain ⟨f, rfl⟩ : ∃ f, fuel = f + 1 := ⟨fuel - 1, by omega⟩
    have hne : y ≠ y2 := by
      rcases hsy with h | h <;> subst h <;> push_cast at hy <;> omega
    have hc3 : ¬ (2 * D ≤ D) := by omega
    have hc4 : 0 ≤ D := by omega
    have hg1 : inGrid x (y + sy) := by
      have := hg 1 (le_refl 1) (by push_cast; omega)
      simpa using this
    obtain ⟨r, hr, hiff⟩ := ih f (y + sy) (by omega)
      (by rcases hsy with h | h <;> subst h <;> push_cast at hy ⊢ <;> omega)
      (by
        intro k hk1 hk2
        have := hg (k + 1) (by omega) (by push_cast; omega)
        have e : y + sy * (k + 1) = y + sy + sy * k := by ring
        rw [e] at this
        exact this)
    by_cases hw : map.tiles x (y + sy) = .TILE_WALL
    · refine ⟨false, ?_, ?_⟩
      · simp [IsVisibleLoop, hne, hc3, hc4, getTile, hg1, hw]
      · simp only [Bool.false_eq_true, false_iff, not_forall]
        exact ⟨1, le_refl 1, by push_cast; omega, by simpa using hw⟩
    · refine ⟨r, ?_, ?_⟩
      · simp [IsVisibleLoop, hne, hc3, hc4, getTile, hg1, hw, hr]
      · rw [hiff]
        constructor
        · intro h k hk1 hk2
          by_cases hk : k = 1
          · subst hk
            simpa using hw
          · have := h (k - 1) (by omega) (by push_cast at hk2; omega)
            have e : y + sy + sy * (k - 1) = y + sy * k := by ring
            rw [e] at this
            exact this
        · intro h k hk1 hk2
          have := h (k + 1) (by omega) (by push_cast; omega)
          have e : y + sy * (k + 1) = y + sy + sy * k := by ring
          rw [e] at this
          exact this

/-- The walk of `IsVisibleLoop` between two points of the grid: with `a`
steps left along x and `b` steps left along y, and the error term that the
algorithm keeps for that position, the loop returns within `a + b` iterations
without leaving the box of the two points, and it returns false when the
target holds a Wall and has not been reached yet. -/
theorem IsVisibleLoop_walk (map : GameMap) (x2 y2 A B sx sy : Int)
    (hsx : sx = 1 ∨ sx = -1) (hsy : sy = 1 ∨ sy = -1)
    (hbox : ∀ a b : Int, 0 ≤ a → a ≤ A → 0 ≤ b → b ≤ B → inGrid (x2 - sx * a) (y2 - sy * b)) :
    ∀ (fuel : Nat) (a b x y err : Int), 0 ≤ a → a ≤ A → 0 ≤ b → b ≤ B → a + b < fuel →
      x = x2 - sx * a → y = y2 - sy * b → err = A - B + a * B - b * A →
      ∃ r, IsVisibleLoop map x2 y2 A (-B) sx sy fuel x y err = .ok (some r) ∧
        (map.tiles x2 y2 = .TILE_WALL → (a ≠ 0 ∨ b ≠ 0) → r = false) := by
  intro fuel
  induction fuel with
  | zero =>
    intro a b x y err ha0 _ hb0 _ hf
    omega
  | succ f ih =>
    intro a b x y err ha0 ha1 hb0 hb1 hf hx hy herr
    have hxa : x = x2 ↔ a = 0 := by
      rcases hsx with h | h <;> subst h <;> constructor <;> intro h1 <;> omega
    have hyb : y = y2 ↔ b = 0 := by
      rcases hsy with h | h <;> subst h <;> constructor <;> intro h1 <;> omega
    by_cases h0 : x = x2 ∧ y = y2
    · refine ⟨true, by simp only [IsVisibleLoop, if_pos h0], ?_⟩
      intro _ hne
      rcases hne with hne | hne
      · exact absurd (hxa.1 h0.1) hne
      · exact absurd (hyb.1 h0.2) hne
    · have hab : a ≠ 0 ∨ b ≠ 0 := by
        by_contra hc
        push_neg at hc
        exact h0 ⟨hxa.2 hc.1, hyb.2 hc.2⟩
      have h1 : ¬ (2 * err ≥ -B ∧ x = x2) := by
        rintro ⟨hc, hxe⟩
        have ha : a = 0 := hxa.1 hxe
        have hb : 1 ≤ b := by omega
        have hm : A ≤ b * A := by nlinarith
        subst ha
        simp only [zero_mul] at herr
        omega
      have h2 : ¬ (2 * err ≤ A ∧ y = y2) := by
        rintro ⟨hc, hye⟩
        have hb : b = 0 := hyb.1 hye
        have ha : 1 ≤ a := by omega
        have hm : B ≤ a * B := by nlinarith
        subst hb
        simp only [zero_mul] at herr
        omega
      have hprog : 2 * err ≥ -B ∨ 2 * err ≤ A := by omega
      -- the position after the two conditional steps
      have hstep : ∃ a1 b1 : Int, 0 ≤ a1 ∧ a1 ≤ A ∧ 0 ≤ b1 ∧ b1 ≤ B ∧ a1 + b1 < f ∧
          (if 2 * err ≥ -B then x + sx else x) = x2 - sx * a1 ∧
          (if 2 * err ≤ A then y + sy else y) = y2 - sy * b1 ∧
          (if 2 * err ≤ A then (if 2 * err ≥ -B then err + -B else err) + A
            else (if 2 * err ≥ -B then err + -B else err)) = A - B + a1 * B - b1 * A := by
        by_cases c1 : 2 * err ≥ -B <;> by_cases c2 : 2 * err ≤ A
        · have ha : a ≠ 0 := fun h => h1 ⟨c1, hxa.2 h⟩
          have hb : b ≠ 0 := fun h => h2 ⟨c2, hyb.2 h⟩
          refine ⟨a - 1, b - 1, by omega, by omega, by omega, by omega, by omega, ?_, ?_, ?_⟩
          · rw [if_pos c1, hx]; ring
          · rw [if_pos c2, hy]; ring
          · rw [if_pos c2, if_pos c1, herr]; ring
        · have ha : a ≠ 0 := fun h => h1 ⟨c1, hxa.2 h⟩
          refine ⟨a - 1, b, by omega, by omega, by omega, by omega, by omega, ?_, ?_, ?_⟩
          · rw [if_pos c1, hx]; ring
          · rw [if_neg c2, hy]
          · rw [if_neg c2, if_pos c1, herr]; ring
        · have hb : b ≠ 0 := fun h => h2 ⟨c2, hyb.2 h⟩
          refine ⟨a, b - 1, by omega, by omega, by omega, by omega, by omega, ?_, ?_, ?_⟩
          · rw [if_neg c1, hx]
          · rw [if_pos c2, hy]; ring
          · rw [if_pos c2, if_neg c1, herr]; ring
        · omega
      obtain ⟨a1, b1, ha10, ha11, hb10, hb11, hf1, hx1, hy1, herr1⟩ := hstep
      have hg : inGrid (if 2 * err ≥ -B then x + sx else x) (if 2 * err ≤ A then y + sy else y) := by
        rw [hx1, hy1]
        exact hbox a1 b1 ha10 ha11 hb10 hb11
      obtain ⟨r, hr, hrw⟩ := ih a1 b1 _ _ _ ha10 ha11 hb10 hb11 hf1 hx1 hy1 herr1
      by_cases hw : map.tiles (if 2 * err ≥ -B then x + sx else x)
          (if 2 * err ≤ A then y + sy else y) = .TILE_WALL
      · refine ⟨false, ?_, fun _ _ => rfl⟩
        simp only [IsVisibleLoop, if_neg h0, if_neg h1, if_neg h2, getTile, if_pos hg, if_pos hw]
      · refine ⟨r, ?_, ?_⟩
        · simp only [IsVisibleLoop, if_neg h0, if_neg h1, if_neg h2, getTile, if_pos hg,
            if_neg hw]
          exact hr
        · intro htw _
          apply hrw htw
          by_contra hc
          push_neg at hc
          apply hw
          rw [hx1, hy1, hc.1, hc.2]
          simpa using htw

/-- `IsVisible` along a row, from left to right: every cell after the start,
up to the target and including it, is checked. -/
theorem IsVisible_row_right (map : GameMap) (x1 x2 y : Int) (hlt : x1 < x2)
    (h1 : inGrid x1 y) (h2 : inGrid x2 y) :
    ∃ r, IsVisible x1 y x2 y map = .ok (some r) ∧
      (r = true ↔ ∀ c : Int, x1 < c → c ≤ x2 → map.tiles c y ≠ .TILE_WALL) := by
  obtain ⟨r, hr, hiff⟩ := IsVisibleLoop_row map x2 y (x2 - x1) 1 (-1) (by omega) (Or.inl rfl)
    (x2 - x1).toNat ((x2 - x1).toNat + 1) x1 (by omega) (by omega)
    (by
      intro k hk1 hk2
      unfold inGrid at h1 h2 ⊢
      omega)
  refine ⟨r, ?_, ?_⟩
  · have e1 : cAbs (x2 - x1) = x2 - x1 := by unfold cAbs; rw [if_neg (by omega)]
    have e2 : cAbs (y - y) = 0 := by simp [cAbs]
    simp only [IsVisible, e1, e2, if_pos hlt, neg_zero, add_zero, sub_zero, lt_self_iff_false,
      if_false]
    exact hr
  · rw [hiff]
    constructor
    · intro h c hc1 hc2
      have := h (c - x1) (by omega) (by omega)
      simpa using this
    · intro h k hk1 hk2
      have := h (x1 + 1 * k) (by omega) (by omega)
      exact this

/-- `IsVisible` along a row, from right to left. -/
theorem IsVisible_row_left (map : GameMap) (x1 x2 y : Int) (hlt : x2 < x1)
    (h1 : inGrid x1 y) (h2 : inGrid x2 y) :
    ∃ r, IsVisible x1 y x2 y map = .ok (some r) ∧
      (r = true ↔ ∀ c : Int, x2 ≤ c → c < x1 → map.tiles c y ≠ .TILE_WALL) := by
  obtain ⟨r, hr, hiff⟩ := IsVisibleLoop_row map x2 y (x1 - x2) (-1) (-1) (by omega) (Or.inr rfl)
    (x1 - x2).toNat ((x1 - x2).toNat + 1) x1 (by omega) (by omega)
    (by
      intro k hk1 hk2
      unfold inGrid at h1 h2 ⊢
      omega)
  refine ⟨r, ?_, ?_⟩
  · have e1 : cAbs (x2 - x1) = x1 - x2 := by unfold cAbs; rw [if_pos (by omega)]; omega
    have e2 : cAbs (y - y) = 0 := by simp [cAbs]
    have hn : ¬ x1 < x2 := by omega
    simp only [IsVisible, e1, e2, if_neg hn, neg_zero, add_zero, sub_zero, lt_self_iff_false,
      if_false]
    exact hr
  · rw [hiff]
    constructor
    · intro h c hc1 hc2
      have := h (x1 - c) (by omega) (by omega)
      have e : x1 + -1 * (x1 - c) = c := by ring
      rw [e] at this
      exact this
    · intro h k hk1 hk2
      exact h (x1 + -1 * k) (by omega) (by omega)

/-- `IsVisible` along a column, downwards (growing y). -/
theorem IsVisible_column_down (map : GameMap) (x y1 y2 : Int) (hlt : y1 < y2)
    (h1 : inGrid x y1) (h2 : inGrid x y2) :
    ∃ r, IsVisible x y1 x y2 map = .ok (some r) ∧
      (r = true ↔ ∀ c : Int, y1 < c → c ≤ y2 → map.tiles x c ≠ .TILE_WALL) := by
  obtain ⟨r, hr, hiff⟩ := IsVisibleLoop_column map x y2 (y2 - y1) (-1) 1 (by omega) (Or.inl rfl)
    (y2 - y1).toNat ((y2 - y1).toNat + 1) y1 (by omega) (by omega)
    (by
      intro k hk1 hk2
      unfold inGrid at h1 h2 ⊢
      omega)
  refine ⟨r, ?_, ?_⟩
  · have e1 : cAbs (y2 - y1) = y2 - y1 := by unfold cAbs; rw [if_neg (by omega)]
    have e2 : cAbs (x - x) = 0 := by simp [cAbs]
    have e3 : (0 - -(y2 - y1)).toNat = (y2 - y1).toNat := by congr 1; omega
    simp only [IsVisible, e1, e2, e3, if_pos hlt, zero_add, lt_self_iff_false, if_false]
    exact hr
  · rw [hiff]
    constructor
    · intro h c hc1 hc2
      have := h (c - y1) (by omega) (by omega)
      simpa using this
    · intro h k hk1 hk2
      exact h (y1 + 1 * k) (by omega) (by omega)

/-- `IsVisible` along a column, upwards (shrinking y). -/
theorem IsVisible_column_up (map : GameMap) (x y1 y2 : Int) (hlt : y2 < y1)
    (h1 : inGrid x y1) (h2 : inGrid x y2) :
    ∃ r, IsVisible x y1 x y2 map = .ok (some r) ∧
      (r = true ↔ ∀ c : Int, y2 ≤ c → c < y1 → map.tiles x c ≠ .TILE_WALL) := by
  obtain ⟨r, hr, hiff⟩ := IsVisibleLoop_column map x y2 (y1 - y2) (-1) (-1) (by omega)
    (Or.inr rfl) (y1 - y2).toNat ((y1 - y2).toNat + 1) y1 (by omega) (by omega)
    (by
      intro k hk1 hk2
      unfold inGrid at h1 h2 ⊢
      omega)
  refine ⟨r, ?_, ?_⟩
  · have e1 : cAbs (y2 - y1) = y1 - y2 := by unfold cAbs; rw [if_pos (by omega)]; omega
    have e2 : cAbs (x - x) = 0 := by simp [cAbs]
    have e3 : (0 - -(y1 - y2)).toNat = (y1 - y2).toNat := by congr 1; omega
    have hn : ¬ y1 < y2 := by omega
    simp only [IsVisible, e1, e2, e3, if_neg hn, zero_add, lt_self_iff_false, if_false]
    exact hr
  · rw [hiff]
    constructor
    · intro h c hc1 hc2
      have := h (y1 - c) (by omega) (by omega)
      have e : y1 + -1 * (y1 - c) = c := by ring
      rw [e] at this
      exact this
    · intro h k hk1 hk2
      exact h (y1 + -1 * k) (by omega) (by omega)

/-- C16: for every map and every two in-grid points on the same row or the
same column, if some cell strictly between the two points is a Wall then
`IsVisible` returns false. -/
theorem IsVisible_wall_between_blocks (map : GameMap) (x1 y1 x2 y2 : Int)
    (h1 : inGrid x1 y1) (h2 : inGrid x2 y2)
    (hline :
      (y1 = y2 ∧ ∃ c, ((x1 < c ∧ c < x2) ∨ (x2 < c ∧ c < x1)) ∧ map.tiles c y1 = .TILE_WALL) ∨
      (x1 = x2 ∧ ∃ c, ((y1 < c ∧ c < y2) ∨ (y2 < c ∧ c < y1)) ∧ map.tiles x1 c = .TILE_WALL)) :
    IsVisible x1 y1 x2 y2 map = .ok (some false) := by
  rcases hline with ⟨rfl, c, hc | hc, hw⟩ | ⟨rfl, c, hc | hc, hw⟩
  · obtain ⟨r, hr, hiff⟩ := IsVisible_row_right map x1 x2 y1 (by omega) h1 h2
    have hrf : r = false := by
      cases r with
      | false => rfl
      | true => exact absurd hw (hiff.1 rfl c hc.1 (by omega))
    rw [hr, hrf]
  · obtain ⟨r, hr, hiff⟩ := IsVisible_row_left map x1 x2 y1 (by omega) h1 h2
    have hrf : r = false := by
      cases r with
      | false => rfl
      | true => exact absurd hw (hiff.1 rfl c (by omega) hc.2)
    rw [hr, hrf]
  · obtain ⟨r, hr, hiff⟩ := IsVisible_column_down map x1 y1 y2 (by omega) h1 h2
    have hrf : r = false := by
      cases r with
      | false => rfl
      | true => exact absurd hw (hiff.1 rfl c hc.1 (by omega))
    rw [hr, hrf]
  · obtain ⟨r, hr, hiff⟩ := IsVisible_column_up map x1 y1 y2 (by omega) h1 h2
    have hrf : r = false := by
      cases r with
      | false => rfl
      | true => exact absurd hw (hiff.1 rfl c (by omega) hc.2)
    rw [hr, hrf]

theorem IsVisible_wall_between_blocks_witness :
    inGrid 0 0 ∧ inGrid 2 0 ∧
    (((0 : Int) = 0 ∧ ∃ c : Int, ((0 < c ∧ c < 2) ∨ (2 < c ∧ c < 0)) ∧
        (wallAt 1 0).tiles c 0 = .TILE_WALL) ∨
      ((0 : Int) = 2 ∧ ∃ c : Int, ((0 < c ∧ c < 0) ∨ (0 < c ∧ c < 0)) ∧
        (wallAt 1 0).tiles 0 c = .TILE_WALL)) ∧
    IsVisible 0 0 2 0 (wallAt 1 0) = .ok (some false) :=
  ⟨by decide, by decide, Or.inl ⟨rfl, 1, Or.inl ⟨by decide, by decide⟩, rfl⟩,
    IsVisible_wall_between_blocks (wallAt 1 0) 0 0 2 0 (by decide) (by decide)
      (Or.inl ⟨rfl, 1, Or.inl ⟨by decide, by decide⟩, rfl⟩)⟩

/-- C17 (counterexample): the in-grid points `(0, 0)` and `(1, 0)` are one
step apart, the target cell `(1, 0)` holds a Wall, and `IsVisible` returns
false, not true. -/
theorem IsVisible_adjacent_wall_target_false :
    inGrid 0 0 ∧ inGrid 1 0 ∧ Adjacent4 0 0 1 0 ∧
    IsVisible 0 0 1 0 (wallAt 1 0) = .ok (some false) ∧
    IsVisible 0 0 1 0 (wallAt 1 0) ≠ .ok (some true) := by
  refine ⟨by decide, by decide, Or.inr ⟨rfl, Or.inl rfl⟩, rfl, ?_⟩
  intro h
  have h2 : IsVisible 0 0 1 0 (wallAt 1 0) = .ok (some false) := rfl
  rw [h2] at h
  cases h

/-- C17 (amended): for every map and every two in-grid points that are
identical or one step apart horizontally or vertically, `IsVisible` returns a
result; it is true when the points are identical, whatever the tiles; when
they are one step apart it is true exactly when the target cell `(x2, y2)`
does not hold a Wall. The tile of the start cell plays no part. -/
theorem IsVisible_identical_or_adjacent (map : GameMap) (x1 y1 x2 y2 : Int)
    (h1 : inGrid x1 y1) (h2 : inGrid x2 y2)
    (hnear : (x1 = x2 ∧ y1 = y2) ∨ Adjacent4 x1 y1 x2 y2) :
    ∃ r, IsVisible x1 y1 x2 y2 map = .ok (some r) ∧
      (r = true ↔ ((x1 = x2 ∧ y1 = y2) ∨ map.tiles x2 y2 ≠ .TILE_WALL)) := by
  rcases hnear with ⟨rfl, rfl⟩ | ⟨rfl, rfl | rfl⟩ | ⟨rfl, rfl | rfl⟩
  · refine ⟨true, ?_, by simp⟩
    simp [IsVisible, IsVisibleLoop]
  · obtain ⟨r, hr, hiff⟩ := IsVisible_column_down map x1 y1 (y1 + 1) (by omega) h1 h2
    refine ⟨r, hr, ?_⟩
    rw [hiff]
    constructor
    · intro h
      exact Or.inr (h (y1 + 1) (by omega) (by omega))
    · rintro (⟨_, h⟩ | h)
      · omega
      · intro c hc1 hc2
        have : c = y1 + 1 := by omega
        rw [this]
        exact h
  · obtain ⟨r, hr, hiff⟩ := IsVisible_column_up map x1 y1 (y1 - 1) (by omega) h1 h2
    refine ⟨r, hr, ?_⟩
    rw [hiff]
    constructor
    · intro h
      exact Or.inr (h (y1 - 1) (by omega) (by omega))
    · rintro (⟨_, h⟩ | h)
      · omega
      · intro c hc1 hc2
        have : c = y1 - 1 := by omega
        rw [this]
        exact h
  · obtain ⟨r, hr, hiff⟩ := IsVisible_row_right map x1 (x1 + 1) y1 (by omega) h1 h2
    refine ⟨r, hr, ?_⟩
    rw [hiff]
    constructor
    · intro h
      exact Or.inr (h (x1 + 1) (by omega) (by omega))
    · rintro (⟨h, _⟩ | h)
      · omega
      · intro c hc1 hc2
        have : c = x1 + 1 := by omega
        rw [this]
        exact h
  · obtain ⟨r, hr, hiff⟩ := IsVisible_row_left map x1 (x1 - 1) y1 (by omega) h1 h2
    refine ⟨r, hr, ?_⟩
    rw [hiff]
    constructor
    · intro h
      exact Or.inr (h (x1 - 1) (by omega) (by omega))
    · rintro (⟨h, _⟩ | h)
      · omega
      · intro c hc1 hc2
        have : c = x1 - 1 := by omega
        rw [this]
        exact h

theorem IsVisible_identical_or_adjacent_witness :
    inGrid 3 4 ∧ inGrid 3 5 ∧ (((3 : Int) = 3 ∧ (4 : Int) = 5) ∨ Adjacent4 3 4 3 5) ∧
    ∃ r, IsVisible 3 4 3 5 (wallAt 3 4) = .ok (some r) ∧
      (r = true ↔ (((3 : Int) = 3 ∧ (4 : Int) = 5) ∨ (wallAt 3 4).tiles 3 5 ≠ .TILE_WALL)) :=
  ⟨by decide, by decide, Or.inr (Or.inl ⟨rfl, Or.inl rfl⟩),
    IsVisible_identical_or_adjacent (wallAt 3 4) 3 4 3 5 (by decide) (by decide)
      (Or.inr (Or.inl ⟨rfl, Or.inl rfl⟩))⟩

/-- C18: for every map and every two distinct in-grid points, on any slope,
if the tile at the target point `(x2, y2)` is a Wall then `IsVisible` returns
false. -/
theorem IsVisible_wall_target_blocks (map : GameMap) (x1 y1 x2 y2 : Int)
    (h1 : inGrid x1 y1) (h2 : inGrid x2 y2) (hne : x1 ≠ x2 ∨ y1 ≠ y2)
    (hwall : map.tiles x2 y2 = .TILE_WALL) :
    IsVisible x1 y1 x2 y2 map = .ok (some false) := by
  have hsx : (if x1 < x2 then (1 : Int) else -1) = 1 ∨ (if x1 < x2 then (1 : Int) else -1) = -1 := by
    split_ifs <;> simp
  have hsy : (if y1 < y2 then (1 : Int) else -1) = 1 ∨ (if y1 < y2 then (1 : Int) else -1) = -1 := by
    split_ifs <;> simp
  have hA : 0 ≤ cAbs (x2 - x1) := by unfold cAbs; split_ifs <;> omega
  have hB : 0 ≤ cAbs (y2 - y1) := by unfold cAbs; split_ifs <;> omega
  have hx : x1 = x2 - (if x1 < x2 then (1 : Int) else -1) * cAbs (x2 - x1) := by
    unfold cAbs; split_ifs <;> omega
  have hy : y1 = y2 - (if y1 < y2 then (1 : Int) else -1) * cAbs (y2 - y1) := by
    unfold cAbs; split_ifs <;> omega
  obtain ⟨r, hr, hrw⟩ := IsVisibleLoop_walk map x2 y2 (cAbs (x2 - x1)) (cAbs (y2 - y1))
    (if x1 < x2 then 1 else -1) (if y1 < y2 then 1 else -1) hsx hsy
    (by
      intro a b ha0 ha1 hb0 hb1
      unfold inGrid at h1 h2 ⊢
      unfold cAbs at ha1 hb1
      split_ifs at ha1 hb1 ⊢ <;> omega)
    ((cAbs (x2 - x1) - -cAbs (y2 - y1)).toNat + 1) (cAbs (x2 - x1)) (cAbs (y2 - y1)) x1 y1
    (cAbs (x2 - x1) + -cAbs (y2 - y1)) hA (le_refl _) hB (le_refl _) (by omega) hx hy (by ring)
  have hrf : r = false := by
    apply hrw hwall
    unfold cAbs
    rcases hne with h | h
    · left
      split_ifs <;> omega
    · right
      split_ifs <;> omega
  simp only [IsVisible]
  rw [hr, hrf]

theorem IsVisible_wall_target_blocks_witness :
    inGrid 0 0 ∧ inGrid 5 2 ∧ ((0 : Int) ≠ 5 ∨ (0 : Int) ≠ 2) ∧
    (wallAt 5 2).tiles 5 2 = .TILE_WALL ∧
    IsVisible 0 0 5 2 (wallAt 5 2) = .ok (some false) :=
  ⟨by decide, by decide, Or.inl (by decide), rfl,
    IsVisible_wall_target_blocks (wallAt 5 2) 0 0 5 2 (by decide) (by decide)
      (Or.inl (by decide)) rfl⟩

/-! ### Entity placement -/

theorem CreateEnemy_below_capacity (st : GameState) (x y : Int) (t : EnemyType)
    (h0 : 0 ≤ st.enemyCount) (h1 : st.enemyCount < MAX_ENEMIES) :
    ∃ st1, CreateEnemy st x y t = .ok st1 ∧
      st1.enemyCount = st.enemyCount + 1 ∧
      (st1.enemies st.enemyCount).x = x ∧ (st1.enemies st.enemyCount).y = y ∧
      (∀ k, k ≠ st.enemyCount → st1.enemies k = st.enemies k) ∧
      st1.items = st.items ∧ st1.itemCount = st.itemCount := by
  have h2 : ¬ st.enemyCount ≥ MAX_ENEMIES := by omega
  refine ⟨?st1, ?eq, ?rest⟩
  case eq =>
    simp only [CreateEnemy, if_neg h2, if_pos h0]
    exact rfl
  refine ⟨rfl, ?_, ?_, ?_, rfl, rfl⟩
  · cases t <;> simp [enemyTemplate]
  · cases t <;> simp [enemyTemplate]
  · intro k hk
    simp [hk]

theorem CreateItem_below_capacity (st : GameState) (x y : Int) (t : ItemType) (s : RandStream)
    (h0 : 0 ≤ st.itemCount) (h1 : st.itemCount < MAX_ITEMS) :
    ∃ st1 s1, CreateItem st x y t s = .ok (st1, s1) ∧
      st1.itemCount = st.itemCount + 1 ∧
      (st1.items st.itemCount).x = x ∧ (st1.items st.itemCount).y = y ∧
      (∀ k, k ≠ st.itemCount → st1.items k = st.items k) ∧
      st1.enemies = st.enemies ∧ st1.enemyCount = st.enemyCount := by
  have h2 : ¬ st.itemCount ≥ MAX_ITEMS := by omega
  refine ⟨?st1, ?s1, ?eq, ?rest⟩
  case eq =>
    simp only [CreateItem, if_neg h2, if_pos h0]
    exact rfl
  refine ⟨rfl, ?_, ?_, ?_, rfl, rfl⟩
  · cases t <;> simp [itemTemplate]
  · cases t <;> simp [itemTemplate]
  · intro k hk
    simp [hk]

/-- The enemy half of a room iteration either leaves the enemies as they are
or adds one enemy at an interior cell of the room. -/
theorem placeEnemyInRoom_spec (room : Room) (st : GameState) (s : RandStream)
    (hw : 3 ≤ room.width) (hh : 3 ≤ room.height)
    (h0 : 0 ≤ st.enemyCount) (h1 : st.enemyCount < MAX_ENEMIES) :
    ∃ st1 s1, placeEnemyInRoom room (st, s) = .ok (st1, s1) ∧
      st1.items = st.items ∧ st1.itemCount = st.itemCount ∧
      ((st1.enemyCount = st.enemyCount ∧ st1.enemies = st.enemies) ∨
       (st1.enemyCount = st.enemyCount + 1 ∧
        (∀ k, k ≠ st.enemyCount → st1.enemies k = st.enemies k) ∧
        room.x + 1 ≤ (st1.enemies st.enemyCount).x ∧
        (st1.enemies st.enemyCount).x ≤ room.x + room.width - 2 ∧
        room.y + 1 ≤ (st1.enemies st.enemyCount).y ∧
        (st1.enemies st.enemyCount).y ≤ room.y + room.height - 2)) := by
  by_cases hroll : Int.tmod (rand s).1 100 < 60
  · obtain ⟨ox, hox, hox0, hox1⟩ := cMod_pos (rand (rand s).2).1 (room.width - 2)
      (rand_nonneg _) (by omega)
    obtain ⟨oy, hoy, hoy0, hoy1⟩ := cMod_pos (rand (rand (rand s).2).2).1 (room.height - 2)
      (rand_nonneg _) (by omega)
    obtain ⟨st1, hc, hcount, hx, hy, hothers, hitems, hic⟩ :=
      CreateEnemy_below_capacity st (room.x + 1 + ox) (room.y + 1 + oy)
        (enemyTypeOfRoll (Int.tmod (rand (rand (rand (rand s).2).2).2).1 100)) h0 h1
    refine ⟨st1, (rand (rand (rand (rand s).2).2).2).2, ?_, hitems, hic,
      Or.inr ⟨hcount, hothers, ?_, ?_, ?_, ?_⟩⟩
    · simp only [placeEnemyInRoom, if_pos hroll, hox, hoy, hc]
    · rw [hx]; omega
    · rw [hx]; omega
    · rw [hy]; omega
    · rw [hy]; omega
  · exact ⟨st, (rand s).2, by simp only [placeEnemyInRoom, if_neg hroll], rfl, rfl,
      Or.inl ⟨rfl, rfl⟩⟩

/-- The item half of a room iteration either leaves the items as they are or
adds one item at an interior cell of the room. -/
theorem placeItemInRoom_spec (room : Room) (st : GameState) (s : RandStream)
    (hw : 3 ≤ room.width) (hh : 3 ≤ room.height)
    (h0 : 0 ≤ st.itemCount) (h1 : st.itemCount < MAX_ITEMS) :
    ∃ st1 s1, placeItemInRoom room (st, s) = .ok (st1, s1) ∧
      st1.enemies = st.enemies ∧ st1.enemyCount = st.enemyCount ∧
      ((st1.itemCount = st.itemCount ∧ st1.items = st.items) ∨
       (st1.itemCount = st.itemCount + 1 ∧
        (∀ k, k ≠ st.itemCount → st1.items k = st.items k) ∧
        room.x + 1 ≤ (st1.items st.itemCount).x ∧
        (st1.items st.itemCount).x ≤ room.x + room.width - 2 ∧
        room.y + 1 ≤ (st1.items st.itemCount).y ∧
        (st1.items st.itemCount).y ≤ room.y + room.height - 2)) := by
  by_cases hroll : Int.tmod (rand s).1 100 < 40
  · obtain ⟨ox, hox, hox0, hox1⟩ := cMod_pos (rand (rand s).2).1 (room.width - 2)
      (rand_nonneg _) (by omega)
    obtain ⟨oy, hoy, hoy0, hoy1⟩ := cMod_pos (rand (rand (rand s).2).2).1 (room.height - 2)
      (rand_nonneg _) (by omega)
    obtain ⟨st1, s1, hc, hcount, hx, hy, hothers, henemies, hec⟩ :=
      CreateItem_below_capacity st (room.x + 1 + ox) (room.y + 1 + oy)
        (itemTypeOfRoll (Int.tmod (rand (rand (rand (rand s).2).2).2).1 100))
        (rand (rand (rand (rand s).2).2).2).2 h0 h1
    refine ⟨st1, s1, ?_, henemies, hec, Or.inr ⟨hcount, hothers, ?_, ?_, ?_, ?_⟩⟩
    · simp only [placeItemInRoom, if_pos hroll, hox, hoy, hc]
    · rw [hx]; omega
    · rw [hx]; omega
    · rw [hy]; omega
    · rw [hy]; omega
  · exact ⟨st, (rand s).2, by simp only [placeItemInRoom, if_neg hroll], rfl, rfl,
      Or.inl ⟨rfl, rfl⟩⟩

/-- C19: for every game state, every map with at most `MAX_ROOMS` rooms whose
rooms all have width ≥ 3 and height ≥ 3, and every random stream,
`PlaceEntities` returns a state in which every enemy slot below `enemyCount`
and every item slot below `itemCount` is positioned at an interior cell of
some room with index ≥ 1; with at most one room both counts are 0. -/
theorem PlaceEntities_spawns_in_later_rooms (state : GameState) (map : GameMap) (s : RandStream)
    (hcount : map.roomCount ≤ MAX_ROOMS)
    (hrooms : ∀ i, 0 ≤ i → i < map.roomCount →
      3 ≤ (map.rooms i).width ∧ 3 ≤ (map.rooms i).height) :
    ∃ st1 s1, PlaceEntities state map s = .ok (st1, s1) ∧
      (∀ k, 0 ≤ k → k < st1.enemyCount → ∃ i, 1 ≤ i ∧ i < map.roomCount ∧
        InteriorOfRoom (map.rooms i) (st1.enemies k).x (st1.enemies k).y) ∧
      (∀ k, 0 ≤ k → k < st1.itemCount → ∃ i, 1 ≤ i ∧ i < map.roomCount ∧
        InteriorOfRoom (map.rooms i) (st1.items k).x (st1.items k).y) ∧
      (map.roomCount ≤ 1 → st1.enemyCount = 0 ∧ st1.itemCount = 0) := by
  obtain ⟨⟨st1, s1⟩, hrun, he0, he1, hi0, hi1, hen, hit⟩ := forLoop_inv
    (fun i (p : GameState × RandStream) =>
      0 ≤ p.1.enemyCount ∧ p.1.enemyCount ≤ i - 1 ∧ 0 ≤ p.1.itemCount ∧ p.1.itemCount ≤ i - 1 ∧
      (∀ k, 0 ≤ k → k < p.1.enemyCount → ∃ j, 1 ≤ j ∧ j < i ∧
        InteriorOfRoom (map.rooms j) (p.1.enemies k).x (p.1.enemies k).y) ∧
      (∀ k, 0 ≤ k → k < p.1.itemCount → ∃ j, 1 ≤ j ∧ j < i ∧
        InteriorOfRoom (map.rooms j) (p.1.items k).x (p.1.items k).y))
    (placeInRoom map) (map.roomCount - 1).toNat 1
    ({ state with enemyCount := 0, itemCount := 0 }, s)
    ⟨le_refl _, le_refl _, le_refl _, le_refl _, fun k h0 h1 => by simp at h1; omega,
      fun k h0 h1 => by simp at h1; omega⟩
    (by
      rintro i ⟨st, s0⟩ hi0 hi1 ⟨he0, he1, hi0', hi1', hen, hit⟩
      simp only at he0 he1 hi0' hi1' hen hit
      have hmax : MAX_ROOMS = 15 := rfl
      have hir : i < map.roomCount := by omega
      have hroom : getRoom map i = .ok (map.rooms i) := by
        unfold getRoom
        rw [if_pos ⟨by omega, by omega⟩]
      obtain ⟨hw, hh⟩ := hrooms i (by omega) hir
      obtain ⟨st2, s2, hrun2, hitems2, hic2, hcase2⟩ :=
        placeEnemyInRoom_spec (map.rooms i) st s0 hw hh he0 (by simp only [MAX_ENEMIES]; omega)
      obtain ⟨st3, s3, hrun3, henemies3, hec3, hcase3⟩ :=
        placeItemInRoom_spec (map.rooms i) st2 s2 hw hh (by omega)
          (by simp only [MAX_ITEMS]; omega)
      refine ⟨(st3, s3), by simp only [placeInRoom, hroom, hrun2, hrun3], ?_⟩
      have hE : 0 ≤ st3.enemyCount ∧ st3.enemyCount ≤ i + 1 - 1 ∧
          (∀ k, 0 ≤ k → k < st3.enemyCount → ∃ j, 1 ≤ j ∧ j < i + 1 ∧
            InteriorOfRoom (map.rooms j) (st3.enemies k).x (st3.enemies k).y) := by
        rw [hec3, henemies3]
        rcases hcase2 with ⟨hc, hs⟩ | ⟨hc, hothers, hx0, hx1, hy0, hy1⟩
        · rw [hc, hs]
          refine ⟨he0, by omega, ?_⟩
          intro k hk0 hk1
          obtain ⟨j, hj0, hj1, hj⟩ := hen k hk0 hk1
          exact ⟨j, hj0, by omega, hj⟩
        · refine ⟨by omega, by omega, ?_⟩
          intro k hk0 hk1
          by_cases hk : k = st.enemyCount
          · subst hk
            exact ⟨i, hi0, by omega, hx0, hx1, hy0, hy1⟩
          · rw [hothers k hk]
            obtain ⟨j, hj0, hj1, hj⟩ := hen k hk0 (by omega)
            exact ⟨j, hj0, by omega, hj⟩
      have hI : 0 ≤ st3.itemCount ∧ st3.itemCount ≤ i + 1 - 1 ∧
          (∀ k, 0 ≤ k → k < st3.itemCount → ∃ j, 1 ≤ j ∧ j < i + 1 ∧
            InteriorOfRoom (map.rooms j) (st3.items k).x (st3.items k).y) := by
        rcases hcase3 with ⟨hc, hs⟩ | ⟨hc, hothers, hx0, hx1, hy0, hy1⟩
        · rw [hc, hs, hic2, hitems2]
          refine ⟨hi0', by omega, ?_⟩
          intro k hk0 hk1
          obtain ⟨j, hj0, hj1, hj⟩ := hit k hk0 hk1
          exact ⟨j, hj0, by omega, hj⟩
        · refine ⟨by omega, by omega, ?_⟩
          intro k hk0 hk1
          by_cases hk : k = st2.itemCount
          · subst hk
            exact ⟨i, hi0, by omega, hx0, hx1, hy0, hy1⟩
          · rw [hothers k hk, hitems2]
            obtain ⟨j, hj0, hj1, hj⟩ := hit k hk0 (by omega)
            exact ⟨j, hj0, by omega, hj⟩
      exact ⟨hE.1, hE.2.1, hI.1, hI.2.1, hE.2.2, hI.2.2⟩)
  simp only at he0 he1 hi0 hi1 hen hit
  refine ⟨st1, s1, hrun, ?_, ?_, ?_⟩
  · intro k hk0 hk1
    obtain ⟨j, hj0, hj1, hj⟩ := hen k hk0 hk1
    exact ⟨j, hj0, by omega, hj⟩
  · intro k hk0 hk1
    obtain ⟨j, hj0, hj1, hj⟩ := hit k hk0 hk1
    exact ⟨j, hj0, by omega, hj⟩
  · intro hle
    constructor <;> omega

theorem PlaceEntities_spawns_in_later_rooms_witness :
    threeRoomsMap.roomCount ≤ MAX_ROOMS ∧
    (∀ i, 0 ≤ i → i < threeRoomsMap.roomCount →
      3 ≤ (threeRoomsMap.rooms i).width ∧ 3 ≤ (threeRoomsMap.rooms i).height) ∧
    ∃ st1 s1, PlaceEntities blankState threeRoomsMap (streamOf [0, 1, 2, 95, 10, 3, 1, 75]) = .ok (st1, s1) ∧
      (∀ k, 0 ≤ k → k < st1.enemyCount → ∃ i, 1 ≤ i ∧ i < threeRoomsMap.roomCount ∧
        InteriorOfRoom (threeRoomsMap.rooms i) (st1.enemies k).x (st1.enemies k).y) ∧
      (∀ k, 0 ≤ k → k < st1.itemCount → ∃ i, 1 ≤ i ∧ i < threeRoomsMap.roomCount ∧
        InteriorOfRoom (threeRoomsMap.rooms i) (st1.items k).x (st1.items k).y) ∧
      (threeRoomsMap.roomCount ≤ 1 → st1.enemyCount = 0 ∧ st1.itemCount = 0) :=
  have hr : ∀ i, 0 ≤ i → i < threeRoomsMap.roomCount →
      3 ≤ (threeRoomsMap.rooms i).width ∧ 3 ≤ (threeRoomsMap.rooms i).height := by
    intro i h0 h1
    simp only [threeRoomsMap] at h1 ⊢
    split_ifs <;> simp
  ⟨by decide, hr,
    PlaceEntities_spawns_in_later_rooms blankState threeRoomsMap
      (streamOf [0, 1, 2, 95, 10, 3, 1, 75]) (by decide) hr⟩

/-! ### Corridors keep what is there -/

theorem TileStep_refl (t : TileType) : TileStep t t :=
  ⟨fun h => h, fun h => Or.inl h, fun h => h⟩

theorem TileStep_trans {t t1 t2 : TileType} (h1 : TileStep t t1) (h2 : TileStep t1 t2) :
    TileStep t t2 := by
  refine ⟨fun h => h2.1 (h1.1 h), ?_, fun h => h1.2.2 (h2.2.2 h)⟩
  intro h
  rcases h2.2.1 h with h3 | h3
  · exact h1.2.1 h3
  · exact Or.inr (h1.2.2 h3)

theorem MapStep_refl (m : GameMap) : MapStep m m :=
  ⟨fun _ _ => TileStep_refl _, rfl, rfl⟩

theorem MapStep_trans {m m1 m2 : GameMap} (h1 : MapStep m m1) (h2 : MapStep m1 m2) :
    MapStep m m2 :=
  ⟨fun a b => TileStep_trans (h1.1 a b) (h2.1 a b), h2.2.1.trans h1.2.1, h2.2.2.trans h1.2.2⟩

/-- Writing a Floor or a Door is a `MapStep`. -/
theorem setTile_walkable_step (m : GameMap) (x y : Int) (t : TileType)
    (ht : isWalkableTile t = true) (h : inGrid x y) :
    ∃ m1, setTile m x y t = .ok m1 ∧ MapStep m m1 := by
  refine ⟨_, setTile_ok m x y t h, ?_, rfl, rfl⟩
  intro a b
  by_cases hc : a = x ∧ b = y
  · simp only [hc, and_self, if_true]
    refine ⟨fun _ => ht, ?_, ?_⟩
    · intro h1
      rw [h1] at ht
      cases ht
    · intro h1
      rw [h1] at ht
      cases ht
  · simp only [hc, if_false]
    exact TileStep_refl _

/-- The corridor side wall is a `MapStep`: it writes a Wall only over Empty. -/
theorem wallIfEmpty_step (guard : Bool) (m : GameMap) (x y : Int)
    (h : guard = true → inGrid x y) :
    ∃ m1, wallIfEmpty guard m x y = .ok m1 ∧ MapStep m m1 := by
  by_cases hg : guard = true
  · have hin := h hg
    by_cases he : m.tiles x y = .TILE_EMPTY
    · refine ⟨{ m with tiles := fun a b => if a = x ∧ b = y then .TILE_WALL else m.tiles a b },
        by simp only [wallIfEmpty, if_pos hg, getTile, if_pos hin, if_pos he,
          setTile_ok m x y _ hin], ?_, rfl, rfl⟩
      intro a b
      by_cases hc : a = x ∧ b = y
      · simp only [hc, and_self, if_true]
        obtain ⟨rfl, rfl⟩ := hc
        rw [he]
        exact ⟨fun h1 => (by cases h1), fun _ => Or.inr rfl, fun h1 => (by cases h1)⟩
      · simp only [hc, if_false]
        exact TileStep_refl _
    · exact ⟨m, by simp only [wallIfEmpty, if_pos hg, getTile, if_pos hin, if_neg he],
        MapStep_refl m⟩
  · exact ⟨m, by simp only [wallIfEmpty, if_neg hg], MapStep_refl m⟩

theorem corridorRowBody_step (row x : Int) (m : GameMap) (h : inGrid x row) :
    ∃ m1, corridorRowBody row x m = .ok m1 ∧ MapStep m m1 := by
  obtain ⟨m1, h1, s1⟩ := setTile_walkable_step m x row .TILE_FLOOR rfl h
  obtain ⟨m2, h2, s2⟩ := wallIfEmpty_step (decide (row - 1 ≥ 0)) m1 x (row - 1) (by
    intro hg
    simp only [decide_eq_true_eq] at hg
    unfold inGrid at h ⊢
    omega)
  obtain ⟨m3, h3, s3⟩ := wallIfEmpty_step (decide (row + 1 < MAP_HEIGHT)) m2 x (row + 1) (by
    intro hg
    simp only [decide_eq_true_eq] at hg
    unfold inGrid at h ⊢
    omega)
  exact ⟨m3, by simp only [corridorRowBody, h1, h2, h3], MapStep_trans (MapStep_trans s1 s2) s3⟩

theorem corridorColBody_step (col y : Int) (m : GameMap) (h : inGrid col y) :
    ∃ m1, corridorColBody col y m = .ok m1 ∧ MapStep m m1 := by
  obtain ⟨m1, h1, s1⟩ := setTile_walkable_step m col y .TILE_FLOOR rfl h
  obtain ⟨m2, h2, s2⟩ := wallIfEmpty_step (decide (col - 1 ≥ 0)) m1 (col - 1) y (by
    intro hg
    simp only [decide_eq_true_eq] at hg
    unfold inGrid at h ⊢
    omega)
  obtain ⟨m3, h3, s3⟩ := wallIfEmpty_step (decide (col + 1 < MAP_WIDTH)) m2 (col + 1) y (by
    intro hg
    simp only [decide_eq_true_eq] at hg
    unfold inGrid at h ⊢
    omega)
  exact ⟨m3, by simp only [corridorColBody, h1, h2, h3], MapStep_trans (MapStep_trans s1 s2) s3⟩

/-- A loop whose iterations are `MapStep`s is a `MapStep`. -/
theorem forLoop_step (body : Int → GameMap → Except Fault GameMap) (count : Nat) (lo : Int)
    (m : GameMap)
    (hbody : ∀ i m1, lo ≤ i → i < lo + count → ∃ m2, body i m1 = .ok m2 ∧ MapStep m1 m2) :
    ∃ m3, forLoop lo count body m = .ok m3 ∧ MapStep m m3 := by
  obtain ⟨m3, h, hinv⟩ := forLoop_inv (fun _ m1 => MapStep m m1) body count lo m
    (MapStep_refl m)
    (by
      intro i m1 hi0 hi1 hinv
      obtain ⟨m2, hb, hs⟩ := hbody i m1 hi0 hi1
      exact ⟨m2, hb, MapStep_trans hinv hs⟩)
  exact ⟨m3, h, hinv⟩

theorem MIN_MAX_bounds (a b lo hi : Int) (ha0 : lo ≤ a) (ha1 : a < hi) (hb0 : lo ≤ b)
    (hb1 : b < hi) : lo ≤ MIN a b ∧ MAX a b < hi := by
  unfold MIN MAX
  constructor <;> split_ifs <;> omega

/-- A horizontal corridor run between two columns of the grid. -/
theorem corridorRow_loop_step (a b row : Int) (m : GameMap)
    (ha0 : 0 ≤ a) (ha1 : a < MAP_WIDTH) (hb0 : 0 ≤ b) (hb1 : b < MAP_WIDTH)
    (hr0 : 0 ≤ row) (hr1 : row < MAP_HEIGHT) :
    ∃ m1, forLe (MIN a b) (MAX a b) (corridorRowBody row) m = .ok m1 ∧ MapStep m m1 := by
  obtain ⟨hlo, hhi⟩ := MIN_MAX_bounds a b 0 MAP_WIDTH ha0 ha1 hb0 hb1
  exact forLoop_step (corridorRowBody row) _ _ m (fun i m1 hi0 hi1 =>
    corridorRowBody_step row i m1 ⟨by omega, by omega, hr0, hr1⟩)

/-- A vertical corridor run between two rows of the grid. -/
theorem corridorCol_loop_step (a b col : Int) (m : GameMap)
    (ha0 : 0 ≤ a) (ha1 : a < MAP_HEIGHT) (hb0 : 0 ≤ b) (hb1 : b < MAP_HEIGHT)
    (hc0 : 0 ≤ col) (hc1 : col < MAP_WIDTH) :
    ∃ m1, forLe (MIN a b) (MAX a b) (corridorColBody col) m = .ok m1 ∧ MapStep m m1 := by
  obtain ⟨hlo, hhi⟩ := MIN_MAX_bounds a b 0 MAP_HEIGHT ha0 ha1 hb0 hb1
  exact forLoop_step (corridorColBody col) _ _ m (fun i m1 hi0 hi1 =>
    corridorColBody_step col i m1 ⟨hc0, hc1, by omega, by omega⟩)

/-- The optional door of `ConnectRooms` is a `MapStep`. -/
theorem door_step (c : Prop) [Decidable c] (m : GameMap) (x y : Int) (h : inGrid x y) :
    ∃ m1, (if c then setTile m x y .TILE_DOOR else .ok m) = .ok m1 ∧ MapStep m m1 := by
  by_cases hc : c
  · obtain ⟨m1, h1, s1⟩ := setTile_walkable_step m x y .TILE_DOOR rfl h
    exact ⟨m1, by rw [if_pos hc]; exact h1, s1⟩
  · exact ⟨m, by rw [if_neg hc], MapStep_refl m⟩

/-- With both room centers in the grid `ConnectRooms` returns a map, and
that map comes from the map before by `MapStep`. -/
theorem ConnectRooms_step (map : GameMap) (room1 room2 : Room) (s : RandStream)
    (h1 : inGrid (roomCenterX room1) (roomCenterY room1))
    (h2 : inGrid (roomCenterX room2) (roomCenterY room2)) :
    ∃ map1 s1, ConnectRooms map room1 room2 s = .ok (map1, s1) ∧ MapStep map map1 := by
  unfold roomCenterX roomCenterY at h1 h2
  obtain ⟨hx10, hx11, hy10, hy11⟩ := h1
  obtain ⟨hx20, hx21, hy20, hy21⟩ := h2
  by_cases hev : decide (Int.tmod (rand s).1 2 = 0) = true
  · obtain ⟨m1, e1, s1⟩ := corridorRow_loop_step (room1.x + Int.tdiv room1.width 2)
      (room2.x + Int.tdiv room2.width 2) (room1.y + Int.tdiv room1.height 2) map
      hx10 hx11 hx20 hx21 hy10 hy11
    obtain ⟨m2, e2, s2⟩ := corridorCol_loop_step (room1.y + Int.tdiv room1.height 2)
      (room1.y + Int.tdiv room1.height 2) (room2.x + Int.tdiv room2.width 2) m1
      hy10 hy11 hy10 hy11 hx20 hx21
    obtain ⟨m3, e3, s3⟩ := corridorRow_loop_step (room2.x + Int.tdiv room2.width 2)
      (room2.x + Int.tdiv room2.width 2) (room1.y + Int.tdiv room1.height 2) m2
      hx20 hx21 hx20 hx21 hy10 hy11
    obtain ⟨m4, e4, s4⟩ := door_step (Int.tmod (rand (rand s).2).1 100 < 30) m3
      (room1.x + Int.tdiv room1.width 2) (room1.y + Int.tdiv room1.height 2)
      ⟨hx10, hx11, hy10, hy11⟩
    obtain ⟨m5, e5, s5⟩ := door_step (Int.tmod (rand (rand (rand s).2).2).1 100 < 30) m4
      (room2.x + Int.tdiv room2.width 2) (room2.y + Int.tdiv room2.height 2)
      ⟨hx20, hx21, hy20, hy21⟩
    refine ⟨m5, (rand (rand (rand s).2).2).2, ?_,
      MapStep_trans (MapStep_trans (MapStep_trans (MapStep_trans s1 s2) s3) s4) s5⟩
    simp only [ConnectRooms, hev, if_true, e1, e2, e3, e4, e5]
  · obtain ⟨m1, e1, s1⟩ := corridorRow_loop_step (room1.x + Int.tdiv room1.width 2)
      (room1.x + Int.tdiv room1.width 2) (room1.y + Int.tdiv room1.height 2) map
      hx10 hx11 hx10 hx11 hy10 hy11
    obtain ⟨m2, e2, s2⟩ := corridorCol_loop_step (room1.y + Int.tdiv room1.height 2)
      (room2.y + Int.tdiv room2.height 2) (room1.x + Int.tdiv room1.width 2) m1
      hy10 hy11 hy20 hy21 hx10 hx11
    obtain ⟨m3, e3, s3⟩ := corridorRow_loop_step (room1.x + Int.tdiv room1.width 2)
      (room2.x + Int.tdiv room2.width 2) (room2.y + Int.tdiv room2.height 2) m2
      hx10 hx11 hx20 hx21 hy20 hy21
    obtain ⟨m4, e4, s4⟩ := door_step (Int.tmod (rand (rand s).2).1 100 < 30) m3
      (room1.x + Int.tdiv room1.width 2) (room1.y + Int.tdiv room1.height 2)
      ⟨hx10, hx11, hy10, hy11⟩
    obtain ⟨m5, e5, s5⟩ := door_step (Int.tmod (rand (rand (rand s).2).2).1 100 < 30) m4
      (room2.x + Int.tdiv room2.width 2) (room2.y + Int.tdiv room2.height 2)
      ⟨hx20, hx21, hy20, hy21⟩
    refine ⟨m5, (rand (rand (rand s).2).2).2, ?_,
      MapStep_trans (MapStep_trans (MapStep_trans (MapStep_trans s1 s2) s3) s4) s5⟩
    simp only [ConnectRooms, if_neg hev, e1, e2, e3, e4, e5]

theorem isWalkableTile_iff (t : TileType) :
    isWalkableTile t = true ↔ (t = .TILE_FLOOR ∨ t = .TILE_DOOR) := by
  cases t <;> simp [isWalkableTile]

/-- C14: for every map, every pair of rooms whose centers lie inside the
grid and every random outcome, `ConnectRooms` returns a map in which every
tile that is a Wall was a Wall or Empty before, and every tile that was Floor
or Door before is still Floor or Door. -/
theorem ConnectRooms_never_overwrites (map : GameMap) (room1 room2 : Room) (s : RandStream)
    (h1 : inGrid (roomCenterX room1) (roomCenterY room1))
    (h2 : inGrid (roomCenterX room2) (roomCenterY room2)) :
    ∃ map1 s1, ConnectRooms map room1 room2 s = .ok (map1, s1) ∧
      ∀ a b,
        (map1.tiles a b = .TILE_WALL →
          map.tiles a b = .TILE_WALL ∨ map.tiles a b = .TILE_EMPTY) ∧
        ((map.tiles a b = .TILE_FLOOR ∨ map.tiles a b = .TILE_DOOR) →
          (map1.tiles a b = .TILE_FLOOR ∨ map1.tiles a b = .TILE_DOOR)) := by
  obtain ⟨map1, s1, hrun, hstep⟩ := ConnectRooms_step map room1 room2 s h1 h2
  refine ⟨map1, s1, hrun, fun a b => ⟨(hstep.1 a b).2.1, ?_⟩⟩
  intro hw
  exact (isWalkableTile_iff _).1 ((hstep.1 a b).1 ((isWalkableTile_iff _).2 hw))

theorem ConnectRooms_never_overwrites_witness :
    ∃ map0, twoRoomsMap = .ok map0 ∧
      map0.tiles 3 3 = .TILE_FLOOR ∧ map0.tiles 3 6 = .TILE_WALL ∧
      map0.tiles 9 12 = .TILE_WALL ∧ map0.tiles 3 9 = .TILE_EMPTY ∧
      inGrid (roomCenterX ⟨1, 1, 5, 5⟩) (roomCenterY ⟨1, 1, 5, 5⟩) ∧
      inGrid (roomCenterX ⟨10, 10, 5, 5⟩) (roomCenterY ⟨10, 10, 5, 5⟩) ∧
      ∃ map1 s1, ConnectRooms map0 ⟨1, 1, 5, 5⟩ ⟨10, 10, 5, 5⟩ (streamOf [1, 0, 99])
          = .ok (map1, s1) ∧
        ∀ a b,
          (map1.tiles a b = .TILE_WALL →
            map0.tiles a b = .TILE_WALL ∨ map0.tiles a b = .TILE_EMPTY) ∧
          ((map0.tiles a b = .TILE_FLOOR ∨ map0.tiles a b = .TILE_DOOR) →
            (map1.tiles a b = .TILE_FLOOR ∨ map1.tiles a b = .TILE_DOOR)) := by
  have key : checkOk twoRoomsMap (fun m =>
      decide (m.tiles 3 3 = .TILE_FLOOR) && decide (m.tiles 3 6 = .TILE_WALL) &&
      decide (m.tiles 9 12 = .TILE_WALL) && decide (m.tiles 3 9 = .TILE_EMPTY)) = true := by
    decide!
  obtain ⟨map0, h0, key0⟩ := checkOk_elim key
  simp only [Bool.and_eq_true, decide_eq_true_eq] at key0
  obtain ⟨⟨⟨hf, hw1⟩, hw2⟩, he⟩ := key0
  exact ⟨map0, h0, hf, hw1, hw2, he, by decide, by decide,
    ConnectRooms_never_overwrites map0 ⟨1, 1, 5, 5⟩ ⟨10, 10, 5, 5⟩ (streamOf [1, 0, 99])
      (by decide) (by decide)⟩

/-! ### The room list -/

/-- A property kept by every iteration that returns is kept by a loop that
returns. -/
theorem forLoop_ok_preserves {σ : Type} (P : σ → Prop) (body : Int → σ → Except Fault σ)
    (hbody : ∀ i st st1, body i st = .ok st1 → P st → P st1) :
    ∀ (count : Nat) (lo : Int) (st st1 : σ), forLoop lo count body st = .ok st1 → P st → P st1 := by
  intro count
  induction count with
  | zero =>
    intro lo st st1 h hp
    simp only [forLoop] at h
    cases h
    exact hp
  | succ n ih =>
    intro lo st st1 h hp
    simp only [forLoop] at h
    cases hb : body lo st with
    | error e =>
      rw [hb] at h
      cases h
    | ok st2 =>
      rw [hb] at h
      exact ih (lo + 1) st2 st1 h (hbody lo st st2 hb hp)

/-- The room list seen from outside: the slots and the count. -/
theorem setTile_ok_rooms {m m1 : GameMap} {x y : Int} {t : TileType}
    (h : setTile m x y t = .ok m1) : m1.rooms = m.rooms ∧ m1.roomCount = m.roomCount := by
  unfold setTile at h
  split_ifs at h
  cases h
  exact ⟨rfl, rfl⟩

theorem condSetTile_ok_rooms {c : Prop} [Decidable c] {m m1 : GameMap} {x y : Int}
    {t : TileType} (h : (if c then setTile m x y t else .ok m) = .ok m1) :
    m1.rooms = m.rooms ∧ m1.roomCount = m.roomCount := by
  split_ifs at h
  · exact setTile_ok_rooms h
  · cases h
    exact ⟨rfl, rfl⟩

theorem wallRowsBody_ok_rooms {y height i : Int} {m m1 : GameMap}
    (h : wallRowsBody y height i m = .ok m1) :
    m1.rooms = m.rooms ∧ m1.roomCount = m.roomCount := by
  by_cases hg : i ≥ 0 ∧ i < MAP_WIDTH
  · simp only [wallRowsBody, if_pos hg] at h
    cases h1 : (if y - 1 ≥ 0 then setTile m i (y - 1) .TILE_WALL else .ok m) with
    | error e =>
      rw [h1] at h
      cases h
    | ok m2 =>
      rw [h1] at h
      have a := condSetTile_ok_rooms h1
      have b := condSetTile_ok_rooms h
      exact ⟨b.1.trans a.1, b.2.trans a.2⟩
  · simp only [wallRowsBody, if_neg hg] at h
    cases h
    exact ⟨rfl, rfl⟩

theorem wallColsBody_ok_rooms {x width j : Int} {m m1 : GameMap}
    (h : wallColsBody x width j m = .ok m1) :
    m1.rooms = m.rooms ∧ m1.roomCount = m.roomCount := by
  by_cases hg : j ≥ 0 ∧ j < MAP_HEIGHT
  · simp only [wallColsBody, if_pos hg] at h
    cases h1 : (if x - 1 ≥ 0 then setTile m (x - 1) j .TILE_WALL else .ok m) with
    | error e =>
      rw [h1] at h
      cases h
    | ok m2 =>
      rw [h1] at h
      have a := condSetTile_ok_rooms h1
      have b := condSetTile_ok_rooms h
      exact ⟨b.1.trans a.1, b.2.trans a.2⟩
  · simp only [wallColsBody, if_neg hg] at h
    cases h
    exact ⟨rfl, rfl⟩

/-- When `CreateRoom` returns, the room slots and the room count are as
before. -/
theorem CreateRoom_ok_rooms {map map1 : GameMap} {x y width height : Int}
    (h : CreateRoom map x y width height = .ok map1) :
    map1.rooms = map.rooms ∧ map1.roomCount = map.roomCount := by
  unfold CreateRoom at h
  have keep : ∀ (R : Int → Room) (c : Int) (m m1 : GameMap),
      (m1.rooms = m.rooms ∧ m1.roomCount = m.roomCount) →
      (m.rooms = R ∧ m.roomCount = c) → (m1.rooms = R ∧ m1.roomCount = c) :=
    fun R c m m1 a b => ⟨a.1.trans b.1, a.2.trans b.2⟩
  cases h1 : forLt x (x + width) (fun i m =>
      forLt y (y + height) (fun j m1 => setTile m1 i j .TILE_FLOOR) m) map with
  | error e =>
    rw [h1] at h
    cases h
  | ok m1 =>
    rw [h1] at h
    dsimp only at h
    have p1 : m1.rooms = map.rooms ∧ m1.roomCount = map.roomCount :=
      forLoop_ok_preserves (fun m => m.rooms = map.rooms ∧ m.roomCount = map.roomCount) _
        (fun i st st1 hb hp =>
          forLoop_ok_preserves (fun m => m.rooms = map.rooms ∧ m.roomCount = map.roomCount) _
            (fun j st2 st3 hb2 hp2 => keep _ _ st2 st3 (setTile_ok_rooms hb2) hp2)
            _ _ st st1 hb hp)
        _ _ map m1 h1 ⟨rfl, rfl⟩
    cases h2 : forLe (x - 1) (x + width) (wallRowsBody y height) m1 with
    | error e =>
      rw [h2] at h
      cases h
    | ok m2 =>
      rw [h2] at h
      dsimp only at h
      have p2 : m2.rooms = map.rooms ∧ m2.roomCount = map.roomCount :=
        forLoop_ok_preserves (fun m => m.rooms = map.rooms ∧ m.roomCount = map.roomCount) _
          (fun i st st1 hb hp => keep _ _ st st1 (wallRowsBody_ok_rooms hb) hp)
          _ _ m1 m2 h2 p1
      exact forLoop_ok_preserves (fun m => m.rooms = map.rooms ∧ m.roomCount = map.roomCount) _
        (fun i st st1 hb hp => keep _ _ st st1 (wallColsBody_ok_rooms hb) hp)
        _ _ m2 map1 h p2

/-- When `appendRoom` returns, the room is in the slot at the old count, the
count is one more, and the other slots are as before. -/
theorem appendRoom_ok {map map1 : GameMap} {r : Room} (h : appendRoom map r = .ok map1) :
    0 ≤ map.roomCount ∧ map.roomCount < MAX_ROOMS ∧ map1.roomCount = map.roomCount + 1 ∧
      map1.rooms map.roomCount = r ∧ ∀ k, k ≠ map.roomCount → map1.rooms k = map.rooms k := by
  unfold appendRoom setRoom at h
  split_ifs at h with hc
  simp only at h
  obtain ⟨hr, hn⟩ := CreateRoom_ok_rooms h
  refine ⟨hc.1, hc.2, hn, ?_, ?_⟩
  · rw [hr]
    simp
  · intro k hk
    rw [hr]
    simp [hk]

theorem stampRooms_append (map : GameMap) (l1 l2 : List Room) :
    stampRooms map (l1 ++ l2) =
      match stampRooms map l1 with
      | .error e => .error e
      | .ok map1 => stampRooms map1 l2 := by
  induction l1 generalizing map with
  | nil => simp [stampRooms]
  | cons r rest ih =>
    simp only [List.cons_append, stampRooms]
    cases appendRoom map r with
    | error e => rfl
    | ok m1 => exact ih m1

/-- When `stampRooms` returns, the count has grown by the length of the list,
the new slots hold the rooms of the list in order, and the slots below the
old count are as before. -/
theorem stampRooms_ok (l : List Room) : ∀ (map map1 : GameMap), stampRooms map l = .ok map1 →
    map1.roomCount = map.roomCount + l.length ∧
    (l ≠ [] → 0 ≤ map.roomCount ∧ map.roomCount + l.length ≤ MAX_ROOMS) ∧
    (∀ i : Nat, i < l.length → l[i]? = some (map1.rooms (map.roomCount + i))) ∧
    (∀ k, k < map.roomCount → map1.rooms k = map.rooms k) := by
  induction l with
  | nil =>
    intro map map1 h
    simp only [stampRooms] at h
    cases h
    exact ⟨by simp, fun h => absurd rfl h, fun i hi => by simp at hi, fun _ _ => rfl⟩
  | cons r rest ih =>
    intro map map1 h
    simp only [stampRooms] at h
    cases ha : appendRoom map r with
    | error e =>
      rw [ha] at h
      cases h
    | ok m1 =>
      rw [ha] at h
      obtain ⟨hc0, hc1, hn, hslot, hothers⟩ := appendRoom_ok ha
      obtain ⟨hcount, hbound, hnew, hold⟩ := ih m1 map1 h
      refine ⟨?_, ?_, ?_, ?_⟩
      · rw [hcount, hn]
        simp only [List.length_cons]
        push_cast
        omega
      · intro _
        refine ⟨hc0, ?_⟩
        simp only [List.length_cons]
        push_cast
        by_cases hre : rest = []
        · subst hre
          simp
          omega
        · have := (hbound hre).2
          omega
      · intro i hi
        cases i with
        | zero =>
          simp only [List.getElem?_cons_zero, Nat.cast_zero, add_zero]
          rw [hold map.roomCount (by omega), hslot]
        | succ j =>
          simp only [List.getElem?_cons_succ]
          have hj : j < rest.length := by simpa using hi
          rw [hnew j hj, hn]
          congr 2
          push_cast
          omega
      · intro k hk
        rw [hold k (by omega)]
        exact hothers k (by omega)

/-- On a leaf `CreateRoomInNode` never returns `NULL`: when it returns, it
returns a room. -/
theorem CreateRoomInNode_leaf_some {x y width height minRoomSize : Int} {room : Option RoomBlock}
    {s s1 : RandStream} {res : Option Room} {node1 : BSPNode}
    (h : CreateRoomInNode (.node x y width height .null .null room) minRoomSize s
      = .ok (res, node1, s1)) : ∃ r, res = some r := by
  simp only [CreateRoomInNode, ne_eq, not_true_eq_false, or_self, if_false] at h
  cases h1 : cMod (rand s).1 (width - minRoomSize - 2) with
  | error e =>
    rw [h1] at h
    cases h
  | ok rw =>
    rw [h1] at h
    dsimp only at h
    cases h2 : cMod (rand (rand s).2).1 (height - minRoomSize - 2) with
    | error e =>
      rw [h2] at h
      cases h
    | ok rh =>
      rw [h2] at h
      dsimp only at h
      injection h with h
      injection h with h3 _
      exact ⟨_, h3.symm⟩

/-- On a leaf, when `CreateRoomInNode` returns, the node it leaves is the
same leaf with its `room` field pointing to a fresh block that holds the
returned room. -/
theorem CreateRoomInNode_leaf_node {x y width height minRoomSize : Int}
    {room : Option RoomBlock} {s s1 : RandStream} {res : Option Room} {node1 : BSPNode}
    (h : CreateRoomInNode (.node x y width height .null .null room) minRoomSize s
      = .ok (res, node1, s1)) :
    ∃ r, res = some r ∧ node1 = .node x y width height .null .null (some ⟨r, false⟩) := by
  simp only [CreateRoomInNode, ne_eq, not_true_eq_false, or_self, if_false] at h
  cases h1 : cMod (rand s).1 (width - minRoomSize - 2) with
  | error e =>
    rw [h1] at h
    cases h
  | ok rw =>
    rw [h1] at h
    dsimp only at h
    cases h2 : cMod (rand (rand s).2).1 (height - minRoomSize - 2) with
    | error e =>
      rw [h2] at h
      cases h
    | ok rh =>
      rw [h2] at h
      dsimp only at h
      injection h with h
      injection h with h3 h4
      injection h4 with h4 _
      exact ⟨_, h3.symm, h4.symm⟩

theorem roomsOfLeaves_length (minRoomSize : Int) (node : BSPNode) :
    ∀ (s s1 : RandStream) (rooms : List Room),
      roomsOfLeaves node minRoomSize s = .ok (rooms, s1) → rooms.length = leafCount node := by
  induction node with
  | null =>
    intro s s1 rooms h
    simp only [roomsOfLeaves] at h
    cases h
    rfl
  | node x y width height left right room ihl ihr =>
    intro s s1 rooms h
    by_cases hleaf : left = .null ∧ right = .null
    · obtain ⟨rfl, rfl⟩ := hleaf
      simp only [roomsOfLeaves, and_self, if_true] at h
      simp only [leafCount, and_self, if_true]
      cases hc : CreateRoomInNode (.node x y width height .null .null room) minRoomSize s with
      | error e =>
        rw [hc] at h
        cases h
      | ok p =>
        obtain ⟨res, node1, s2⟩ := p
        obtain ⟨r, rfl⟩ := CreateRoomInNode_leaf_some hc
        rw [hc] at h
        dsimp only at h
        cases h
        rfl
    · simp only [roomsOfLeaves, if_neg hleaf] at h
      simp only [leafCount, if_neg hleaf]
      cases h1 : roomsOfLeaves left minRoomSize s with
      | error e =>
        rw [h1] at h
        cases h
      | ok p1 =>
        obtain ⟨rooms1, sa⟩ := p1
        rw [h1] at h
        dsimp only at h
        cases h2 : roomsOfLeaves right minRoomSize sa with
        | error e =>
          rw [h2] at h
          cases h
        | ok p2 =>
          obtain ⟨rooms2, sb⟩ := p2
          rw [h2] at h
          dsimp only at h
          cases h
          rw [List.length_append, ihl s sa rooms1 h1, ihr sa _ rooms2 h2]

/-- After the first rooms of a list are stamped within the free slots, the
free slots left are those not used by the list. -/
theorem stampRooms_free_slots {map map1 : GameMap} {rooms : List Room}
    (h : stampRooms map (rooms.take (MAX_ROOMS - map.roomCount).toNat) = .ok map1) :
    (MAX_ROOMS - map1.roomCount).toNat = (MAX_ROOMS - map.roomCount).toNat - rooms.length := by
  obtain ⟨hcount, _, _, _⟩ := stampRooms_ok _ map map1 h
  rw [List.length_take] at hcount
  rw [hcount]
  push_cast
  omega

/-- Stamping the first `k` rooms of `rooms1 ++ rooms2` is stamping the first
`k` of `rooms1` and then the first `k - rooms1.length` of `rooms2`. -/
theorem stampRooms_take_append (map : GameMap) (rooms1 rooms2 : List Room) (k : Nat) :
    stampRooms map ((rooms1 ++ rooms2).take k) =
      match stampRooms map (rooms1.take k) with
      | .error e => .error e
      | .ok map1 => stampRooms map1 (rooms2.take (k - rooms1.length)) := by
  rw [List.take_append_eq_append_take, stampRooms_append]

/-- When `CreateRoomsInBSP` returns, the map it returns is the map with the
first rooms of the leaves stamped, as many as there were free slots. -/
theorem CreateRoomsInBSP_ok_spec (minRoomSize : Int) (node : BSPNode) :
    ∀ (map : GameMap) (s : RandStream) (tree1 : BSPNode) (map1 : GameMap) (s1 : RandStream),
      CreateRoomsInBSP node map minRoomSize s = .ok (tree1, map1, s1) →
      ∃ rooms, roomsOfLeaves node minRoomSize s = .ok (rooms, s1) ∧
        stampRooms map (rooms.take (MAX_ROOMS - map.roomCount).toNat) = .ok map1 := by
  induction node with
  | null =>
    intro map s tree1 map1 s1 h
    simp only [CreateRoomsInBSP] at h
    cases h
    exact ⟨[], rfl, by rw [List.take_nil]; rfl⟩
  | node x y width height left right room ihl ihr =>
    intro map s tree1 map1 s1 h
    by_cases hleaf : left = .null ∧ right = .null
    · obtain ⟨rfl, rfl⟩ := hleaf
      simp only [CreateRoomsInBSP, and_self, if_true] at h
      cases hc : CreateRoomInNode (.node x y width height .null .null room) minRoomSize s with
      | error e =>
        rw [hc] at h
        cases h
      | ok p =>
        obtain ⟨res, node1, s2⟩ := p
        obtain ⟨r, rfl⟩ := CreateRoomInNode_leaf_some hc
        rw [hc] at h
        dsimp only at h
        refine ⟨[r], ?_, ?_⟩
        · simp only [roomsOfLeaves, and_self, if_true, hc]
          split_ifs at h with hcap
          · cases hs : setRoom map map.roomCount r with
            | error e =>
              rw [hs] at h
              cases h
            | ok m1 =>
              rw [hs] at h
              dsimp only at h
              cases hcr : CreateRoom { m1 with roomCount := m1.roomCount + 1 }
                  r.x r.y r.width r.height with
              | error e =>
                rw [hcr] at h
                cases h
              | ok m2 =>
                rw [hcr] at h
                dsimp only at h
                cases hf : freeRoom node1 with
                | error e =>
                  rw [hf] at h
                  cases h
                | ok node2 =>
                  rw [hf] at h
                  cases h
                  rfl
          · cases h
            rfl
        · split_ifs at h with hcap
          · have hk : (MAX_ROOMS - map.roomCount).toNat = (MAX_ROOMS - map.roomCount).toNat - 1 + 1 := by
              omega
            rw [hk, List.take_succ_cons, List.take_nil]
            simp only [stampRooms, appendRoom]
            cases hs : setRoom map map.roomCount r with
            | error e =>
              rw [hs] at h
              cases h
            | ok m1 =>
              rw [hs] at h
              dsimp only at h ⊢
              cases hcr : CreateRoom { m1 with roomCount := m1.roomCount + 1 }
                  r.x r.y r.width r.height with
              | error e =>
                rw [hcr] at h
                cases h
              | ok m2 =>
                rw [hcr] at h
                dsimp only at h
                cases hf : freeRoom node1 with
                | error e =>
                  rw [hf] at h
                  cases h
                | ok node2 =>
                  rw [hf] at h
                  cases h
                  rfl
          · have hk : (MAX_ROOMS - map.roomCount).toNat = 0 := by omega
            rw [hk]
            cases h
            rfl
    · simp only [CreateRoomsInBSP, if_neg hleaf] at h
      cases h1 : CreateRoomsInBSP left map minRoomSize s with
      | error e =>
        rw [h1] at h
        cases h
      | ok p1 =>
        obtain ⟨l1, mapA, sa⟩ := p1
        rw [h1] at h
        dsimp only at h
        cases h2 : CreateRoomsInBSP right mapA minRoomSize sa with
        | error e =>
          rw [h2] at h
          cases h
        | ok p2 =>
          obtain ⟨r1, mapB, sb⟩ := p2
          rw [h2] at h
          dsimp only at h
          cases h
          obtain ⟨rooms1, hr1, hs1⟩ := ihl map s l1 mapA sa h1
          obtain ⟨rooms2, hr2, hs2⟩ := ihr mapA sa r1 _ _ h2
          refine ⟨rooms1 ++ rooms2, by simp only [roomsOfLeaves, if_neg hleaf, hr1, hr2], ?_⟩
          rw [stampRooms_take_append, hs1]
          dsimp only
          rw [← stampRooms_free_slots hs1]
          exact hs2

/-- When the rooms of the leaves can be made and the first of them, as many
as there are free slots, can be stamped, `CreateRoomsInBSP` returns, with
the map so stamped and the stream left by the last leaf. -/
theorem CreateRoomsInBSP_of_spec (minRoomSize : Int) (node : BSPNode) :
    ∀ (map : GameMap) (s : RandStream) (rooms : List Room) (map1 : GameMap) (s1 : RandStream),
      roomsOfLeaves node minRoomSize s = .ok (rooms, s1) →
      stampRooms map (rooms.take (MAX_ROOMS - map.roomCount).toNat) = .ok map1 →
      ∃ tree1, CreateRoomsInBSP node map minRoomSize s = .ok (tree1, map1, s1) := by
  induction node with
  | null =>
    intro map s rooms map1 s1 hr hs
    simp only [roomsOfLeaves] at hr
    cases hr
    rw [List.take_nil] at hs
    simp only [stampRooms] at hs
    cases hs
    exact ⟨.null, rfl⟩
  | node x y width height left right room ihl ihr =>
    intro map s rooms map1 s1 hr hs
    by_cases hleaf : left = .null ∧ right = .null
    · obtain ⟨rfl, rfl⟩ := hleaf
      simp only [roomsOfLeaves, and_self, if_true] at hr
      cases hc : CreateRoomInNode (.node x y width height .null .null room) minRoomSize s with
      | error e =>
        rw [hc] at hr
        cases hr
      | ok p =>
        obtain ⟨res, node1, s2⟩ := p
        obtain ⟨r, rfl, rfl⟩ := CreateRoomInNode_leaf_node hc
        rw [hc] at hr
        dsimp only at hr
        cases hr
        by_cases hcap : map.roomCount < MAX_ROOMS
        · refine ⟨.node x y width height .null .null (some ⟨r, true⟩), ?_⟩
          simp only [CreateRoomsInBSP, and_self, if_true, hc]
          have hk : (MAX_ROOMS - map.roomCount).toNat = (MAX_ROOMS - map.roomCount).toNat - 1 + 1 := by
            omega
          rw [hk, List.take_succ_cons, List.take_nil] at hs
          simp only [stampRooms, appendRoom] at hs
          rw [if_pos hcap]
          cases hset : setRoom map map.roomCount r with
          | error e =>
            rw [hset] at hs
            cases hs
          | ok m1 =>
            rw [hset] at hs
            dsimp only at hs ⊢
            cases hcr : CreateRoom { m1 with roomCount := m1.roomCount + 1 }
                r.x r.y r.width r.height with
            | error e =>
              rw [hcr] at hs
              cases hs
            | ok m2 =>
              rw [hcr] at hs
              dsimp only at hs ⊢
              cases hs
              rfl
        · refine ⟨.node x y width height .null .null (some ⟨r, false⟩), ?_⟩
          simp only [CreateRoomsInBSP, and_self, if_true, hc]
          have hk : (MAX_ROOMS - map.roomCount).toNat = 0 := by omega
          rw [hk, List.take_zero] at hs
          simp only [stampRooms] at hs
          cases hs
          rw [if_neg hcap]
    · simp only [roomsOfLeaves, if_neg hleaf] at hr
      cases h1 : roomsOfLeaves left minRoomSize s with
      | error e =>
        rw [h1] at hr
        cases hr
      | ok p1 =>
        obtain ⟨rooms1, sa⟩ := p1
        rw [h1] at hr
        dsimp only at hr
        cases h2 : roomsOfLeaves right minRoomSize sa with
        | error e =>
          rw [h2] at hr
          cases hr
        | ok p2 =>
          obtain ⟨rooms2, sb⟩ := p2
          rw [h2] at hr
          dsimp only at hr
          cases hr
          rw [stampRooms_take_append] at hs
          cases hsa : stampRooms map (rooms1.take (MAX_ROOMS - map.roomCount).toNat) with
          | error e =>
            rw [hsa] at hs
            cases hs
          | ok mapA =>
            rw [hsa] at hs
            dsimp only at hs
            rw [← stampRooms_free_slots hsa] at hs
            obtain ⟨l1, hl⟩ := ihl map s rooms1 mapA sa h1 hsa
            obtain ⟨r1, hrr⟩ := ihr mapA sa rooms2 map1 _ h2 hs
            exact ⟨.node x y width height l1 r1 room,
              by simp only [CreateRoomsInBSP, if_neg hleaf, hl, hrr]⟩

/-- C11: starting from a map with `roomCount = 0`, when the rooms of the
leaves can be made (`roomsOfLeaves`: one call of `CreateRoomInNode` per leaf,
left to right, depth first) and the first `MAX_ROOMS = 15` of them can be
stamped, `CreateRoomsInBSP` returns; there is one room per leaf; the map it
returns is the map with exactly those first 15 rooms appended and stamped,
so the leaves beyond the cap add nothing to the list and stamp nothing on
the grid; `roomCount = min(n, 15)` for `n` leaves, and `rooms[i]` is the room
of the `i`-th leaf. -/
theorem CreateRoomsInBSP_rooms_capped (node : BSPNode) (map : GameMap) (minRoomSize : Int)
    (s s1 : RandStream) (rooms : List Room) (map1 : GameMap)
    (h0 : map.roomCount = 0)
    (hrooms : roomsOfLeaves node minRoomSize s = .ok (rooms, s1))
    (hstamp : stampRooms map (rooms.take 15) = .ok map1) :
    rooms.length = leafCount node ∧
    (∃ tree1, CreateRoomsInBSP node map minRoomSize s = .ok (tree1, map1, s1)) ∧
    map1.roomCount = min (leafCount node : Int) 15 ∧
    (∀ i : Nat, i < min (leafCount node) 15 → rooms[i]? = some (map1.rooms i)) := by
  have hlen := roomsOfLeaves_length minRoomSize node s s1 rooms hrooms
  have hk : (MAX_ROOMS - map.roomCount).toNat = 15 := by
    rw [h0]
    rfl
  obtain ⟨hcount, _, hnew, _⟩ := stampRooms_ok _ map map1 hstamp
  rw [List.length_take, h0] at hcount
  refine ⟨hlen, ?_, ?_, ?_⟩
  · apply CreateRoomsInBSP_of_spec minRoomSize node map s rooms map1 s1 hrooms
    rw [hk]
    exact hstamp
  · rw [hcount, hlen]
    push_cast
    omega
  · intro i hi
    have h1 := hnew i (by rw [List.length_take, hlen]; omega)
    rw [h0, zero_add] at h1
    rw [← h1, List.getElem?_take_of_lt (by omega)]

theorem CreateRoomsInBSP_rooms_capped_witness :
    ∃ tree s0 rooms s1 map1,
      GenerateBSPTree (CreateNode 0 0 80 45) 5 5 sixteenLeavesStream = .ok (tree, s0) ∧
      leafCount tree = 16 ∧
      emptyMap.roomCount = 0 ∧
      roomsOfLeaves tree 5 s0 = .ok (rooms, s1) ∧
      stampRooms emptyMap (rooms.take 15) = .ok map1 ∧
      (rooms.length = leafCount tree ∧
        (∃ tree1, CreateRoomsInBSP tree emptyMap 5 s0 = .ok (tree1, map1, s1)) ∧
        map1.roomCount = min (leafCount tree : Int) 15 ∧
        (∀ i : Nat, i < min (leafCount tree) 15 → rooms[i]? = some (map1.rooms i))) := by
  have key : checkOk (GenerateBSPTree (CreateNode 0 0 80 45) 5 5 sixteenLeavesStream) (fun p =>
      decide (leafCount p.1 = 16) &&
      checkOk (roomsOfLeaves p.1 5 p.2) (fun q =>
        checkOk (stampRooms emptyMap (q.1.take 15)) (fun _ => true))) = true := by decide!
  obtain ⟨⟨tree, s0⟩, h1, key1⟩ := checkOk_elim key
  simp only [Bool.and_eq_true, decide_eq_true_eq] at key1
  obtain ⟨hl, key2⟩ := key1
  obtain ⟨⟨rooms, s1⟩, h2, key3⟩ := checkOk_elim key2
  obtain ⟨map1, h3, _⟩ := checkOk_elim key3
  exact ⟨tree, s0, rooms, s1, map1, h1, hl, rfl, h2, h3,
    CreateRoomsInBSP_rooms_capped tree emptyMap 5 s0 s1 rooms map1 rfl h2 h3⟩

/-! ### Rooms of different leaves are apart -/

theorem wallIfEmpty_ok_rooms {guard : Bool} {m m1 : GameMap} {x y : Int}
    (h : wallIfEmpty guard m x y = .ok m1) :
    m1.rooms = m.rooms ∧ m1.roomCount = m.roomCount := by
  unfold wallIfEmpty at h
  by_cases hg : guard = true
  · rw [if_pos hg] at h
    cases ht : getTile m x y with
    | error e =>
      rw [ht] at h
      cases h
    | ok t =>
      rw [ht] at h
      dsimp only at h
      exact condSetTile_ok_rooms h
  · rw [if_neg hg] at h
    cases h
    exact ⟨rfl, rfl⟩

theorem corridorRowBody_ok_rooms {row x : Int} {m m1 : GameMap}
    (h : corridorRowBody row x m = .ok m1) :
    m1.rooms = m.rooms ∧ m1.roomCount = m.roomCount := by
  unfold corridorRowBody at h
  cases h1 : setTile m x row .TILE_FLOOR with
  | error e =>
    rw [h1] at h
    cases h
  | ok m2 =>
    rw [h1] at h
    dsimp only at h
    cases h2 : wallIfEmpty (decide (row - 1 ≥ 0)) m2 x (row - 1) with
    | error e =>
      rw [h2] at h
      cases h
    | ok m3 =>
      rw [h2] at h
      dsimp only at h
      have a := setTile_ok_rooms h1
      have b := wallIfEmpty_ok_rooms h2
      have c := wallIfEmpty_ok_rooms h
      exact ⟨c.1.trans (b.1.trans a.1), c.2.trans (b.2.trans a.2)⟩

theorem corridorColBody_ok_rooms {col y : Int} {m m1 : GameMap}
    (h : corridorColBody col y m = .ok m1) :
    m1.rooms = m.rooms ∧ m1.roomCount = m.roomCount := by
  unfold corridorColBody at h
  cases h1 : setTile m col y .TILE_FLOOR with
  | error e =>
    rw [h1] at h
    cases h
  | ok m2 =>
    rw [h1] at h
    dsimp only at h
    cases h2 : wallIfEmpty (decide (col - 1 ≥ 0)) m2 (col - 1) y with
    | error e =>
      rw [h2] at h
      cases h
    | ok m3 =>
      rw [h2] at h
      dsimp only at h
      have a := setTile_ok_rooms h1
      have b := wallIfEmpty_ok_rooms h2
      have c := wallIfEmpty_ok_rooms h
      exact ⟨c.1.trans (b.1.trans a.1), c.2.trans (b.2.trans a.2)⟩

/-- A loop over the map whose iterations keep the room list keeps it. -/
theorem forLoop_ok_rooms (body : Int → GameMap → Except Fault GameMap)
    (hbody : ∀ i m m1, body i m = .ok m1 → m1.rooms = m.rooms ∧ m1.roomCount = m.roomCount)
    (count : Nat) (lo : Int) (m m1 : GameMap) (h : forLoop lo count body m = .ok m1) :
    m1.rooms = m.rooms ∧ m1.roomCount = m.roomCount :=
  forLoop_ok_preserves (fun st => st.rooms = m.rooms ∧ st.roomCount = m.roomCount) body
    (fun i st st1 hb hp =>
      ⟨(hbody i st st1 hb).1.trans hp.1, (hbody i st st1 hb).2.trans hp.2⟩)
    count lo m m1 h ⟨rfl, rfl⟩

/-- When `ConnectRooms` returns, the room slots and the room count are as
before. -/
theorem ConnectRooms_ok_rooms {map map1 : GameMap} {room1 room2 : Room} {s s1 : RandStream}
    (h : ConnectRooms map room1 room2 s = .ok (map1, s1)) :
    map1.rooms = map.rooms ∧ map1.roomCount = map.roomCount := by
  unfold ConnectRooms at h
  dsimp only at h
  generalize (if decide (Int.tmod (rand s).1 2 = 0) = true then room2.x + Int.tdiv room2.width 2
    else room1.x + Int.tdiv room1.width 2) = cornerX at h
  generalize (if decide (Int.tmod (rand s).1 2 = 0) = true then room1.y + Int.tdiv room1.height 2
    else room2.y + Int.tdiv room2.height 2) = cornerY at h
  cases h1 : forLe (MIN (room1.x + Int.tdiv room1.width 2) cornerX)
      (MAX (room1.x + Int.tdiv room1.width 2) cornerX)
      (corridorRowBody (room1.y + Int.tdiv room1.height 2)) map with
  | error e =>
    rw [h1] at h
    cases h
  | ok m1 =>
    rw [h1] at h
    dsimp only at h
    have p1 := forLoop_ok_rooms _ (fun i m m' hb => corridorRowBody_ok_rooms hb) _ _ _ _ h1
    cases h2 : forLe (MIN (room1.y + Int.tdiv room1.height 2) cornerY)
        (MAX (room1.y + Int.tdiv room1.height 2) cornerY) (corridorColBody cornerX) m1 with
    | error e =>
      rw [h2] at h
      cases h
    | ok m2 =>
      rw [h2] at h
      dsimp only at h
      have p2 := forLoop_ok_rooms _ (fun i m m' hb => corridorColBody_ok_rooms hb) _ _ _ _ h2
      cases h3 : forLe (MIN cornerX (room2.x + Int.tdiv room2.width 2))
          (MAX cornerX (room2.x + Int.tdiv room2.width 2)) (corridorRowBody cornerY) m2 with
      | error e =>
        rw [h3] at h
        cases h
      | ok m3 =>
        rw [h3] at h
        dsimp only at h
        have p3 := forLoop_ok_rooms _ (fun i m m' hb => corridorRowBody_ok_rooms hb) _ _ _ _ h3
        cases h4 : (if Int.tmod (rand (rand s).2).1 100 < 30 then
            setTile m3 (room1.x + Int.tdiv room1.width 2) (room1.y + Int.tdiv room1.height 2)
              .TILE_DOOR else .ok m3) with
        | error e =>
          rw [h4] at h
          cases h
        | ok m4 =>
          rw [h4] at h
          dsimp only at h
          have p4 := condSetTile_ok_rooms h4
          cases h5 : (if Int.tmod (rand (rand (rand s).2).2).1 100 < 30 then
              setTile m4 (room2.x + Int.tdiv room2.width 2) (room2.y + Int.tdiv room2.height 2)
                .TILE_DOOR else .ok m4) with
          | error e =>
            rw [h5] at h
            cases h
          | ok m5 =>
            rw [h5] at h
            dsimp only at h
            have p5 := condSetTile_ok_rooms h5
            cases h
            exact ⟨p5.1.trans (p4.1.trans (p3.1.trans (p2.1.trans p1.1))),
              p5.2.trans (p4.2.trans (p3.2.trans (p2.2.trans p1.2)))⟩

/-- The tree builder with a minimum size that is not negative returns, on
every fresh node, a tree in which the children of every inner node cut the
rectangle of the node in two. -/
theorem GenerateBSPTreeFuel_tiled (minSize : Int) (h0 : 0 ≤ minSize) (depth : Nat) :
    ∀ (x y width height : Int) (s : RandStream),
      ∃ l r s1, GenerateBSPTreeFuel depth (CreateNode x y width height) minSize s
          = .ok (.node x y width height l r none, s1) ∧
        Tiled (.node x y width height l r none) := by
  induction depth with
  | zero =>
    intro x y width height s
    exact ⟨_, _, _, rfl, .leaf x y width height none⟩
  | succ d ih =>
    intro x y width height s
    rcases SplitNode_spec x y width height .null .null none minSize s with
      ⟨hsmall, h⟩ | ⟨_, p, s1, hp0, hp1, h⟩ | ⟨_, p, s1, hp0, hp1, h⟩
    · exact ⟨.null, .null, s, by simp only [GenerateBSPTreeFuel, CreateNode, h],
        .leaf x y width height none⟩
    · obtain ⟨l1, r1, s2, h1, t1⟩ := ih x y p height s1
      obtain ⟨l2, r2, s3, h2, t2⟩ := ih (x + p) y (width - p) height s2
      refine ⟨.node x y p height l1 r1 none,
        .node (x + p) y (width - p) height l2 r2 none, s3, ?_, ?_⟩
      · simp only [GenerateBSPTreeFuel, CreateNode, h]
        simp only [CreateNode] at h1 h2
        simp only [h1, h2]
      · exact .splitWidth (by omega) (by omega) t1 t2
    · obtain ⟨l1, r1, s2, h1, t1⟩ := ih x y width p s1
      obtain ⟨l2, r2, s3, h2, t2⟩ := ih x (y + p) width (height - p) s2
      refine ⟨.node x y width p l1 r1 none,
        .node x (y + p) width (height - p) l2 r2 none, s3, ?_, ?_⟩
      · simp only [GenerateBSPTreeFuel, CreateNode, h]
        simp only [CreateNode] at h1 h2
        simp only [h1, h2]
      · exact .splitHeight (by omega) (by omega) t1 t2

/-- On a tree whose inner nodes are cut in two and whose leaves are all at
least `minRoomSize + 3` wide and high, the rooms of the leaves lie in the
rectangle of the root, short of its last column and row, and any two of them
are apart. -/
theorem roomsOfLeaves_apart (minRoomSize : Int) {t : BSPNode} (ht : Tiled t) :
    ∀ (s s1 : RandStream) (rooms : List Room),
      (∀ leaf k, LeafAt t k leaf →
        minRoomSize + 3 ≤ nodeWidth leaf ∧ minRoomSize + 3 ≤ nodeHeight leaf) →
      roomsOfLeaves t minRoomSize s = .ok (rooms, s1) →
      (∀ r ∈ rooms, RoomInside (nodeX t) (nodeY t) (nodeWidth t) (nodeHeight t) r) ∧
      rooms.Pairwise RoomsApart := by
  induction ht with
  | leaf x y width height room =>
    intro s s1 rooms hleaves h
    obtain ⟨hw, hh⟩ := hleaves _ 0 (.here x y width height room)
    simp only [nodeWidth, nodeHeight] at hw hh
    obtain ⟨newRoom, s2, hrun, _, _, _, _, hx0, hx1, hy0, hy1, _, _⟩ :=
      CreateRoomInNode_spec x y width height minRoomSize room s hw hh
    simp only [roomsOfLeaves, and_self, if_true, hrun] at h
    cases h
    refine ⟨?_, List.pairwise_singleton _ _⟩
    intro r hr
    rw [List.mem_singleton] at hr
    subst hr
    exact ⟨hx0, hx1, hy0, hy1⟩
  | @splitWidth x y width height p ll lr rl rr lroom rroom room hp0 hp1 _ _ ihl ihr =>
    intro s s1 rooms hleaves h
    have hnot : ¬ (BSPNode.node x y p height ll lr lroom = .null ∧
        BSPNode.node (x + p) y (width - p) height rl rr rroom = .null) :=
      fun hc => by cases hc.1
    unfold roomsOfLeaves at h
    rw [if_neg hnot] at h
    cases h1 : roomsOfLeaves (.node x y p height ll lr lroom) minRoomSize s with
    | error e =>
      rw [h1] at h
      cases h
    | ok p1 =>
      obtain ⟨rooms1, sa⟩ := p1
      rw [h1] at h
      dsimp only at h
      cases h2 : roomsOfLeaves (.node (x + p) y (width - p) height rl rr rroom) minRoomSize sa with
      | error e =>
        rw [h2] at h
        cases h
      | ok p2 =>
        obtain ⟨rooms2, sb⟩ := p2
        rw [h2] at h
        dsimp only at h
        cases h
        obtain ⟨in1, ap1⟩ := ihl s sa rooms1 (fun leaf k hl => hleaves leaf (k + 1) (.inLeft hl)) h1
        obtain ⟨in2, ap2⟩ := ihr sa _ rooms2 (fun leaf k hl => hleaves leaf (k + 1) (.inRight hl)) h2
        simp only [nodeX, nodeY, nodeWidth, nodeHeight, RoomInside] at in1 in2 ⊢
        refine ⟨?_, List.pairwise_append.mpr ⟨ap1, ap2, ?_⟩⟩
        · intro r hr
          rcases List.mem_append.mp hr with hr | hr
          · have := in1 r hr
            omega
          · have := in2 r hr
            omega
        · intro a ha b hb
          have := in1 a ha
          have := in2 b hb
          exact Or.inl (by omega)
  | @splitHeight x y width height p ll lr rl rr lroom rroom room hp0 hp1 _ _ ihl ihr =>
    intro s s1 rooms hleaves h
    have hnot : ¬ (BSPNode.node x y width p ll lr lroom = .null ∧
        BSPNode.node x (y + p) width (height - p) rl rr rroom = .null) :=
      fun hc => by cases hc.1
    unfold roomsOfLeaves at h
    rw [if_neg hnot] at h
    cases h1 : roomsOfLeaves (.node x y width p ll lr lroom) minRoomSize s with
    | error e =>
      rw [h1] at h
      cases h
    | ok p1 =>
      obtain ⟨rooms1, sa⟩ := p1
      rw [h1] at h
      dsimp only at h
      cases h2 : roomsOfLeaves (.node x (y + p) width (height - p) rl rr rroom) minRoomSize sa with
      | error e =>
        rw [h2] at h
        cases h
      | ok p2 =>
        obtain ⟨rooms2, sb⟩ := p2
        rw [h2] at h
        dsimp only at h
        cases h
        obtain ⟨in1, ap1⟩ := ihl s sa rooms1 (fun leaf k hl => hleaves leaf (k + 1) (.inLeft hl)) h1
        obtain ⟨in2, ap2⟩ := ihr sa _ rooms2 (fun leaf k hl => hleaves leaf (k + 1) (.inRight hl)) h2
        simp only [nodeX, nodeY, nodeWidth, nodeHeight, RoomInside] at in1 in2 ⊢
        refine ⟨?_, List.pairwise_append.mpr ⟨ap1, ap2, ?_⟩⟩
        · intro r hr
          rcases List.mem_append.mp hr with hr | hr
          · have := in1 r hr
            omega
          · have := in2 r hr
            omega
        · intro a ha b hb
          have := in1 a ha
          have := in2 b hb
          exact Or.inr (Or.inr (Or.inl (by omega)))

theorem leavesAtLeastB_left (n x y width height : Int) (room : Option RoomBlock)
    (x1 y1 w1 h1 : Int) (l1 r1 : BSPNode) (room1 : Option RoomBlock) (right : BSPNode) :
    leavesAtLeastB n (.node x y width height (.node x1 y1 w1 h1 l1 r1 room1) right room)
      = (leavesAtLeastB n (.node x1 y1 w1 h1 l1 r1 room1) && leavesAtLeastB n right) := by
  cases right <;> rfl

theorem leavesAtLeastB_right (n x y width height : Int) (room : Option RoomBlock)
    (x1 y1 w1 h1 : Int) (l1 r1 : BSPNode) (room1 : Option RoomBlock) (left : BSPNode) :
    leavesAtLeastB n (.node x y width height left (.node x1 y1 w1 h1 l1 r1 room1) room)
      = (leavesAtLeastB n left && leavesAtLeastB n (.node x1 y1 w1 h1 l1 r1 room1)) := by
  cases left <;> rfl

theorem leavesAtLeastB_sound (n : Int) {t : BSPNode} {k : Nat} {leaf : BSPNode}
    (hl : LeafAt t k leaf) :
    leavesAtLeastB n t = true → n ≤ nodeWidth leaf ∧ n ≤ nodeHeight leaf := by
  induction hl with
  | here x y width height room =>
    intro h
    simpa [leavesAtLeastB, nodeWidth, nodeHeight] using h
  | @inLeft x y width height left right room k leaf hl ih =>
    intro h
    cases left with
    | null => cases hl
    | node x1 y1 w1 h1 l1 r1 room1 =>
      rw [leavesAtLeastB_left, Bool.and_eq_true] at h
      exact ih h.1
  | @inRight x y width height left right room k leaf hl ih =>
    intro h
    cases right with
    | null => cases hl
    | node x1 y1 w1 h1 l1 r1 room1 =>
      rw [leavesAtLeastB_right, Bool.and_eq_true] at h
      exact ih h.2

/-! ### The axis of a split -/

theorem toFloat_of_small (a : Int) (h : a.natAbs < 16777216) : toFloat a = a := by
  have hu : floatUnit 8 a.natAbs = 1 := by simp only [floatUnit, if_pos h]
  unfold toFloat
  simp only [hu, Nat.div_one, Nat.mod_one, Nat.mul_one, Nat.mul_zero, Nat.zero_lt_one, if_true]
  split_ifs <;> omega

/-- The conversion rounds to the nearest value with 24 significant bits, ties
to the even significand. -/
theorem toFloat_rounds_to_even :
    toFloat 16777217 = 16777216 ∧ toFloat 16777219 = 16777220 ∧
    toFloat 16777225 = 16777224 ∧ toFloat (-16777219) = -16777220 ∧
    toFloat 33554431 = 33554432 ∧ toFloat 2147483647 = 2147483648 := by
  decide

/-- Below `2^22` the single-precision test is the exact test `5 * b ≤ 4 * a`:
both operands are kept by the conversion, and an exact quotient below `1.25`
is below the midpoint `1.25 - 2^-24` as well. -/
theorem ratioAtLeast125_exact (a b : Int) (ha0 : 0 < a) (ha : a < 4194304)
    (hb0 : 0 < b) (hb : b < 4194304) :
    ratioAtLeast125 a b = true ↔ 5 * b ≤ 4 * a := by
  unfold ratioAtLeast125
  rw [toFloat_of_small a (by omega), toFloat_of_small b (by omega)]
  simp only [if_pos hb0, decide_eq_true_eq]
  omega

/-- C25 (counterexample): the node `(0, 0, 16777225, 13421780)` has
`4 * width = 5 * height`, yet the draw decides the axis: `(float)16777225`
is `16777224`, the single-precision quotient is below `1.25`, and with an
even first draw `SplitNode` divides the height (both children keep the
parent's `x` and `width`), with an odd one the width. -/
theorem SplitNode_axis_decided_by_draw_on_wide_node :
    4 * (16777225 : Int) ≥ 5 * 13421780 ∧
    SplitNode (.node 0 0 16777225 13421780 .null .null none) 5 (streamOf [0, 7])
      = .ok (true, .node 0 0 16777225 13421780 (CreateNode 0 0 16777225 12)
          (CreateNode 0 12 16777225 13421768) none, (rand (rand (streamOf [0, 7])).2).2) ∧
    SplitNode (.node 0 0 16777225 13421780 .null .null none) 5 (streamOf [1, 7])
      = .ok (true, .node 0 0 16777225 13421780 (CreateNode 0 0 12 13421780)
          (CreateNode 12 0 16777213 13421780) none, (rand (rand (streamOf [1, 7])).2).2) :=
  ⟨by decide, rfl, rfl⟩

/-- C25 (amended): whenever `SplitNode` splits a node whose width and height
are positive and below `2^22 = 4194304`, if `4 * width ≥ 5 * height` the children divide the width (both keep the
parent's `y` and `height`) and if `4 * height ≥ 5 * width` they divide the
height (both keep the parent's `x` and `width`), whatever the random values;
in the remaining case the first random value decides: even divides the
height, odd divides the width. -/
theorem SplitNode_axis (x y width height : Int) (left right : BSPNode) (room : Option RoomBlock)
    (minSize : Int) (s : RandStream) (node1 : BSPNode) (s1 : RandStream)
    (hw : 0 < width) (hh : 0 < height) (hwb : width < 4194304) (hhb : height < 4194304)
    (hsplit : SplitNode (.node x y width height left right room) minSize s
      = .ok (true, node1, s1)) :
    (4 * width ≥ 5 * height →
      ∃ p, node1 = .node x y width height (CreateNode x y p height)
        (CreateNode (x + p) y (width - p) height) room) ∧
    (4 * height ≥ 5 * width →
      ∃ p, node1 = .node x y width height (CreateNode x y width p)
        (CreateNode x (y + p) width (height - p)) room) ∧
    (4 * width < 5 * height → 4 * height < 5 * width →
      (Int.tmod (s 0) 2 = 0 →
        ∃ p, node1 = .node x y width height (CreateNode x y width p)
          (CreateNode x (y + p) width (height - p)) room) ∧
      (Int.tmod (s 0) 2 ≠ 0 →
        ∃ p, node1 = .node x y width height (CreateNode x y p height)
          (CreateNode (x + p) y (width - p) height) room)) := by
  have hsmall : ¬ (width ≤ minSize * 2 ∨ height ≤ minSize * 2) := by
    intro hc
    simp only [SplitNode, if_pos hc] at hsplit
    cases hsplit
  have wsplit : ∀ sa : RandStream,
      (match cMod (rand sa).1 (width - minSize * 2) with
        | .error e => (.error e : Except Fault (Bool × BSPNode × RandStream))
        | .ok r =>
          .ok (true,
            .node x y width height
              (CreateNode x y (x + minSize + r - x) height)
              (CreateNode (x + minSize + r) y (width - (x + minSize + r - x)) height)
              room,
            (rand sa).2)) = .ok (true, node1, s1) →
      ∃ p, node1 = .node x y width height (CreateNode x y p height)
        (CreateNode (x + p) y (width - p) height) room := by
    intro sa h
    cases hr : cMod (rand sa).1 (width - minSize * 2) with
    | error e =>
      rw [hr] at h
      cases h
    | ok r =>
      rw [hr] at h
      dsimp only at h
      injection h with h
      injection h with _ h
      injection h with h _
      refine ⟨minSize + r, ?_⟩
      rw [← h]
      congr 2 <;> ring
  have hsplit2 : ∀ sa : RandStream,
      (match cMod (rand sa).1 (height - minSize * 2) with
        | .error e => (.error e : Except Fault (Bool × BSPNode × RandStream))
        | .ok r =>
          .ok (true,
            .node x y width height
              (CreateNode x y width (y + minSize + r - y))
              (CreateNode x (y + minSize + r) width (height - (y + minSize + r - y)))
              room,
            (rand sa).2)) = .ok (true, node1, s1) →
      ∃ p, node1 = .node x y width height (CreateNode x y width p)
        (CreateNode x (y + p) width (height - p)) room := by
    intro sa h
    cases hr : cMod (rand sa).1 (height - minSize * 2) with
    | error e =>
      rw [hr] at h
      cases h
    | ok r =>
      rw [hr] at h
      dsimp only at h
      injection h with h
      injection h with _ h
      injection h with h _
      refine ⟨minSize + r, ?_⟩
      rw [← h]
      congr 2 <;> ring
  simp only [SplitNode, if_neg hsmall] at hsplit
  refine ⟨?_, ?_, ?_⟩
  · intro h
    have hc : width > height ∧ ratioAtLeast125 width height = true := by
      refine ⟨by omega, ?_⟩
      exact (ratioAtLeast125_exact width height hw hwb hh hhb).2 (by omega)
    rw [if_pos hc] at hsplit
    exact wsplit s hsplit
  · intro h
    have hc1 : ¬ (width > height ∧ ratioAtLeast125 width height = true) := by
      intro hc
      omega
    have hc2 : height > width ∧ ratioAtLeast125 height width = true := by
      refine ⟨by omega, ?_⟩
      exact (ratioAtLeast125_exact height width hh hhb hw hwb).2 (by omega)
    rw [if_neg hc1, if_pos hc2] at hsplit
    exact hsplit2 s hsplit
  · intro h1 h2
    have hc1 : ¬ (width > height ∧ ratioAtLeast125 width height = true) := by
      rintro ⟨_, hc⟩
      have := (ratioAtLeast125_exact width height hw hwb hh hhb).1 hc
      omega
    have hc2 : ¬ (height > width ∧ ratioAtLeast125 height width = true) := by
      rintro ⟨_, hc⟩
      have := (ratioAtLeast125_exact height width hh hhb hw hwb).1 hc
      omega
    rw [if_neg hc1, if_neg hc2] at hsplit
    have hs0 : (rand s).1 = (s 0 : Int) := rfl
    constructor
    · intro hev
      rw [← hs0] at hev
      simp only [hev, decide_True, if_true] at hsplit
      exact hsplit2 _ hsplit
    · intro hodd
      rw [← hs0] at hodd
      simp only [hodd, decide_False] at hsplit
      exact wsplit _ hsplit

theorem SplitNode_axis_witness :
    (0 : Int) < 80 ∧ (0 : Int) < 45 ∧ (80 : Int) < 4194304 ∧ (45 : Int) < 4194304 ∧
    SplitNode (.node 0 0 80 45 .null .null none) 5 (streamOf [3])
      = .ok (true, .node 0 0 80 45 (CreateNode 0 0 8 45) (CreateNode 8 0 72 45) none,
          (rand (streamOf [3])).2) ∧
    ((4 * (80 : Int) ≥ 5 * 45 →
      ∃ p, BSPNode.node 0 0 80 45 (CreateNode 0 0 8 45) (CreateNode 8 0 72 45) none
        = .node 0 0 80 45 (CreateNode 0 0 p 45) (CreateNode (0 + p) 0 (80 - p) 45) none) ∧
    (4 * (45 : Int) ≥ 5 * 80 →
      ∃ p, BSPNode.node 0 0 80 45 (CreateNode 0 0 8 45) (CreateNode 8 0 72 45) none
        = .node 0 0 80 45 (CreateNode 0 0 80 p) (CreateNode 0 (0 + p) 80 (45 - p)) none) ∧
    (4 * (80 : Int) < 5 * 45 → 4 * (45 : Int) < 5 * 80 →
      (Int.tmod (streamOf [3] 0) 2 = 0 →
        ∃ p, BSPNode.node 0 0 80 45 (CreateNode 0 0 8 45) (CreateNode 8 0 72 45) none
          = .node 0 0 80 45 (CreateNode 0 0 80 p) (CreateNode 0 (0 + p) 80 (45 - p)) none) ∧
      (Int.tmod (streamOf [3] 0) 2 ≠ 0 →
        ∃ p, BSPNode.node 0 0 80 45 (CreateNode 0 0 8 45) (CreateNode 8 0 72 45) none
          = .node 0 0 80 45 (CreateNode 0 0 p 45) (CreateNode (0 + p) 0 (80 - p) 45) none))) :=
  ⟨by decide, by decide, by decide, by decide, rfl,
    SplitNode_axis 0 0 80 45 .null .null none 5 (streamOf [3]) _ _ (by decide) (by decide)
      (by decide) (by decide) rfl⟩

/-! ### Every node of the tree -/

/-- Every node of the tree that the tree builder returns on a fresh node at
least `minSize` wide and high, with `0 ≤ minSize`, is at least `minSize` wide
and high and lies inside the rectangle of the root. -/
theorem GenerateBSPTreeFuel_nodes (minSize : Int) (hm : 0 ≤ minSize) (depth : Nat) :
    ∀ (x y width height : Int) (s : RandStream), minSize ≤ width → minSize ≤ height →
      ∃ l r s1, GenerateBSPTreeFuel depth (CreateNode x y width height) minSize s
          = .ok (.node x y width height l r none, s1) ∧
        ∀ n, NodeIn (.node x y width height l r none) n →
          minSize ≤ nodeWidth n ∧ minSize ≤ nodeHeight n ∧
          x ≤ nodeX n ∧ nodeX n + nodeWidth n ≤ x + width ∧
          y ≤ nodeY n ∧ nodeY n + nodeHeight n ≤ y + height := by
  induction depth with
  | zero =>
    intro x y width height s hw hh
    refine ⟨.null, .null, s, rfl, ?_⟩
    intro n hn
    cases hn with
    | root =>
      simp only [nodeWidth, nodeHeight, nodeX, nodeY]
      omega
    | inLeft h => cases h
    | inRight h => cases h
  | succ d ih =>
    intro x y width height s hw hh
    rcases SplitNode_spec x y width height .null .null none minSize s with
      ⟨_, h⟩ | ⟨_, p, s1, hp0, hp1, h⟩ | ⟨_, p, s1, hp0, hp1, h⟩
    · refine ⟨.null, .null, s, by simp only [GenerateBSPTreeFuel, CreateNode, h], ?_⟩
      intro n hn
      cases hn with
      | root =>
        simp only [nodeWidth, nodeHeight, nodeX, nodeY]
        omega
      | inLeft h => cases h
      | inRight h => cases h
    · obtain ⟨l1, r1, s2, h1, hn1⟩ := ih x y p height s1 hp0 hh
      obtain ⟨l2, r2, s3, h2, hn2⟩ := ih (x + p) y (width - p) height s2 (by omega) hh
      refine ⟨.node x y p height l1 r1 none,
        .node (x + p) y (width - p) height l2 r2 none, s3, ?_, ?_⟩
      · simp only [GenerateBSPTreeFuel, CreateNode, h]
        simp only [CreateNode] at h1 h2
        simp only [h1, h2]
      · intro n hn
        cases hn with
        | root =>
          simp only [nodeWidth, nodeHeight, nodeX, nodeY]
          omega
        | inLeft hl =>
          have := hn1 n hl
          omega
        | inRight hr =>
          have := hn2 n hr
          omega
    · obtain ⟨l1, r1, s2, h1, hn1⟩ := ih x y width p s1 hw hp0
      obtain ⟨l2, r2, s3, h2, hn2⟩ := ih x (y + p) width (height - p) s2 hw (by omega)
      refine ⟨.node x y width p l1 r1 none,
        .node x (y + p) width (height - p) l2 r2 none, s3, ?_, ?_⟩
      · simp only [GenerateBSPTreeFuel, CreateNode, h]
        simp only [CreateNode] at h1 h2
        simp only [h1, h2]
      · intro n hn
        cases hn with
        | root =>
          simp only [nodeWidth, nodeHeight, nodeX, nodeY]
          omega
        | inLeft hl =>
          have := hn1 n hl
          omega
        | inRight hr =>
          have := hn2 n hr
          omega

/-- C26: for every root rectangle with `width ≥ minSize` and
`height ≥ minSize`, `minSize ≥ 1`, every depth budget and every random
stream, `GenerateBSPTree` returns a tree, and every node of it is at least
`minSize` wide and high (so neither is zero) and lies inside the root
rectangle. -/
theorem GenerateBSPTree_nodes_bounds (x y width height minSize maxDepth : Int)
    (s : RandStream) (hm : 1 ≤ minSize) (hw : minSize ≤ width) (hh : minSize ≤ height) :
    ∃ t s1, GenerateBSPTree (CreateNode x y width height) minSize maxDepth s = .ok (t, s1) ∧
      ∀ n, NodeIn t n →
        minSize ≤ nodeWidth n ∧ minSize ≤ nodeHeight n ∧
        0 < nodeWidth n ∧ 0 < nodeHeight n ∧
        x ≤ nodeX n ∧ nodeX n + nodeWidth n ≤ x + width ∧
        y ≤ nodeY n ∧ nodeY n + nodeHeight n ≤ y + height := by
  obtain ⟨l, r, s1, h, hn⟩ :=
    GenerateBSPTreeFuel_nodes minSize (by omega) maxDepth.toNat x y width height s hw hh
  refine ⟨_, s1, h, ?_⟩
  intro n hin
  have := hn n hin
  omega

theorem GenerateBSPTree_nodes_bounds_witness :
    (1 : Int) ≤ 5 ∧ (5 : Int) ≤ 80 ∧ (5 : Int) ≤ 45 ∧
    ∃ t s1, GenerateBSPTree (CreateNode 0 0 80 45) 5 5 sixRoomsStream = .ok (t, s1) ∧
      ∀ n, NodeIn t n →
        5 ≤ nodeWidth n ∧ 5 ≤ nodeHeight n ∧
        0 < nodeWidth n ∧ 0 < nodeHeight n ∧
        0 ≤ nodeX n ∧ nodeX n + nodeWidth n ≤ 0 + 80 ∧
        0 ≤ nodeY n ∧ nodeY n + nodeHeight n ≤ 0 + 45 :=
  ⟨by decide, by decide, by decide,
    GenerateBSPTree_nodes_bounds 0 0 80 45 5 5 sixRoomsStream (by decide) (by decide)
      (by decide)⟩

/-! ### The size of the tree -/

theorem treeHeight_node_le (x y width height : Int) (l r : BSPNode) (room : Option RoomBlock)
    (d : Nat) (hl : treeHeight l ≤ d) (hr : treeHeight r ≤ d) :
    treeHeight (.node x y width height l r room) ≤ d + 1 := by
  unfold treeHeight
  split_ifs
  · omega
  · have := max_le hl hr
    omega

theorem leafCount_node_le (x y width height : Int) (l r : BSPNode) (room : Option RoomBlock)
    (d : Nat) (hl : leafCount l ≤ 2 ^ d) (hr : leafCount r ≤ 2 ^ d) :
    leafCount (.node x y width height l r room) ≤ 2 ^ (d + 1) := by
  unfold leafCount
  have hpos : 1 ≤ 2 ^ d := Nat.one_le_two_pow
  have hpow : 2 ^ (d + 1) = 2 ^ d + 2 ^ d := by ring
  split_ifs <;> omega

/-- The tree builder with budget `depth` returns, on every fresh node, a
tree of height at most `depth` with at most `2 ^ depth` leaves. -/
theorem GenerateBSPTreeFuel_height (minSize : Int) (depth : Nat) :
    ∀ (x y width height : Int) (s : RandStream),
      ∃ l r s1, GenerateBSPTreeFuel depth (CreateNode x y width height) minSize s
          = .ok (.node x y width height l r none, s1) ∧
        treeHeight (.node x y width height l r none) ≤ depth ∧
        leafCount (.node x y width height l r none) ≤ 2 ^ depth := by
  induction depth with
  | zero =>
    intro x y width height s
    exact ⟨.null, .null, s, rfl, by simp [treeHeight], by simp [leafCount]⟩
  | succ d ih =>
    intro x y width height s
    rcases SplitNode_spec x y width height .null .null none minSize s with
      ⟨_, h⟩ | ⟨_, p, s1, _, _, h⟩ | ⟨_, p, s1, _, _, h⟩
    · exact ⟨.null, .null, s, by simp only [GenerateBSPTreeFuel, CreateNode, h],
        by simp [treeHeight], by simp [leafCount, Nat.one_le_two_pow]⟩
    · obtain ⟨l1, r1, s2, h1, ht1, hc1⟩ := ih x y p height s1
      obtain ⟨l2, r2, s3, h2, ht2, hc2⟩ := ih (x + p) y (width - p) height s2
      refine ⟨.node x y p height l1 r1 none,
        .node (x + p) y (width - p) height l2 r2 none, s3, ?_, ?_, ?_⟩
      · simp only [GenerateBSPTreeFuel, CreateNode, h]
        simp only [CreateNode] at h1 h2
        simp only [h1, h2]
      · exact treeHeight_node_le _ _ _ _ _ _ _ d ht1 ht2
      · exact leafCount_node_le _ _ _ _ _ _ _ d hc1 hc2
    · obtain ⟨l1, r1, s2, h1, ht1, hc1⟩ := ih x y width p s1
      obtain ⟨l2, r2, s3, h2, ht2, hc2⟩ := ih x (y + p) width (height - p) s2
      refine ⟨.node x y width p l1 r1 none,
        .node x (y + p) width (height - p) l2 r2 none, s3, ?_, ?_, ?_⟩
      · simp only [GenerateBSPTreeFuel, CreateNode, h]
        simp only [CreateNode] at h1 h2
        simp only [h1, h2]
      · exact treeHeight_node_le _ _ _ _ _ _ _ d ht1 ht2
      · exact leafCount_node_le _ _ _ _ _ _ _ d hc1 hc2

/-- C27: for every root rectangle, minimum size, depth budget `d` and random
stream, `GenerateBSPTree` returns a tree; for `d ≥ 0` its height is at most
`d` and it has at most `2 ^ d` leaves, at most 32 for `d = 5`; with `d ≤ 0`
the root is returned as it was, a leaf. -/
theorem GenerateBSPTree_height_le_depth (x y width height minSize maxDepth : Int)
    (s : RandStream) :
    ∃ t s1, GenerateBSPTree (CreateNode x y width height) minSize maxDepth s = .ok (t, s1) ∧
      (0 ≤ maxDepth → (treeHeight t : Int) ≤ maxDepth) ∧
      leafCount t ≤ 2 ^ maxDepth.toNat ∧
      (maxDepth = 5 → leafCount t ≤ 32) ∧
      (maxDepth ≤ 0 → t = CreateNode x y width height ∧ s1 = s ∧ leafCount t = 1 ∧
        treeHeight t = 0) := by
  obtain ⟨l, r, s1, h, ht, hc⟩ :=
    GenerateBSPTreeFuel_height minSize maxDepth.toNat x y width height s
  refine ⟨_, s1, h, ?_, hc, ?_, ?_⟩
  · intro h0
    omega
  · intro h5
    subst h5
    exact hc
  · intro h0
    have hz : maxDepth.toNat = 0 := by omega
    have h1 : GenerateBSPTreeFuel maxDepth.toNat (CreateNode x y width height) minSize s
        = .ok (CreateNode x y width height, s) := by
      simp only [hz, GenerateBSPTreeFuel]
    rw [h1] at h
    injection h with h
    injection h with ha hb
    rw [← ha, ← hb]
    exact ⟨rfl, rfl, by simp [CreateNode, leafCount], by simp [CreateNode, treeHeight]⟩

/-! ### The roll tables of `PlaceEntities` -/

theorem enemyTemplate_type (t : EnemyType) (e : Enemy) : (enemyTemplate t e).type = e.type := by
  cases t <;> rfl

theorem itemTemplate_type (t : ItemType) (it : Item) (s : RandStream) :
    (itemTemplate t it s).1.type = it.type := by
  cases t <;> rfl

/-- C24: in an iteration of the room loop of `PlaceEntities` (room at least
3 wide and high, counts below capacity), when the enemy is placed (first
draw `% 100 < 60`) its type is fixed by the roll `r`, the fourth draw
`% 100`: Rat for `r < 40`, Goblin for `40 ≤ r < 70`, Orc for `70 ≤ r < 90`,
Troll for `r ≥ 90`; when the item is placed (first draw `% 100 < 40`) its
type is Health Potion for `r < 30`, Weapon for `30 ≤ r < 50`, Armor for
`50 ≤ r < 70`, Gold for `r ≥ 70`. Of the 100 rolls, 40/30/20/10 give the
four enemy types and 30/20/20/30 the four item types. -/
theorem PlaceEntities_type_of_roll (room : Room) (st : GameState) (s : RandStream)
    (hw : 3 ≤ room.width) (hh : 3 ≤ room.height)
    (he0 : 0 ≤ st.enemyCount) (he1 : st.enemyCount < MAX_ENEMIES)
    (hi0 : 0 ≤ st.itemCount) (hi1 : st.itemCount < MAX_ITEMS) :
    (Int.tmod (s 0) 100 < 60 →
      ∃ st1 s1, placeEnemyInRoom room (st, s) = .ok (st1, s1) ∧
        st1.enemyCount = st.enemyCount + 1 ∧
        (Int.tmod (s 3) 100 < 40 → (st1.enemies st.enemyCount).type = .ENEMY_RAT) ∧
        (40 ≤ Int.tmod (s 3) 100 → Int.tmod (s 3) 100 < 70 →
          (st1.enemies st.enemyCount).type = .ENEMY_GOBLIN) ∧
        (70 ≤ Int.tmod (s 3) 100 → Int.tmod (s 3) 100 < 90 →
          (st1.enemies st.enemyCount).type = .ENEMY_ORC) ∧
        (90 ≤ Int.tmod (s 3) 100 → (st1.enemies st.enemyCount).type = .ENEMY_TROLL)) ∧
    (Int.tmod (s 0) 100 < 40 →
      ∃ st1 s1, placeItemInRoom room (st, s) = .ok (st1, s1) ∧
        st1.itemCount = st.itemCount + 1 ∧
        (Int.tmod (s 3) 100 < 30 → (st1.items st.itemCount).type = .ITEM_HEALTH_POTION) ∧
        (30 ≤ Int.tmod (s 3) 100 → Int.tmod (s 3) 100 < 50 →
          (st1.items st.itemCount).type = .ITEM_WEAPON) ∧
        (50 ≤ Int.tmod (s 3) 100 → Int.tmod (s 3) 100 < 70 →
          (st1.items st.itemCount).type = .ITEM_ARMOR) ∧
        (70 ≤ Int.tmod (s 3) 100 → (st1.items st.itemCount).type = .ITEM_GOLD)) ∧
    ((List.range 100).map (fun r : Nat => enemyTypeOfRoll r)).count .ENEMY_RAT = 40 ∧
    ((List.range 100).map (fun r : Nat => enemyTypeOfRoll r)).count .ENEMY_GOBLIN = 30 ∧
    ((List.range 100).map (fun r : Nat => enemyTypeOfRoll r)).count .ENEMY_ORC = 20 ∧
    ((List.range 100).map (fun r : Nat => enemyTypeOfRoll r)).count .ENEMY_TROLL = 10 ∧
    ((List.range 100).map (fun r : Nat => itemTypeOfRoll r)).count .ITEM_HEALTH_POTION = 30 ∧
    ((List.range 100).map (fun r : Nat => itemTypeOfRoll r)).count .ITEM_WEAPON = 20 ∧
    ((List.range 100).map (fun r : Nat => itemTypeOfRoll r)).count .ITEM_ARMOR = 20 ∧
    ((List.range 100).map (fun r : Nat => itemTypeOfRoll r)).count .ITEM_GOLD = 30 := by
  obtain ⟨ox, hox, _, _⟩ := cMod_pos (rand (rand s).2).1 (room.width - 2)
    (rand_nonneg _) (by omega)
  obtain ⟨oy, hoy, _, _⟩ := cMod_pos (rand (rand (rand s).2).2).1 (room.height - 2)
    (rand_nonneg _) (by omega)
  have hs0 : (rand s).1 = (s 0 : Int) := rfl
  have hs3 : (rand (rand (rand (rand s).2).2).2).1 = (s 3 : Int) := rfl
  refine ⟨?_, ?_, by decide!, by decide!, by decide!, by decide!, by decide!, by decide!,
    by decide!, by decide!⟩
  · intro hroll
    rw [← hs0] at hroll
    have h2 : ¬ st.enemyCount ≥ MAX_ENEMIES := by omega
    refine ⟨?st1, ?s1, ?eq, ?rest⟩
    case eq =>
      simp only [placeEnemyInRoom, if_pos hroll, hox, hoy, CreateEnemy, if_neg h2, if_pos he0]
      exact rfl
    rw [← hs3]
    simp only [if_true, enemyTemplate_type]
    refine ⟨trivial, ?_, ?_, ?_, ?_⟩ <;> intros <;> unfold enemyTypeOfRoll <;>
      split_ifs <;> first | rfl | omega
  · intro hroll
    rw [← hs0] at hroll
    have h2 : ¬ st.itemCount ≥ MAX_ITEMS := by omega
    refine ⟨?st2, ?s2, ?eq2, ?rest2⟩
    case eq2 =>
      simp only [placeItemInRoom, if_pos hroll, hox, hoy, CreateItem, if_neg h2, if_pos hi0]
      exact rfl
    rw [← hs3]
    simp only [if_true, itemTemplate_type]
    refine ⟨trivial, ?_, ?_, ?_, ?_⟩ <;> intros <;> unfold itemTypeOfRoll <;>
      split_ifs <;> first | rfl | omega

theorem PlaceEntities_type_of_roll_witness :
    3 ≤ (⟨10, 1, 6, 5⟩ : Room).width ∧ 3 ≤ (⟨10, 1, 6, 5⟩ : Room).height ∧
    0 ≤ blankState.enemyCount ∧ blankState.enemyCount < MAX_ENEMIES ∧
    0 ≤ blankState.itemCount ∧ blankState.itemCount < MAX_ITEMS ∧
    (∃ st1 s1, placeEnemyInRoom ⟨10, 1, 6, 5⟩ (blankState, streamOf [0, 1, 2, 95]) = .ok (st1, s1) ∧
      (st1.enemies 0).type = .ENEMY_TROLL) ∧
    (∃ st1 s1, placeItemInRoom ⟨10, 1, 6, 5⟩ (blankState, streamOf [0, 1, 2, 95]) = .ok (st1, s1) ∧
      (st1.items 0).type = .ITEM_GOLD) := by
  have h := PlaceEntities_type_of_roll ⟨10, 1, 6, 5⟩ blankState (streamOf [0, 1, 2, 95])
    (by decide) (by decide) (by decide) (by decide) (by decide) (by decide)
  refine ⟨by decide, by decide, by decide, by decide, by decide, by decide, ?_, ?_⟩
  · obtain ⟨st1, s1, hrun, _, _, _, _, ht⟩ := h.1 (by decide)
    exact ⟨st1, s1, hrun, ht (by decide)⟩
  · obtain ⟨st1, s1, hrun, _, _, _, _, ht⟩ := h.2.1 (by decide)
    exact ⟨st1, s1, hrun, ht (by decide)⟩

/-! ### The walk of `IsVisible` ends and stays between its endpoints -/

/-- One iteration of the loop of `IsVisible` away from the target: with `a`
steps left along x and `b` along y, neither inner `break` is taken and the
iteration takes a step along at least one axis, never past the target. -/
theorem IsVisible_step (x2 y2 A B sx sy : Int)
    (hsx : sx = 1 ∨ sx = -1) (hsy : sy = 1 ∨ sy = -1) (a b x y err : Int)
    (ha0 : 0 ≤ a) (ha1 : a ≤ A) (hb0 : 0 ≤ b) (hb1 : b ≤ B)
    (hx : x = x2 - sx * a) (hy : y = y2 - sy * b) (herr : err = A - B + a * B - b * A)
    (h0 : ¬ (x = x2 ∧ y = y2)) :
    ¬ (2 * err ≥ -B ∧ x = x2) ∧ ¬ (2 * err ≤ A ∧ y = y2) ∧
    ∃ a1 b1 : Int, 0 ≤ a1 ∧ a1 ≤ a ∧ 0 ≤ b1 ∧ b1 ≤ b ∧ a1 + b1 < a + b ∧
      (if 2 * err ≥ -B then x + sx else x) = x2 - sx * a1 ∧
      (if 2 * err ≤ A then y + sy else y) = y2 - sy * b1 ∧
      (if 2 * err ≤ A then (if 2 * err ≥ -B then err + -B else err) + A
        else (if 2 * err ≥ -B then err + -B else err)) = A - B + a1 * B - b1 * A := by
  have hxa : x = x2 ↔ a = 0 := by
    rcases hsx with h | h <;> subst h <;> constructor <;> intro h1 <;> omega
  have hyb : y = y2 ↔ b = 0 := by
    rcases hsy with h | h <;> subst h <;> constructor <;> intro h1 <;> omega
  have hab : a ≠ 0 ∨ b ≠ 0 := by
    by_contra hc
    push_neg at hc
    exact h0 ⟨hxa.2 hc.1, hyb.2 hc.2⟩
  have h1 : ¬ (2 * err ≥ -B ∧ x = x2) := by
    rintro ⟨hc, hxe⟩
    have ha : a = 0 := hxa.1 hxe
    have hb : 1 ≤ b := by omega
    have hm : A ≤ b * A := by nlinarith
    subst ha
    simp only [zero_mul] at herr
    omega
  have h2 : ¬ (2 * err ≤ A ∧ y = y2) := by
    rintro ⟨hc, hye⟩
    have hb : b = 0 := hyb.1 hye
    have ha : 1 ≤ a := by omega
    have hm : B ≤ a * B := by nlinarith
    subst hb
    simp only [zero_mul] at herr
    omega
  refine ⟨h1, h2, ?_⟩
  by_cases c1 : 2 * err ≥ -B <;> by_cases c2 : 2 * err ≤ A
  · have ha : a ≠ 0 := fun h => h1 ⟨c1, hxa.2 h⟩
    have hb : b ≠ 0 := fun h => h2 ⟨c2, hyb.2 h⟩
    refine ⟨a - 1, b - 1, by omega, by omega, by omega, by omega, by omega, ?_, ?_, ?_⟩
    · rw [if_pos c1, hx]; ring
    · rw [if_pos c2, hy]; ring
    · rw [if_pos c2, if_pos c1, herr]; ring
  · have ha : a ≠ 0 := fun h => h1 ⟨c1, hxa.2 h⟩
    refine ⟨a - 1, b, by omega, by omega, by omega, by omega, by omega, ?_, ?_, ?_⟩
    · rw [if_pos c1, hx]; ring
    · rw [if_neg c2, hy]
    · rw [if_neg c2, if_pos c1, herr]; ring
  · have hb : b ≠ 0 := fun h => h2 ⟨c2, hyb.2 h⟩
    refine ⟨a, b - 1, by omega, by omega, by omega, by omega, by omega, ?_, ?_, ?_⟩
    · rw [if_neg c1, hx]
    · rw [if_pos c2, hy]; ring
    · rw [if_pos c2, if_neg c1, herr]; ring
  · omega

/-- The walk of `IsVisible` from any position on it, on any map: with `a`
steps left along x and `b` along y it reads at most `a + b` cells, each of
them between the position and the target on both axes, and after `a + b`
iterations the loop has ended. -/
theorem IsVisibleReads_walk (map : GameMap) (x2 y2 A B sx sy : Int)
    (hsx : sx = 1 ∨ sx = -1) (hsy : sy = 1 ∨ sy = -1) :
    ∀ (fuel : Nat) (a b x y err : Int), 0 ≤ a → a ≤ A → 0 ≤ b → b ≤ B →
      x = x2 - sx * a → y = y2 - sy * b → err = A - B + a * B - b * A →
      ((IsVisibleReads map x2 y2 A (-B) sx sy fuel x y err).length : Int) ≤ a + b ∧
      (∀ c ∈ IsVisibleReads map x2 y2 A (-B) sx sy fuel x y err,
        ∃ a1 b1 : Int, 0 ≤ a1 ∧ a1 ≤ a ∧ 0 ≤ b1 ∧ b1 ≤ b ∧
          c = (x2 - sx * a1, y2 - sy * b1)) ∧
      (a + b < fuel → IsVisibleLoop map x2 y2 A (-B) sx sy fuel x y err ≠ .ok none) := by
  intro fuel
  induction fuel with
  | zero =>
    intro a b x y err ha0 _ hb0 _ _ _ _
    refine ⟨?_, ?_, ?_⟩
    · simp only [IsVisibleReads, List.length_nil]
      omega
    · intro c hc
      simp only [IsVisibleReads, List.not_mem_nil] at hc
    · intro hf
      omega
  | succ f ih =>
    intro a b x y err ha0 ha1 hb0 hb1 hx hy herr
    by_cases h0 : x = x2 ∧ y = y2
    · refine ⟨?_, ?_, ?_⟩
      · simp only [IsVisibleReads, if_pos h0, List.length_nil]
        omega
      · intro c hc
        simp only [IsVisibleReads, if_pos h0, List.not_mem_nil] at hc
      · intro _ hc
        simp only [IsVisibleLoop, if_pos h0] at hc
        cases hc
    · obtain ⟨h1, h2, a1, b1, ha10, ha11, hb10, hb11, hlt, hx1, hy1, herr1⟩ :=
        IsVisible_step x2 y2 A B sx sy hsx hsy a b x y err ha0 ha1 hb0 hb1 hx hy herr h0
      obtain ⟨ihlen, ihmem, ihend⟩ := ih a1 b1 _ _ _ ha10 (by omega) hb10 (by omega)
        hx1 hy1 herr1
      have hhead : ∃ a1 b1 : Int, 0 ≤ a1 ∧ a1 ≤ a ∧ 0 ≤ b1 ∧ b1 ≤ b ∧
          ((if 2 * err ≥ -B then x + sx else x), (if 2 * err ≤ A then y + sy else y))
            = (x2 - sx * a1, y2 - sy * b1) :=
        ⟨a1, b1, ha10, ha11, hb10, hb11, by rw [hx1, hy1]⟩
      cases hg : getTile map (if 2 * err ≥ -B then x + sx else x)
          (if 2 * err ≤ A then y + sy else y) with
      | error e =>
        refine ⟨?_, ?_, ?_⟩
        · simp only [IsVisibleReads, if_neg h0, if_neg h1, if_neg h2, hg, List.length_singleton]
          omega
        · intro c hc
          simp only [IsVisibleReads, if_neg h0, if_neg h1, if_neg h2, hg,
            List.mem_singleton] at hc
          rw [hc]
          exact hhead
        · intro _ hc
          simp only [IsVisibleLoop, if_neg h0, if_neg h1, if_neg h2, hg] at hc
          cases hc
      | ok tile =>
        by_cases hw : tile = .TILE_WALL
        · refine ⟨?_, ?_, ?_⟩
          · simp only [IsVisibleReads, if_neg h0, if_neg h1, if_neg h2, hg, if_pos hw,
              List.length_singleton]
            omega
          · intro c hc
            simp only [IsVisibleReads, if_neg h0, if_neg h1, if_neg h2, hg, if_pos hw,
              List.mem_singleton] at hc
            rw [hc]
            exact hhead
          · intro _ hc
            simp only [IsVisibleLoop, if_neg h0, if_neg h1, if_neg h2, hg, if_pos hw] at hc
            cases hc
        · refine ⟨?_, ?_, ?_⟩
          · simp only [IsVisibleReads, if_neg h0, if_neg h1, if_neg h2, hg, if_neg hw,
              List.length_cons]
            push_cast
            omega
          · intro c hc
            simp only [IsVisibleReads, if_neg h0, if_neg h1, if_neg h2, hg, if_neg hw,
              List.mem_cons] at hc
            rcases hc with hc | hc
            · rw [hc]
              exact hhead
            · obtain ⟨a2, b2, h20, h21, h22, h23, hceq⟩ := ihmem c hc
              exact ⟨a2, b2, h20, by omega, h22, by omega, hceq⟩
          · intro hf hc
            simp only [IsVisibleLoop, if_neg h0, if_neg h1, if_neg h2, hg, if_neg hw] at hc
            exact ihend (by omega) hc

/-- C28: for all integer endpoints and every map, the loop of `IsVisible`
has ended (with a result, or at a read outside the grid) after at most
`|x2 - x1| + |y2 - y1|` iterations: it reads at most that many cells and is
never still running when its budget of one more loop test is spent. Every
cell it reads lies within the bounding rectangle of the two endpoints; hence
with both endpoints inside the grid every cell read is inside the grid and
`IsVisible` returns a result. -/
theorem IsVisible_ends_within_box (x1 y1 x2 y2 : Int) (map : GameMap) :
    IsVisible x1 y1 x2 y2 map ≠ .ok none ∧
    (∀ fuel, ((IsVisibleCells x1 y1 x2 y2 map fuel).length : Int)
      ≤ cAbs (x2 - x1) + cAbs (y2 - y1)) ∧
    (∀ fuel, ∀ c ∈ IsVisibleCells x1 y1 x2 y2 map fuel,
      min x1 x2 ≤ c.1 ∧ c.1 ≤ max x1 x2 ∧ min y1 y2 ≤ c.2 ∧ c.2 ≤ max y1 y2) ∧
    (inGrid x1 y1 → inGrid x2 y2 →
      (∀ fuel, ∀ c ∈ IsVisibleCells x1 y1 x2 y2 map fuel, inGrid c.1 c.2) ∧
      ∃ r, IsVisible x1 y1 x2 y2 map = .ok (some r)) := by
  have hsx : (if x1 < x2 then (1 : Int) else -1) = 1 ∨ (if x1 < x2 then (1 : Int) else -1) = -1 := by
    split_ifs <;> simp
  have hsy : (if y1 < y2 then (1 : Int) else -1) = 1 ∨ (if y1 < y2 then (1 : Int) else -1) = -1 := by
    split_ifs <;> simp
  have hA : 0 ≤ cAbs (x2 - x1) := by unfold cAbs; split_ifs <;> omega
  have hB : 0 ≤ cAbs (y2 - y1) := by unfold cAbs; split_ifs <;> omega
  have hx : x1 = x2 - (if x1 < x2 then (1 : Int) else -1) * cAbs (x2 - x1) := by
    unfold cAbs; split_ifs <;> omega
  have hy : y1 = y2 - (if y1 < y2 then (1 : Int) else -1) * cAbs (y2 - y1) := by
    unfold cAbs; split_ifs <;> omega
  have key := fun fuel => IsVisibleReads_walk map x2 y2 (cAbs (x2 - x1)) (cAbs (y2 - y1))
    (if x1 < x2 then 1 else -1) (if y1 < y2 then 1 else -1) hsx hsy fuel
    (cAbs (x2 - x1)) (cAbs (y2 - y1)) x1 y1 (cAbs (x2 - x1) + -cAbs (y2 - y1))
    hA (le_refl _) hB (le_refl _) hx hy (by ring)
  have hbox : ∀ fuel, ∀ c ∈ IsVisibleCells x1 y1 x2 y2 map fuel,
      min x1 x2 ≤ c.1 ∧ c.1 ≤ max x1 x2 ∧ min y1 y2 ≤ c.2 ∧ c.2 ≤ max y1 y2 := by
    intro fuel c hc
    obtain ⟨a1, b1, h10, h11, h12, h13, hceq⟩ := (key fuel).2.1 c hc
    rw [hceq]
    dsimp only
    unfold cAbs at h11 h13
    split_ifs at h11 h13 ⊢ <;> omega
  have hend : IsVisible x1 y1 x2 y2 map ≠ .ok none := by
    apply (key _).2.2
    omega
  refine ⟨hend, fun fuel => (key fuel).1, hbox, ?_⟩
  intro h1 h2
  have hin : ∀ fuel, ∀ c ∈ IsVisibleCells x1 y1 x2 y2 map fuel, inGrid c.1 c.2 := by
    intro fuel c hc
    have := hbox fuel c hc
    unfold inGrid at h1 h2 ⊢
    omega
  refine ⟨hin, ?_⟩
  obtain ⟨r, hr, _⟩ := IsVisibleLoop_walk map x2 y2 (cAbs (x2 - x1)) (cAbs (y2 - y1))
    (if x1 < x2 then 1 else -1) (if y1 < y2 then 1 else -1) hsx hsy
    (by
      intro a b ha0 ha1 hb0 hb1
      unfold inGrid at h1 h2 ⊢
      unfold cAbs at ha1 hb1
      split_ifs at ha1 hb1 ⊢ <;> omega)
    ((cAbs (x2 - x1) - -cAbs (y2 - y1)).toNat + 1) (cAbs (x2 - x1)) (cAbs (y2 - y1)) x1 y1
    (cAbs (x2 - x1) + -cAbs (y2 - y1)) hA (le_refl _) hB (le_refl _) (by omega) hx hy (by ring)
  exact ⟨r, hr⟩

/-! ### Combat -/

/-- The loop of `HandleCombat` over slots that all lie in the array: when no
slot looked at holds an active enemy at the target the state is returned as
it is, and otherwise the first such enemy is hit. -/
theorem HandleCombatFrom_spec (st : GameState) (tx ty : Int) (count : Nat) :
    ∀ i : Int, 0 ≤ i → i + count ≤ MAX_ENEMIES →
      ((∀ j, i ≤ j → j < i + count → ¬ EnemyAt st j tx ty) →
        HandleCombatFrom st tx ty count i = .ok st) ∧
      (∀ k, i ≤ k → k < i + count → EnemyAt st k tx ty →
        (∀ j, i ≤ j → j < k → ¬ EnemyAt st j tx ty) →
        HandleCombatFrom st tx ty count i = .ok (hitEnemy st k (st.enemies k))) := by
  induction count with
  | zero =>
    intro i _ _
    refine ⟨fun _ => rfl, ?_⟩
    intro k hk0 hk1
    simp only [Nat.cast_zero, add_zero] at hk1
    omega
  | succ n ih =>
    intro i hi0 hi1
    push_cast at hi1
    have hget : getEnemy st i = .ok (st.enemies i) := by
      have : 0 ≤ i ∧ i < MAX_ENEMIES := ⟨hi0, by omega⟩
      simp only [getEnemy, if_pos this]
    obtain ⟨ihnone, ihfirst⟩ := ih (i + 1) (by omega) (by omega)
    refine ⟨?_, ?_⟩
    · intro hnone
      have hni : ¬ ((st.enemies i).active = true ∧ (st.enemies i).x = tx ∧
          (st.enemies i).y = ty) := hnone i (le_refl i) (by push_cast; omega)
      simp only [HandleCombatFrom, hget, if_neg hni]
      apply ihnone
      intro j hj0 hj1
      exact hnone j (by omega) (by push_cast; omega)
    · intro k hk0 hk1 hat hfirst
      push_cast at hk1
      by_cases hki : k = i
      · subst hki
        have hyes : (st.enemies k).active = true ∧ (st.enemies k).x = tx ∧
            (st.enemies k).y = ty := hat
        simp only [HandleCombatFrom, hget, if_pos hyes]
      · have hni : ¬ ((st.enemies i).active = true ∧ (st.enemies i).x = tx ∧
            (st.enemies i).y = ty) := hfirst i (le_refl i) (by omega)
        simp only [HandleCombatFrom, hget, if_neg hni]
        apply ihfirst k (by omega) (by omega) hat
        intro j hj0 hj1
        exact hfirst j (by omega) hj1

theorem HandleCombat_first (st : GameState) (tx ty k : Int)
    (hcount : st.enemyCount ≤ MAX_ENEMIES) (hk0 : 0 ≤ k) (hk1 : k < st.enemyCount)
    (hat : EnemyAt st k tx ty) (hfirst : ∀ j, 0 ≤ j → j < k → ¬ EnemyAt st j tx ty) :
    HandleCombat st tx ty = .ok (hitEnemy st k (st.enemies k)) := by
  have h := (HandleCombatFrom_spec st tx ty st.enemyCount.toNat 0 (le_refl 0) (by omega)).2
    k hk0 (by omega) hat hfirst
  exact h

theorem HandleCombat_none (st : GameState) (tx ty : Int)
    (hcount : st.enemyCount ≤ MAX_ENEMIES)
    (hnone : ∀ j, 0 ≤ j → j < st.enemyCount → ¬ EnemyAt st j tx ty) :
    HandleCombat st tx ty = .ok st := by
  by_cases hc : 0 ≤ st.enemyCount
  · have h := (HandleCombatFrom_spec st tx ty st.enemyCount.toNat 0 (le_refl 0) (by omega)).1
      (fun j hj0 hj1 => hnone j hj0 (by omega))
    exact h
  · have hz : st.enemyCount.toNat = 0 := by omega
    simp only [HandleCombat, hz, HandleCombatFrom]

theorem wrapInt_of_inIntRange (a : Int) (h : inIntRange a) : wrapInt a = a := by
  unfold inIntRange INT_MIN INT_MAX at h
  unfold wrapInt
  omega

theorem cSub_of_inIntRange (a b : Int) (h : inIntRange (a - b)) : cSub a b = a - b :=
  wrapInt_of_inIntRange _ h

/-- Without overflow the damage is `max(1, attack - defense)`. -/
theorem combatDamage_eq (attack defense : Int) (h : inIntRange (attack - defense)) :
    combatDamage attack defense = max 1 (attack - defense) := by
  unfold combatDamage
  rw [cSub_of_inIntRange _ _ h]
  dsimp only
  split_ifs <;> omega

/-- What the hit changes: the health of the enemy, its active flag when the
health is not positive any more, and the message. -/
theorem hitEnemy_spec (st : GameState) (k : Int) (e : Enemy) :
    ((hitEnemy st k e).enemies k).health
      = cSub e.health (combatDamage st.player.attack e.defense) ∧
    ((((hitEnemy st k e).enemies k).health ≤ 0 → ((hitEnemy st k e).enemies k).active = false) ∧
      (0 < ((hitEnemy st k e).enemies k).health →
        ((hitEnemy st k e).enemies k).active = e.active)) ∧
    ((hitEnemy st k e).enemies k).x = e.x ∧ ((hitEnemy st k e).enemies k).y = e.y ∧
    ((hitEnemy st k e).enemies k).name = e.name ∧
    ((hitEnemy st k e).enemies k).maxHealth = e.maxHealth ∧
    ((hitEnemy st k e).enemies k).attack = e.attack ∧
    ((hitEnemy st k e).enemies k).defense = e.defense ∧
    ((hitEnemy st k e).enemies k).spriteIndex = e.spriteIndex ∧
    ((hitEnemy st k e).enemies k).sightRange = e.sightRange ∧
    ((hitEnemy st k e).enemies k).type = e.type ∧
    ((hitEnemy st k e).enemies k).aggro = e.aggro ∧
    (∀ j, j ≠ k → (hitEnemy st k e).enemies j = st.enemies j) ∧
    (hitEnemy st k e).player = st.player ∧ (hitEnemy st k e).items = st.items ∧
    (hitEnemy st k e).enemyCount = st.enemyCount ∧
    (hitEnemy st k e).itemCount = st.itemCount ∧
    (hitEnemy st k e).turn = st.turn ∧ (hitEnemy st k e).playerTurn = st.playerTurn ∧
    (hitEnemy st k e).level = st.level ∧ (hitEnemy st k e).gameOver = st.gameOver := by
  unfold hitEnemy
  by_cases hd : cSub e.health (combatDamage st.player.attack e.defense) ≤ 0
  · simp only [if_pos hd, if_true]
    refine ⟨trivial, ?_, trivial, trivial, trivial, trivial, trivial, trivial, trivial, trivial,
      trivial, trivial, ?_, trivial, trivial, trivial, trivial, trivial, trivial, trivial,
      trivial⟩
    · exact ⟨fun _ => trivial, fun h => absurd h (by omega)⟩
    · intro j hj
      simp only [if_neg hj]
  · simp only [if_neg hd, if_true]
    refine ⟨trivial, ?_, trivial, trivial, trivial, trivial, trivial, trivial, trivial, trivial,
      trivial, trivial, ?_, trivial, trivial, trivial, trivial, trivial, trivial, trivial,
      trivial⟩
    · exact ⟨fun h => absurd h hd, fun _ => trivial⟩
    · intro j hj
      simp only [if_neg hj]

/-- C21: when an active enemy stands at `(targetX, targetY)` in a slot below
`enemyCount` (at most `MAX_ENEMIES`) and neither `player.attack -
enemy.defense` nor the new health overflows a 32-bit `int`, `HandleCombat`
returns a state in which the health of the first such enemy, slot `k`, is
lower by exactly `max(1, player.attack - enemy.defense)`; the player, every
other enemy slot, the items and the two counts are unchanged. -/
theorem HandleCombat_damages_first_enemy (st : GameState) (tx ty k : Int)
    (hcount : st.enemyCount ≤ MAX_ENEMIES) (hk0 : 0 ≤ k) (hk1 : k < st.enemyCount)
    (hat : EnemyAt st k tx ty) (hfirst : ∀ j, 0 ≤ j → j < k → ¬ EnemyAt st j tx ty)
    (hd : inIntRange (st.player.attack - (st.enemies k).defense))
    (hh : inIntRange ((st.enemies k).health
      - max 1 (st.player.attack - (st.enemies k).defense))) :
    ∃ st1, HandleCombat st tx ty = .ok st1 ∧
      (st1.enemies k).health
        = (st.enemies k).health - max 1 (st.player.attack - (st.enemies k).defense) ∧
      st1.player = st.player ∧
      (∀ j, j ≠ k → st1.enemies j = st.enemies j) ∧
      st1.items = st.items ∧ st1.enemyCount = st.enemyCount ∧
      st1.itemCount = st.itemCount := by
  obtain ⟨hhealth, _, _, _, _, _, _, _, _, _, _, _, hothers, hp, hit, hec, hic, _⟩ :=
    hitEnemy_spec st k (st.enemies k)
  rw [combatDamage_eq _ _ hd, cSub_of_inIntRange _ _ hh] at hhealth
  exact ⟨_, HandleCombat_first st tx ty k hcount hk0 hk1 hat hfirst, hhealth, hp, hothers, hit,
    hec, hic⟩

theorem HandleCombat_damages_first_enemy_witness :
    packState.enemyCount ≤ MAX_ENEMIES ∧ (0 : Int) ≤ 1 ∧ 1 < packState.enemyCount ∧
    EnemyAt packState 1 3 3 ∧ EnemyAt packState 2 3 3 ∧
    (∀ j, 0 ≤ j → j < 1 → ¬ EnemyAt packState j 3 3) ∧
    inIntRange (packState.player.attack - (packState.enemies 1).defense) ∧
    inIntRange ((packState.enemies 1).health
      - max 1 (packState.player.attack - (packState.enemies 1).defense)) ∧
    ∃ st1, HandleCombat packState 3 3 = .ok st1 ∧
      (st1.enemies 1).health = (packState.enemies 1).health
        - max 1 (packState.player.attack - (packState.enemies 1).defense) ∧
      st1.player = packState.player ∧
      (∀ j, j ≠ 1 → st1.enemies j = packState.enemies j) ∧
      st1.items = packState.items ∧ st1.enemyCount = packState.enemyCount ∧
      st1.itemCount = packState.itemCount :=
  have hfirst : ∀ j, 0 ≤ j → j < 1 → ¬ EnemyAt packState j 3 3 := by
    intro j h0 h1 hc
    have hj : j = 0 := by omega
    subst hj
    exact absurd hc.1 (by decide)
  ⟨by decide, by decide, by decide, ⟨rfl, rfl, rfl⟩, ⟨rfl, rfl, rfl⟩, hfirst, by decide,
    by decide,
    HandleCombat_damages_first_enemy packState 3 3 1 (by decide) (by decide) (by decide)
      ⟨rfl, rfl, rfl⟩ hfirst (by decide) (by decide)⟩

/-- C22: after `HandleCombat` hits an enemy (the first active one at the
target, slot `k`), that enemy is inactive if and only if its health after
the hit is `≤ 0`; it still stands in its slot and `enemyCount` is unchanged.
Once the hit has defeated it, a further `HandleCombat` at the same cell,
when no other active enemy stands there, returns the game state exactly as
it is: no second defeat, and the message is unchanged. -/
theorem HandleCombat_defeat_once (st : GameState) (tx ty k : Int)
    (hcount : st.enemyCount ≤ MAX_ENEMIES) (hk0 : 0 ≤ k) (hk1 : k < st.enemyCount)
    (hat : EnemyAt st k tx ty) (hfirst : ∀ j, 0 ≤ j → j < k → ¬ EnemyAt st j tx ty) :
    ∃ st1, HandleCombat st tx ty = .ok st1 ∧
      ((st1.enemies k).active = false ↔ (st1.enemies k).health ≤ 0) ∧
      st1.enemyCount = st.enemyCount ∧
      (st1.enemies k).x = tx ∧ (st1.enemies k).y = ty ∧
      ((st1.enemies k).health ≤ 0 →
        (∀ j, 0 ≤ j → j < st.enemyCount → j ≠ k → ¬ EnemyAt st j tx ty) →
        HandleCombat st1 tx ty = .ok st1) := by
  obtain ⟨_, hact, hx, hy, _, _, _, _, _, _, _, _, hothers, _, _, hec, _⟩ :=
    hitEnemy_spec st k (st.enemies k)
  refine ⟨_, HandleCombat_first st tx ty k hcount hk0 hk1 hat hfirst, ?_, hec, ?_, ?_, ?_⟩
  · constructor
    · intro hina
      by_contra hc
      rw [hact.2 (by omega), hat.1] at hina
      cases hina
    · exact hact.1
  · rw [hx]
    exact hat.2.1
  · rw [hy]
    exact hat.2.2
  · intro hdead hnone
    apply HandleCombat_none _ tx ty (by rw [hec]; exact hcount)
    intro j hj0 hj1 hc
    rw [hec] at hj1
    by_cases hjk : j = k
    · subst hjk
      have hina := hact.1 hdead
      rw [hc.1] at hina
      cases hina
    · apply hnone j hj0 hj1 hjk
      unfold EnemyAt at hc ⊢
      rw [hothers j hjk] at hc
      exact hc

theorem HandleCombat_defeat_once_witness :
    (trollState 50).enemyCount ≤ MAX_ENEMIES ∧ (0 : Int) ≤ 0 ∧ 0 < (trollState 50).enemyCount ∧
    EnemyAt (trollState 50) 0 3 3 ∧
    (∀ j, 0 ≤ j → j < 0 → ¬ EnemyAt (trollState 50) j 3 3) ∧
    ∃ st1, HandleCombat (trollState 50) 3 3 = .ok st1 ∧
      (st1.enemies 0).active = false ∧ (st1.enemies 0).health = -5 ∧
      st1.enemyCount = 1 ∧ HandleCombat st1 3 3 = .ok st1 := by
  obtain ⟨st1, hrun, hiff, hec, _, _, hnext⟩ :=
    HandleCombat_defeat_once (trollState 50) 3 3 0 (by decide) (by decide) (by decide)
      ⟨rfl, rfl, rfl⟩ (fun j h0 h1 => absurd h0 (by omega))
  have hrun1 := HandleCombat_first (trollState 50) 3 3 0 (by decide) (by decide) (by decide)
    ⟨rfl, rfl, rfl⟩ (fun j h0 h1 => absurd h0 (by omega))
  rw [hrun1] at hrun
  injection hrun with hrun
  subst hrun
  have hhealth : ((hitEnemy (trollState 50) 0 ((trollState 50).enemies 0)).enemies 0).health
      = -5 := rfl
  refine ⟨by decide, by decide, by decide, ⟨rfl, rfl, rfl⟩,
    fun j h0 h1 => absurd h0 (by omega), _, hrun1, hiff.2 (by rw [hhealth]; decide), hhealth,
    hec, ?_⟩
  apply hnext (by rw [hhealth]; decide)
  intro j h0 h1 hne
  have : (trollState 50).enemyCount = 1 := rfl
  omega

/-! ### The enemies' turn -/

/-- The call `MoveEntity` never faults, returns the map as it was, and leaves
the position where it was or moves it by the step. -/
theorem MoveEntity_result (x y dx dy : Int) (map : GameMap) :
    ∃ moved x1 y1, MoveEntity x y dx dy map = .ok (moved, x1, y1, map) ∧
      ((x1 = x ∧ y1 = y) ∨ (x1 = x + dx ∧ y1 = y + dy)) ∧
      (moved = false → x1 = x ∧ y1 = y) := by
  by_cases hout : x + dx < 0 ∨ x + dx ≥ MAP_WIDTH ∨ y + dy < 0 ∨ y + dy ≥ MAP_HEIGHT
  · exact ⟨false, x, y, by simp only [MoveEntity, if_pos hout], Or.inl ⟨rfl, rfl⟩,
      fun _ => ⟨rfl, rfl⟩⟩
  · have hin : inGrid (x + dx) (y + dy) := by
      unfold inGrid
      omega
    by_cases hw : map.tiles (x + dx) (y + dy) = .TILE_FLOOR ∨
        map.tiles (x + dx) (y + dy) = .TILE_DOOR
    · refine ⟨true, x + dx, y + dy, ?_, Or.inr ⟨rfl, rfl⟩, ?_⟩
      · simp only [MoveEntity, if_neg hout, getTile, if_pos hin, if_pos hw]
      · intro h
        cases h
    · refine ⟨false, x, y, ?_, Or.inl ⟨rfl, rfl⟩, fun _ => ⟨rfl, rfl⟩⟩
      simp only [MoveEntity, if_neg hout, getTile, if_pos hin, if_neg hw]

/-- The two tries of a move end where they started or one of the two steps
away. -/
theorem moveEitherWay_result (x y dx1 dy1 dx2 dy2 : Int) (map : GameMap) :
    ∃ p, moveEitherWay x y dx1 dy1 dx2 dy2 map = .ok p ∧
      ((p.1 = x ∧ p.2 = y) ∨ (p.1 = x + dx1 ∧ p.2 = y + dy1) ∨
        (p.1 = x + dx2 ∧ p.2 = y + dy2)) := by
  obtain ⟨moved, x1, y1, h1, hpos1, hstay⟩ := MoveEntity_result x y dx1 dy1 map
  cases moved with
  | true =>
    refine ⟨(x1, y1), by simp only [moveEitherWay, h1], ?_⟩
    rcases hpos1 with h | h
    · exact Or.inl h
    · exact Or.inr (Or.inl h)
  | false =>
    obtain ⟨hx, hy⟩ := hstay rfl
    subst hx
    subst hy
    obtain ⟨moved2, x2, y2, h2, hpos2, _⟩ := MoveEntity_result x1 y1 dx2 dy2 map
    refine ⟨(x2, y2), by simp only [moveEitherWay, h1, h2], ?_⟩
    rcases hpos2 with h | h
    · exact Or.inl h
    · exact Or.inr (Or.inr h)

/-- Between two points of the grid `IsVisible` returns a result. -/
theorem IsVisible_in_grid (map : GameMap) (x1 y1 x2 y2 : Int)
    (h1 : inGrid x1 y1) (h2 : inGrid x2 y2) :
    ∃ r, IsVisible x1 y1 x2 y2 map = .ok (some r) := by
  have hsx : (if x1 < x2 then (1 : Int) else -1) = 1 ∨ (if x1 < x2 then (1 : Int) else -1) = -1 := by
    split_ifs <;> simp
  have hsy : (if y1 < y2 then (1 : Int) else -1) = 1 ∨ (if y1 < y2 then (1 : Int) else -1) = -1 := by
    split_ifs <;> simp
  have hA : 0 ≤ cAbs (x2 - x1) := by unfold cAbs; split_ifs <;> omega
  have hB : 0 ≤ cAbs (y2 - y1) := by unfold cAbs; split_ifs <;> omega
  have hx : x1 = x2 - (if x1 < x2 then (1 : Int) else -1) * cAbs (x2 - x1) := by
    unfold cAbs; split_ifs <;> omega
  have hy : y1 = y2 - (if y1 < y2 then (1 : Int) else -1) * cAbs (y2 - y1) := by
    unfold cAbs; split_ifs <;> omega
  obtain ⟨r, hr, _⟩ := IsVisibleLoop_walk map x2 y2 (cAbs (x2 - x1)) (cAbs (y2 - y1))
    (if x1 < x2 then 1 else -1) (if y1 < y2 then 1 else -1) hsx hsy
    (by
      intro a b ha0 ha1 hb0 hb1
      unfold inGrid at h1 h2 ⊢
      unfold cAbs at ha1 hb1
      split_ifs at ha1 hb1 ⊢ <;> omega)
    ((cAbs (x2 - x1) - -cAbs (y2 - y1)).toNat + 1) (cAbs (x2 - x1)) (cAbs (y2 - y1)) x1 y1
    (cAbs (x2 - x1) + -cAbs (y2 - y1)) hA (le_refl _) hB (le_refl _) (by omega) hx hy (by ring)
  exact ⟨r, hr⟩

/-- From a cell of the grid to a neighbour (one step along a row or a column)
that does not hold a Wall, `IsVisible` returns true. -/
theorem IsVisible_neighbour (map : GameMap) (x1 y1 x2 y2 : Int)
    (h1 : inGrid x1 y1) (h2 : inGrid x2 y2)
    (hd : cAbs (x2 - x1) + cAbs (y2 - y1) = 1) (hw : map.tiles x2 y2 ≠ .TILE_WALL) :
    IsVisible x1 y1 x2 y2 map = .ok (some true) := by
  have hcases : (x2 = x1 ∧ y2 = y1 + 1) ∨ (x2 = x1 ∧ y2 = y1 - 1) ∨
      (x2 = x1 + 1 ∧ y2 = y1) ∨ (x2 = x1 - 1 ∧ y2 = y1) := by
    unfold cAbs at hd
    split_ifs at hd <;> omega
  rcases hcases with ⟨rfl, rfl⟩ | ⟨rfl, rfl⟩ | ⟨rfl, rfl⟩ | ⟨rfl, rfl⟩
  · obtain ⟨r, hr, hiff⟩ := IsVisible_column_down map x2 y1 (y1 + 1) (by omega) h1 h2
    have : r = true := by
      rw [hiff]
      intro c hc1 hc2
      have : c = y1 + 1 := by omega
      rw [this]
      exact hw
    rw [hr, this]
  · obtain ⟨r, hr, hiff⟩ := IsVisible_column_up map x2 y1 (y1 - 1) (by omega) h1 h2
    have : r = true := by
      rw [hiff]
      intro c hc1 hc2
      have : c = y1 - 1 := by omega
      rw [this]
      exact hw
    rw [hr, this]
  · obtain ⟨r, hr, hiff⟩ := IsVisible_row_right map x1 (x1 + 1) y2 (by omega) h1 h2
    have : r = true := by
      rw [hiff]
      intro c hc1 hc2
      have : c = x1 + 1 := by omega
      rw [this]
      exact hw
    rw [hr, this]
  · obtain ⟨r, hr, hiff⟩ := IsVisible_row_left map x1 (x1 - 1) y2 (by omega) h1 h2
    have : r = true := by
      rw [hiff]
      intro c hc1 hc2
      have : c = x1 - 1 := by omega
      rw [this]
      exact hw
    rw [hr, this]

theorem dirs_result (a : Int) (ha : 0 ≤ a) :
    ∃ d, dirs (Int.tmod a 4) = .ok d ∧ cAbs d.1 + cAbs d.2 = 1 := by
  have h0 : 0 ≤ Int.tmod a 4 := Int.tmod_nonneg 4 ha
  have h1 : Int.tmod a 4 < 4 := Int.tmod_lt_of_pos a (by decide)
  have hc : Int.tmod a 4 = 0 ∨ Int.tmod a 4 = 1 ∨ Int.tmod a 4 = 2 ∨ Int.tmod a 4 = 3 := by
    omega
  rcases hc with h | h | h | h <;> rw [h] <;> exact ⟨_, rfl, by decide⟩

/-- One iteration of the loop of `UpdateEnemies`, with the player on a cell
of the grid that is not a Wall and the enemy of the slot, if active, on
another cell of the grid with a sight range of at least 1: the iteration
returns; it leaves the player's position, attack and defense, the count and
every other slot as they were; an inactive enemy is skipped; an active enemy
does not end on the player's cell, and one that stands next to the player
stays where it is and lowers the player's health. -/
theorem updateEnemy_spec (map : GameMap) (i : Int) (state : GameState) (s : RandStream)
    (hi0 : 0 ≤ i) (hi1 : i < MAX_ENEMIES)
    (hp : inGrid state.player.x state.player.y)
    (hpw : map.tiles state.player.x state.player.y ≠ .TILE_WALL)
    (he : (state.enemies i).active = true →
      inGrid (state.enemies i).x (state.enemies i).y ∧ 1 ≤ (state.enemies i).sightRange ∧
      ¬ ((state.enemies i).x = state.player.x ∧ (state.enemies i).y = state.player.y)) :
    ∃ st1 s1, updateEnemy map i (state, s) = .ok (st1, s1) ∧
      st1.player.x = state.player.x ∧ st1.player.y = state.player.y ∧
      st1.player.attack = state.player.attack ∧ st1.player.defense = state.player.defense ∧
      st1.enemyCount = state.enemyCount ∧
      (∀ j, j ≠ i → st1.enemies j = state.enemies j) ∧
      (st1.enemies i).active = (state.enemies i).active ∧
      ((state.enemies i).active = false → st1 = state ∧ s1 = s) ∧
      ((state.enemies i).active = true →
        ¬ ((st1.enemies i).x = state.player.x ∧ (st1.enemies i).y = state.player.y)) ∧
      ((state.enemies i).active = true →
        cAbs (state.player.x - (state.enemies i).x)
          + cAbs (state.player.y - (state.enemies i).y) = 1 →
        st1.player.health = cSub state.player.health
          (combatDamage (state.enemies i).attack state.player.defense) ∧
        (st1.enemies i).x = (state.enemies i).x ∧ (st1.enemies i).y = (state.enemies i).y ∧
        s1 = s) := by
  have hget : getEnemy state i = .ok (state.enemies i) := by
    have : 0 ≤ i ∧ i < MAX_ENEMIES := ⟨hi0, hi1⟩
    simp only [getEnemy, if_pos this]
  by_cases hact : (state.enemies i).active = true
  · obtain ⟨hein, hsr, hne⟩ := he hact
    have hd1 : 1 ≤ cAbs (state.player.x - (state.enemies i).x)
        + cAbs (state.player.y - (state.enemies i).y) := by
      unfold cAbs
      split_ifs <;> omega
    have hvis : ∃ b, (if cAbs (state.player.x - (state.enemies i).x)
          + cAbs (state.player.y - (state.enemies i).y) ≤ (state.enemies i).sightRange then
          IsVisible (state.enemies i).x (state.enemies i).y state.player.x state.player.y map
        else .ok (some false)) = .ok (some b) ∧
        (cAbs (state.player.x - (state.enemies i).x)
          + cAbs (state.player.y - (state.enemies i).y) = 1 → b = true) ∧
        (b = false → 2 ≤ cAbs (state.player.x - (state.enemies i).x)
          + cAbs (state.player.y - (state.enemies i).y)) := by
      by_cases hin : cAbs (state.player.x - (state.enemies i).x)
          + cAbs (state.player.y - (state.enemies i).y) ≤ (state.enemies i).sightRange
      · rw [if_pos hin]
        by_cases hone : cAbs (state.player.x - (state.enemies i).x)
            + cAbs (state.player.y - (state.enemies i).y) = 1
        · exact ⟨true, IsVisible_neighbour map _ _ _ _ hein hp hone hpw, fun _ => rfl,
            fun h => by cases h⟩
        · obtain ⟨r, hr⟩ := IsVisible_in_grid map _ _ _ _ hein hp
          exact ⟨r, hr, fun h => absurd h hone, fun _ => by omega⟩
      · rw [if_neg hin]
        exact ⟨false, rfl, fun h => by omega, fun _ => by omega⟩
    obtain ⟨b, hvis, hb1, hb2⟩ := hvis
    cases b with
    | false =>
      have hd2 := hb2 rfl
      by_cases hroll : Int.tmod (rand s).1 100 < 20
      · obtain ⟨d, hdirs, hdabs⟩ := dirs_result (rand (rand s).2).1 (rand_nonneg _)
        obtain ⟨moved, x1, y1, hmove, hpos, _⟩ :=
          MoveEntity_result (state.enemies i).x (state.enemies i).y d.1 d.2 map
        refine ⟨setEnemy state i { state.enemies i with x := x1, y := y1 },
          (rand (rand s).2).2, ?_, rfl, rfl, rfl, rfl, rfl, ?_, ?_, ?_, ?_, ?_⟩
        · simp only [updateEnemy, hget, if_pos hact, hvis, if_pos hroll, hdirs, hmove]
        · intro j hj
          simp only [setEnemy, if_neg hj]
        · simp only [setEnemy, if_true]
        · intro hc
          rw [hact] at hc
          cases hc
        · intro _
          simp only [setEnemy, if_true]
          unfold cAbs at hd2 hdabs
          split_ifs at hd2 hdabs <;> omega
        · intro _ hone
          omega
      · refine ⟨state, (rand s).2, ?_, rfl, rfl, rfl, rfl, rfl, fun _ _ => rfl, rfl, ?_, ?_, ?_⟩
        · simp only [updateEnemy, hget, if_pos hact, hvis, if_neg hroll]
        · intro hc
          rw [hact] at hc
          cases hc
        · intro _
          exact hne
        · intro _ hone
          omega
    | true =>
      by_cases hgt : cAbs (state.player.x - (state.enemies i).x)
          + cAbs (state.player.y - (state.enemies i).y) > 1
      · have hmv : ∃ p, (if Int.tmod (rand s).1 2 = 0 then
              moveEitherWay (state.enemies i).x (state.enemies i).y
                (if (state.enemies i).x < state.player.x then 1
                  else if (state.enemies i).x > state.player.x then -1 else 0) 0 0
                (if (state.enemies i).y < state.player.y then 1
                  else if (state.enemies i).y > state.player.y then -1 else 0) map
            else
              moveEitherWay (state.enemies i).x (state.enemies i).y 0
                (if (state.enemies i).y < state.player.y then 1
                  else if (state.enemies i).y > state.player.y then -1 else 0)
                (if (state.enemies i).x < state.player.x then 1
                  else if (state.enemies i).x > state.player.x then -1 else 0) 0 map) = .ok p ∧
            ¬ (p.1 = state.player.x ∧ p.2 = state.player.y) := by
          by_cases hev : Int.tmod (rand s).1 2 = 0
          · rw [if_pos hev]
            obtain ⟨p, hrun, hpos⟩ := moveEitherWay_result (state.enemies i).x (state.enemies i).y
              (if (state.enemies i).x < state.player.x then 1
                else if (state.enemies i).x > state.player.x then -1 else 0) 0 0
              (if (state.enemies i).y < state.player.y then 1
                else if (state.enemies i).y > state.player.y then -1 else 0) map
            refine ⟨p, hrun, ?_⟩
            unfold cAbs at hgt
            split_ifs at hgt hpos <;> omega
          · rw [if_neg hev]
            obtain ⟨p, hrun, hpos⟩ := moveEitherWay_result (state.enemies i).x (state.enemies i).y
              0 (if (state.enemies i).y < state.player.y then 1
                else if (state.enemies i).y > state.player.y then -1 else 0)
              (if (state.enemies i).x < state.player.x then 1
                else if (state.enemies i).x > state.player.x then -1 else 0) 0 map
            refine ⟨p, hrun, ?_⟩
            unfold cAbs at hgt
            split_ifs at hgt hpos <;> omega
        obtain ⟨p, hrun, hpne⟩ := hmv
        refine ⟨setEnemy state i { state.enemies i with aggro := true, x := p.1, y := p.2 },
          (rand s).2, ?_, rfl, rfl, rfl, rfl, rfl, ?_, ?_, ?_, ?_, ?_⟩
        · simp only [updateEnemy, hget, if_pos hact, hvis, if_pos hgt, hrun]
        · intro j hj
          simp only [setEnemy, if_neg hj]
        · simp only [setEnemy, if_true]
        · intro hc
          rw [hact] at hc
          cases hc
        · intro _
          simp only [setEnemy, if_true]
          exact hpne
        · intro _ hone
          omega
      · have hone : cAbs (state.player.x - (state.enemies i).x)
            + cAbs (state.player.y - (state.enemies i).y) = 1 := by omega
        refine ⟨setEnemy
          { state with
            player := { state.player with
              health := cSub state.player.health
                (combatDamage (state.enemies i).attack state.player.defense) },
            message := (state.enemies i).name ++ " attacks you for "
              ++ toString (combatDamage (state.enemies i).attack state.player.defense)
              ++ " damage!" }
          i { state.enemies i with aggro := true }, s, ?_, rfl, rfl, rfl, rfl, rfl, ?_, ?_, ?_,
          ?_, ?_⟩
        · simp only [updateEnemy, hget, if_pos hact, hvis, if_neg hgt, if_pos hone]
        · intro j hj
          simp only [setEnemy, if_neg hj]
        · simp only [setEnemy, if_true]
        · intro hc
          rw [hact] at hc
          cases hc
        · intro _
          simp only [setEnemy, if_true]
          exact hne
        · intro _ _
          simp only [setEnemy, if_true, and_self]
  · have hina : (state.enemies i).active = false := by
      cases h : (state.enemies i).active with
      | true => exact absurd h hact
      | false => rfl
    refine ⟨state, s, ?_, rfl, rfl, rfl, rfl, rfl, fun _ _ => rfl, rfl, fun _ => ⟨rfl, rfl⟩,
      ?_, ?_⟩
    · simp only [updateEnemy, hget, if_neg hact]
    · intro hc
      exact absurd hc hact
    · intro hc
      exact absurd hc hact

/-- C23: with exactly one active enemy (slot `k` below `enemyCount`, at most
`MAX_ENEMIES`), standing at Manhattan distance 1 from the player with
`sightRange ≥ 1`, both inside the grid and the player's tile not a Wall, and
neither `enemy.attack - player.defense` nor the new health overflowing a
32-bit `int`, `UpdateEnemies` returns a state in which the player's health is lower by
exactly `max(1, enemy.attack - player.defense)`, the enemy stands where it
stood, and the player's position, attack and defense are unchanged; no random
value is drawn. -/
theorem UpdateEnemies_adjacent_enemy_attacks (st : GameState) (map : GameMap) (s : RandStream)
    (k : Int) (hcount : st.enemyCount ≤ MAX_ENEMIES) (hk0 : 0 ≤ k) (hk1 : k < st.enemyCount)
    (hact : (st.enemies k).active = true)
    (honly : ∀ j, 0 ≤ j → j < st.enemyCount → j ≠ k → (st.enemies j).active = false)
    (hadj : cAbs (st.player.x - (st.enemies k).x)
      + cAbs (st.player.y - (st.enemies k).y) = 1)
    (hsr : 1 ≤ (st.enemies k).sightRange)
    (hp : inGrid st.player.x st.player.y)
    (hein : inGrid (st.enemies k).x (st.enemies k).y)
    (hpw : map.tiles st.player.x st.player.y ≠ .TILE_WALL)
    (hd : inIntRange ((st.enemies k).attack - st.player.defense))
    (hh : inIntRange (st.player.health
      - max 1 ((st.enemies k).attack - st.player.defense))) :
    ∃ st1 s1, UpdateEnemies st map s = .ok (st1, s1) ∧
      st1.player.health
        = st.player.health - max 1 ((st.enemies k).attack - st.player.defense) ∧
      (st1.enemies k).x = (st.enemies k).x ∧ (st1.enemies k).y = (st.enemies k).y ∧
      st1.player.x = st.player.x ∧ st1.player.y = st.player.y ∧
      st1.player.attack = st.player.attack ∧ st1.player.defense = st.player.defense ∧
      s1 = s := by
  have hne : ¬ ((st.enemies k).x = st.player.x ∧ (st.enemies k).y = st.player.y) := by
    rintro ⟨hx, hy⟩
    rw [hx, hy] at hadj
    unfold cAbs at hadj
    split_ifs at hadj <;> omega
  obtain ⟨⟨st1, s1⟩, hrun, hinv⟩ := forLoop_inv
    (fun i (p : GameState × RandStream) =>
      (i ≤ k → p = (st, s)) ∧
      (k < i → p.2 = s ∧
        p.1.player.health
          = st.player.health - max 1 ((st.enemies k).attack - st.player.defense) ∧
        p.1.player.x = st.player.x ∧ p.1.player.y = st.player.y ∧
        p.1.player.attack = st.player.attack ∧ p.1.player.defense = st.player.defense ∧
        (∀ j, j ≠ k → p.1.enemies j = st.enemies j) ∧
        (p.1.enemies k).x = (st.enemies k).x ∧ (p.1.enemies k).y = (st.enemies k).y))
    (updateEnemy map) (st.enemyCount - 0).toNat 0 (st, s)
    ⟨fun _ => rfl, fun h => absurd h (by omega)⟩
    (by
      rintro i ⟨state, sa⟩ hi0 hi1 ⟨hle, hgt⟩
      have hi2 : i < st.enemyCount := by omega
      rcases lt_trichotomy i k with hik | hik | hik
      · have hpeq := hle (by omega)
        injection hpeq with hs1 hs2
        subst hs1
        subst hs2
        have hina := honly i (by omega) hi2 (by omega)
        obtain ⟨st2, s2, hb, _, _, _, _, _, _, _, hskip, _⟩ :=
          updateEnemy_spec map i state sa (by omega) (by omega) hp hpw
            (fun h => by rw [hina] at h; cases h)
        obtain ⟨e1, e2⟩ := hskip hina
        subst e1
        subst e2
        exact ⟨_, hb, fun _ => rfl, fun h => absurd h (by omega)⟩
      · subst hik
        have hpeq := hle (le_refl _)
        injection hpeq with hs1 hs2
        subst hs1
        subst hs2
        obtain ⟨st2, s2, hb, hpx, hpy, hpa, hpd, _, hothers, _, _, _, hatt⟩ :=
          updateEnemy_spec map i state sa (by omega) (by omega) hp hpw
            (fun _ => ⟨hein, hsr, hne⟩)
        obtain ⟨hhealth, hex, hey, hs⟩ := hatt hact hadj
        rw [combatDamage_eq _ _ hd, cSub_of_inIntRange _ _ hh] at hhealth
        exact ⟨_, hb, fun h => absurd h (by omega),
          fun _ => ⟨hs, hhealth, hpx, hpy, hpa, hpd, hothers, hex, hey⟩⟩
      · obtain ⟨hs, hhealth, hpx, hpy, hpa, hpd, hothers, hex, hey⟩ := hgt hik
        dsimp only at hs hhealth hpx hpy hpa hpd hothers hex hey
        have hina : (state.enemies i).active = false := by
          rw [hothers i (by omega)]
          exact honly i (by omega) hi2 (by omega)
        obtain ⟨st2, s2, hb, _, _, _, _, _, _, _, hskip, _⟩ :=
          updateEnemy_spec map i state sa (by omega) (by omega)
            (by rw [hpx, hpy]; exact hp) (by rw [hpx, hpy]; exact hpw)
            (fun h => by rw [hina] at h; cases h)
        obtain ⟨e1, e2⟩ := hskip hina
        subst e1
        subst e2
        exact ⟨_, hb, fun h => absurd h (by omega),
          fun _ => ⟨hs, hhealth, hpx, hpy, hpa, hpd, hothers, hex, hey⟩⟩)
  obtain ⟨hs, hhealth, hpx, hpy, hpa, hpd, _, hex, hey⟩ := hinv.2 (by omega)
  exact ⟨st1, s1, hrun, hhealth, hex, hey, hpx, hpy, hpa, hpd, hs⟩

theorem UpdateEnemies_adjacent_enemy_attacks_witness :
    (trollState 10).enemyCount ≤ MAX_ENEMIES ∧ (0 : Int) ≤ 0 ∧ 0 < (trollState 10).enemyCount ∧
    ((trollState 10).enemies 0).active = true ∧
    (∀ j, 0 ≤ j → j < (trollState 10).enemyCount → j ≠ 0 →
      ((trollState 10).enemies j).active = false) ∧
    cAbs ((trollState 10).player.x - ((trollState 10).enemies 0).x)
      + cAbs ((trollState 10).player.y - ((trollState 10).enemies 0).y) = 1 ∧
    1 ≤ ((trollState 10).enemies 0).sightRange ∧
    inGrid (trollState 10).player.x (trollState 10).player.y ∧
    inGrid ((trollState 10).enemies 0).x ((trollState 10).enemies 0).y ∧
    (wallAt 0 0).tiles (trollState 10).player.x (trollState 10).player.y ≠ .TILE_WALL ∧
    inIntRange (((trollState 10).enemies 0).attack - (trollState 10).player.defense) ∧
    inIntRange ((trollState 10).player.health
      - max 1 (((trollState 10).enemies 0).attack - (trollState 10).player.defense)) ∧
    ∃ st1 s1, UpdateEnemies (trollState 10) (wallAt 0 0) (streamOf [7]) = .ok (st1, s1) ∧
      st1.player.health = (trollState 10).player.health
        - max 1 (((trollState 10).enemies 0).attack - (trollState 10).player.defense) ∧
      (st1.enemies 0).x = ((trollState 10).enemies 0).x ∧
      (st1.enemies 0).y = ((trollState 10).enemies 0).y ∧
      st1.player.x = (trollState 10).player.x ∧ st1.player.y = (trollState 10).player.y ∧
      st1.player.attack = (trollState 10).player.attack ∧
      st1.player.defense = (trollState 10).player.defense ∧
      s1 = streamOf [7] :=
  have honly : ∀ j, 0 ≤ j → j < (trollState 10).enemyCount → j ≠ 0 →
      ((trollState 10).enemies j).active = false := by
    intro j h0 h1 hne
    have : (trollState 10).enemyCount = 1 := rfl
    omega
  ⟨by decide, by decide, by decide, rfl, honly, by decide, by decide, by decide, by decide,
    by decide, by decide, by decide,
    UpdateEnemies_adjacent_enemy_attacks (trollState 10) (wallAt 0 0) (streamOf [7]) 0
      (by decide) (by decide) (by decide) rfl honly (by decide) (by decide) (by decide)
      (by decide) (by decide) (by decide) (by decide)⟩

/-- C29: if the player and all active enemies (slots below `enemyCount`, at
most `MAX_ENEMIES`) are inside the grid, the player's tile is not a Wall,
every active enemy has `sightRange ≥ 1` and no active enemy shares the
player's cell, then for every random stream `UpdateEnemies` returns a state
in which no active enemy shares the player's cell, the player's position is
unchanged and the inactive enemies are exactly as they were. -/
theorem UpdateEnemies_keeps_player_cell_free (st : GameState) (map : GameMap)
    (s : RandStream) (hcount : st.enemyCount ≤ MAX_ENEMIES)
    (hp : inGrid st.player.x st.player.y)
    (hpw : map.tiles st.player.x st.player.y ≠ .TILE_WALL)
    (hen : ∀ i, 0 ≤ i → i < st.enemyCount → (st.enemies i).active = true →
      inGrid (st.enemies i).x (st.enemies i).y ∧ 1 ≤ (st.enemies i).sightRange ∧
      ¬ ((st.enemies i).x = st.player.x ∧ (st.enemies i).y = st.player.y)) :
    ∃ st1 s1, UpdateEnemies st map s = .ok (st1, s1) ∧
      (∀ i, 0 ≤ i → i < st1.enemyCount → (st1.enemies i).active = true →
        ¬ ((st1.enemies i).x = st1.player.x ∧ (st1.enemies i).y = st1.player.y)) ∧
      st1.player.x = st.player.x ∧ st1.player.y = st.player.y ∧
      st1.enemyCount = st.enemyCount ∧
      (∀ i, (st.enemies i).active = false → st1.enemies i = st.enemies i) ∧
      (∀ i, (st1.enemies i).active = (st.enemies i).active) := by
  obtain ⟨⟨st1, s1⟩, hrun, hpx, hpy, hec, _, hinact, hflags, hfree⟩ := forLoop_inv
    (fun i (p : GameState × RandStream) =>
      p.1.player.x = st.player.x ∧ p.1.player.y = st.player.y ∧
      p.1.enemyCount = st.enemyCount ∧
      (∀ j, i ≤ j → p.1.enemies j = st.enemies j) ∧
      (∀ j, (st.enemies j).active = false → p.1.enemies j = st.enemies j) ∧
      (∀ j, (p.1.enemies j).active = (st.enemies j).active) ∧
      (∀ j, 0 ≤ j → j < i → (p.1.enemies j).active = true →
        ¬ ((p.1.enemies j).x = st.player.x ∧ (p.1.enemies j).y = st.player.y)))
    (updateEnemy map) (st.enemyCount - 0).toNat 0 (st, s)
    ⟨rfl, rfl, rfl, fun _ _ => rfl, fun _ _ => rfl, fun _ => rfl,
      fun j h0 h1 => absurd h0 (by omega)⟩
    (by
      rintro i ⟨state, sa⟩ hi0 hi1 ⟨hpx, hpy, hec, hrest, hinact, hflags, hfree⟩
      dsimp only at hpx hpy hec hrest hinact hflags hfree
      have hi2 : i < st.enemyCount := by omega
      have hei : state.enemies i = st.enemies i := hrest i (le_refl i)
      obtain ⟨st2, s2, hb, hpx2, hpy2, _, _, hec2, hothers, hact2, hskip, hnot, _⟩ :=
        updateEnemy_spec map i state sa (by omega) (by omega)
          (by rw [hpx, hpy]; exact hp) (by rw [hpx, hpy]; exact hpw)
          (by
            rw [hei, hpx, hpy]
            exact hen i (by omega) hi2)
      refine ⟨_, hb, hpx2.trans hpx, hpy2.trans hpy, hec2.trans hec, ?_, ?_, ?_, ?_⟩
      · intro j hj
        rw [hothers j (by omega)]
        exact hrest j (by omega)
      · intro j hj
        by_cases hji : j = i
        · subst hji
          have hina : (state.enemies j).active = false := by rw [hei]; exact hj
          rw [(hskip hina).1]
          exact hei
        · rw [hothers j hji]
          exact hinact j hj
      · intro j
        by_cases hji : j = i
        · subst hji
          rw [hact2, hei]
        · rw [hothers j hji]
          exact hflags j
      · intro j hj0 hj1 hja
        by_cases hji : j = i
        · subst hji
          rw [hact2] at hja
          have := hnot hja
          rw [hpx, hpy] at this
          exact this
        · rw [hothers j hji] at hja ⊢
          exact hfree j hj0 (by omega) hja)
  refine ⟨st1, s1, hrun, ?_, hpx, hpy, hec, hinact, hflags⟩
  intro i hi0 hi1 hia
  dsimp only at hpx hpy hec
  rw [hpx, hpy]
  rw [hec] at hi1
  exact hfree i hi0 (by omega) hia

theorem UpdateEnemies_keeps_player_cell_free_witness :
    (trollState 10).enemyCount ≤ MAX_ENEMIES ∧
    inGrid (trollState 10).player.x (trollState 10).player.y ∧
    (wallAt 0 0).tiles (trollState 10).player.x (trollState 10).player.y ≠ .TILE_WALL ∧
    (∀ i, 0 ≤ i → i < (trollState 10).enemyCount → ((trollState 10).enemies i).active = true →
      inGrid ((trollState 10).enemies i).x ((trollState 10).enemies i).y ∧
      1 ≤ ((trollState 10).enemies i).sightRange ∧
      ¬ (((trollState 10).enemies i).x = (trollState 10).player.x ∧
        ((trollState 10).enemies i).y = (trollState 10).player.y)) ∧
    ∃ st1 s1, UpdateEnemies (trollState 10) (wallAt 0 0) (streamOf [7]) = .ok (st1, s1) ∧
      (∀ i, 0 ≤ i → i < st1.enemyCount → (st1.enemies i).active = true →
        ¬ ((st1.enemies i).x = st1.player.x ∧ (st1.enemies i).y = st1.player.y)) ∧
      st1.player.x = (trollState 10).player.x ∧ st1.player.y = (trollState 10).player.y ∧
      st1.enemyCount = (trollState 10).enemyCount ∧
      (∀ i, ((trollState 10).enemies i).active = false →
        st1.enemies i = (trollState 10).enemies i) ∧
      (∀ i, (st1.enemies i).active = ((trollState 10).enemies i).active) :=
  have hen : ∀ i, 0 ≤ i → i < (trollState 10).enemyCount →
      ((trollState 10).enemies i).active = true →
      inGrid ((trollState 10).enemies i).x ((trollState 10).enemies i).y ∧
      1 ≤ ((trollState 10).enemies i).sightRange ∧
      ¬ (((trollState 10).enemies i).x = (trollState 10).player.x ∧
        ((trollState 10).enemies i).y = (trollState 10).player.y) := by
    intro i h0 h1 _
    have hc : (trollState 10).enemyCount = 1 := rfl
    have hi : i = 0 := by omega
    subst hi
    exact ⟨by decide, by decide, by decide⟩
  ⟨by decide, by decide, by decide, hen,
    UpdateEnemies_keeps_player_cell_free (trollState 10) (wallAt 0 0) (streamOf [7])
      (by decide) (by decide) (by decide) hen⟩

/-! ### The rooms of the tree after `CreateRoomsInBSP` -/

theorem checkError_elim {α : Type} {e : Except Fault α} {f : Fault}
    (h : checkError e f = true) : e = .error f := by
  cases e with
  | error e1 =>
    simp only [checkError, decide_eq_true_eq] at h
    rw [h]
  | ok a => cases h

/-- The function `FreeBSPTree` faults, with a double free, exactly on the
trees in which some `room` field points to a freed block. -/
theorem FreeBSPTree_eq (t : BSPNode) :
    FreeBSPTree t = if hasFreedRoom t = true then .error .doubleFree else .ok () := by
  induction t with
  | null => rfl
  | node x y width height left right room ihl ihr =>
    simp only [FreeBSPTree, hasFreedRoom, ihl, ihr]
    by_cases hl : hasFreedRoom left = true
    · simp [hl]
    · by_cases hr : hasFreedRoom right = true
      · simp [hl, hr]
      · cases room with
        | none => simp [hl, hr]
        | some block => by_cases hb : block.freed = true <;> simp [hl, hr, hb]

/-- When `CreateRoomsInBSP` returns, on a tree that is not `NULL` and a map
with a free room slot, some `room` field of the tree it leaves points to a
freed block: the block of the first leaf is copied to the map and freed. -/
theorem CreateRoomsInBSP_frees (minRoomSize : Int) (node : BSPNode) :
    ∀ (map : GameMap) (s : RandStream) (tree1 : BSPNode) (map1 : GameMap) (s1 : RandStream),
      CreateRoomsInBSP node map minRoomSize s = .ok (tree1, map1, s1) →
      node ≠ .null → map.roomCount < MAX_ROOMS → hasFreedRoom tree1 = true := by
  induction node with
  | null =>
    intro map s tree1 map1 s1 _ hne
    exact absurd rfl hne
  | node x y width height left right room ihl ihr =>
    intro map s tree1 map1 s1 h _ hcap
    by_cases hleaf : left = .null ∧ right = .null
    · obtain ⟨rfl, rfl⟩ := hleaf
      simp only [CreateRoomsInBSP, and_self, if_true] at h
      cases hc : CreateRoomInNode (.node x y width height .null .null room) minRoomSize s with
      | error e =>
        rw [hc] at h
        cases h
      | ok p =>
        obtain ⟨res, node1, s2⟩ := p
        obtain ⟨r, rfl, rfl⟩ := CreateRoomInNode_leaf_node hc
        rw [hc] at h
        simp only [if_pos hcap] at h
        cases hs : setRoom map map.roomCount r with
        | error e =>
          rw [hs] at h
          cases h
        | ok m1 =>
          rw [hs] at h
          dsimp only at h
          cases hcr : CreateRoom { m1 with roomCount := m1.roomCount + 1 }
              r.x r.y r.width r.height with
          | error e =>
            rw [hcr] at h
            cases h
          | ok m2 =>
            rw [hcr] at h
            simp only [freeRoom, Bool.false_eq_true, if_false] at h
            cases h
            simp [hasFreedRoom]
    · simp only [CreateRoomsInBSP, if_neg hleaf] at h
      cases h1 : CreateRoomsInBSP left map minRoomSize s with
      | error e =>
        rw [h1] at h
        cases h
      | ok p1 =>
        obtain ⟨left1, mapA, sa⟩ := p1
        rw [h1] at h
        dsimp only at h
        cases h2 : CreateRoomsInBSP right mapA minRoomSize sa with
        | error e =>
          rw [h2] at h
          cases h
        | ok p2 =>
          obtain ⟨right1, mapB, sb⟩ := p2
          rw [h2] at h
          dsimp only at h
          cases h
          by_cases hl : left = .null
          · subst hl
            simp only [CreateRoomsInBSP] at h1
            cases h1
            have hr : right ≠ .null := fun hr => hleaf ⟨rfl, hr⟩
            have := ihr _ _ _ _ _ h2 hr hcap
            simp [hasFreedRoom, this]
          · have := ihl _ _ _ _ _ h1 hl hcap
            simp [hasFreedRoom, this]

/-- The room list after the first steps of `GenerateBSPDungeon`: on a map
with no room yet, for a tree of `GenerateBSPTree` whose leaves are all at
least `MIN_ROOM_SIZE + 3` wide and high, when `CreateRoomsInBSP` returns any
two distinct rooms of the room list are apart: one ends, with at least one
free column or row, before the other starts. -/
theorem CreateRoomsInBSP_rooms_apart (map0 : GameMap) (s : RandStream)
    (tree : BSPNode) (s0 : RandStream) (tree1 : BSPNode) (map1 : GameMap) (s1 : RandStream)
    (hcount0 : map0.roomCount = 0)
    (htree : GenerateBSPTree (CreateNode 0 0 MAP_WIDTH MAP_HEIGHT) MIN_ROOM_SIZE 5 s
      = .ok (tree, s0))
    (hleaves : ∀ leaf k, LeafAt tree k leaf →
      MIN_ROOM_SIZE + 3 ≤ nodeWidth leaf ∧ MIN_ROOM_SIZE + 3 ≤ nodeHeight leaf)
    (hc : CreateRoomsInBSP tree map0 MIN_ROOM_SIZE s0 = .ok (tree1, map1, s1)) :
    ∀ i j, 0 ≤ i → i < map1.roomCount → 0 ≤ j → j < map1.roomCount → i ≠ j →
      RoomsApart (map1.rooms i) (map1.rooms j) := by
  have htiled : Tiled tree := by
    obtain ⟨l, r, s2, hgen, ht⟩ :=
      GenerateBSPTreeFuel_tiled MIN_ROOM_SIZE (by decide) 5 0 0 MAP_WIDTH MAP_HEIGHT s
    have htree1 : GenerateBSPTreeFuel 5 (CreateNode 0 0 MAP_WIDTH MAP_HEIGHT) MIN_ROOM_SIZE s
        = .ok (tree, s0) := htree
    rw [hgen] at htree1
    injection htree1 with htree1
    injection htree1 with htree1 _
    rw [← htree1]
    exact ht
  obtain ⟨rooms, hrooms, hstamp⟩ := CreateRoomsInBSP_ok_spec _ _ _ _ _ _ _ hc
  obtain ⟨_, hpair⟩ := roomsOfLeaves_apart MIN_ROOM_SIZE htiled _ _ _ hleaves hrooms
  generalize hl : rooms.take (MAX_ROOMS - map0.roomCount).toNat = l at hstamp
  have hpairl : l.Pairwise RoomsApart := by
    rw [← hl]
    exact hpair.sublist (List.take_sublist _ _)
  obtain ⟨hlen, _, hslots, _⟩ := stampRooms_ok l map0 map1 hstamp
  rw [hcount0] at hlen hslots
  have hsym : ∀ a b : Room, RoomsApart a b → RoomsApart b a := by
    intro a b h
    unfold RoomsApart at h ⊢
    omega
  have hlt : ∀ i j : Int, 0 ≤ i → i < j → j < map1.roomCount →
      RoomsApart (map1.rooms i) (map1.rooms j) := by
    intro i j hi hij hj
    rw [hlen] at hj
    have hjl : j.toNat < l.length := by omega
    have hil : i.toNat < l.length := by omega
    have hgi := hslots i.toNat hil
    have hgj := hslots j.toNat hjl
    have ei : (0 : Int) + (i.toNat : Int) = i := by omega
    have ej : (0 : Int) + (j.toNat : Int) = j := by omega
    rw [ei] at hgi
    rw [ej] at hgj
    rw [List.getElem?_eq_getElem hil] at hgi
    rw [List.getElem?_eq_getElem hjl] at hgj
    injection hgi with hgi
    injection hgj with hgj
    rw [← hgi, ← hgj]
    exact List.pairwise_iff_getElem.mp hpairl i.toNat j.toNat hil hjl (by omega)
  intro i j hi hic hj hjc hne
  rcases lt_or_gt_of_ne hne with h | h
  · exact hlt i j hi h hjc
  · exact hsym _ _ (hlt j i hj h hic)

/-- C13 (the code at the failing input): on the stream `sixRoomsStream`, the
run of `GenerateBSPDungeon` from the empty map and the run from a map of
Floor tiles with one Wall both end in a read of a freed room block, for the
arguments of the first call of `ConnectRooms`: neither returns a tile grid
or a room list. -/
theorem GenerateBSPDungeon_runs_read_freed_rooms :
    GenerateBSPDungeon emptyMap sixRoomsStream = .error .useAfterFree ∧
    GenerateBSPDungeon (wallAt 0 0) sixRoomsStream = .error .useAfterFree := by
  have k1 : checkError (GenerateBSPDungeon emptyMap sixRoomsStream) .useAfterFree = true := by
    decide!
  have k2 : checkError (GenerateBSPDungeon (wallAt 0 0) sixRoomsStream) .useAfterFree
      = true := by decide!
  exact ⟨checkError_elim k1, checkError_elim k2⟩

end DungeonDelve
